import Mathlib

/-!
# clio: ledger_data handler and RPC server handler

A shallow embedding of

* `src/rpc/handlers/LedgerData.cpp` (`LedgerDataHandler::process` and the two
  `tag_invoke` conversions), and
* `src/web/RPCServerHandler.h` (`RPCServerHandler::operator()`,
  `handleRequest`, `shouldReplaceParams`),

followed by theorems about them.

Conventions of the embedding:

* `boost::json::value` is the inductive type `Json`; a `boost::json::object` is an
  association list `JObject` in insertion order.
* Unsigned 32-bit values are natural numbers, reduced `% 2 ^ 32` wherever the
  C++ arithmetic or a narrowing conversion can leave the range.
* The backend is a record of functions over an abstract world state `σ`; every
  call returns its result together with the next world state, and is recorded
  in a call log, so that the order and the number of the calls can be stated.
* C++ exceptions and undefined behaviour are explicit outcomes.
-/

set_option autoImplicit false

namespace Clio

/-! ## JSON values (`boost::json`) -/

/-- The kinds of `boost::json::value`. A double is kept as an uninterpreted bit pattern. -/
inductive Json where
  | null
  | bool (b : Bool)
  | int64 (i : Int)
  | uint64 (n : Nat)
  | double (bits : Nat)
  | string (s : String)
  | array (elems : List Json)
  | object (members : List (String × Json))

/-- A `boost::json::object`: key/value pairs in insertion order. -/
abbrev JObject := List (String × Json)

namespace Json

/-- `value::is_null`. -/
def is_null : Json → Bool
  | null => true
  | _ => false

/-- `value::is_bool`. -/
def is_bool : Json → Bool
  | bool _ => true
  | _ => false

/-- `value::is_string`. -/
def is_string : Json → Bool
  | string _ => true
  | _ => false

/-- `value::is_array`. -/
def is_array : Json → Bool
  | array _ => true
  | _ => false

/-- `value::is_object`. -/
def is_object : Json → Bool
  | object _ => true
  | _ => false

/-- `value::as_bool`; `none` stands for the exception thrown on another kind. -/
def as_bool : Json → Option Bool
  | bool b => some b
  | _ => none

/-- `value::as_int64`; `none` stands for the exception thrown on another kind. -/
def as_int64 : Json → Option Int
  | int64 i => some i
  | _ => none

/-- `value::as_string`; `none` stands for the exception thrown on another kind. -/
def as_string : Json → Option String
  | string s => some s
  | _ => none

/-- `value::as_array`; `none` stands for the exception thrown on another kind. -/
def as_array : Json → Option (List Json)
  | array a => some a
  | _ => none

/-- `value::as_object`; `none` stands for the exception thrown on another kind. -/
def as_object : Json → Option JObject
  | object o => some o
  | _ => none

end Json

namespace JObject

/-- `object::at` as a partial lookup: the value of the first member named `k`. -/
def at? : JObject → String → Option Json
  | [], _ => none
  | (k', v) :: rest, k => if k' = k then some v else at? rest k

/-- `object::contains`. -/
def contains (o : JObject) (k : String) : Bool :=
  (at? o k).isSome

/-- `object::insert_or_assign`, also the effect of `obj[k] = v`: the value of an
existing member is replaced in place, a new member is appended. -/
def insert_or_assign : JObject → String → Json → JObject
  | [], k, v => [(k, v)]
  | (k', v') :: rest, k, v =>
      if k' = k then (k', v) :: rest else (k', v') :: insert_or_assign rest k v

/-- The keys of an object, in order. -/
def keys (o : JObject) : List String :=
  o.map Prod.fst

end JObject

/-! ## `web::RPCServerHandler` -/

/-- The fields and queries of `web::ConnectionBase` that the handler reads. -/
structure Connection where
  upgraded : Bool
  clientIp : String
  isAdmin : Bool
  tag : String

/-- The struct `data::LedgerRange`. -/
structure LedgerRange where
  minSequence : Nat
  maxSequence : Nat
deriving DecidableEq, Repr

/-- The enum `RippledError`, as far as the two files name its values. -/
inductive RippledError where
  | rpcINVALID_PARAMS
  | rpcOther (code : Nat)
deriving DecidableEq, Repr

/-- The struct `rpc::Status`, built by `Status{code, message}`. -/
structure Status where
  code : RippledError
  message : String
deriving DecidableEq, Repr

/-- The web context made by `rpc::make_WsContext` and `rpc::make_HttpContext`. -/
structure WebContext where
  method : String
  params : JObject
  range : LedgerRange
  clientIp : String
  isAdmin : Bool
  tag : String

/-- The exception types that the `catch` clauses of `operator()` tell apart: a
`boost::system::system_error`, a `std::invalid_argument`, and any other `std::exception`. -/
inductive ExceptionKind where
  | system_error
  | invalid_argument
  | other
deriving DecidableEq, Repr

/-- What `rpcEngine_->post` does with a work unit: it is taken, refused, or the call throws
an exception of some type. -/
inductive PostOutcome where
  | accepted
  | rejected
  | threw (kind : ExceptionKind)
deriving DecidableEq, Repr

/-- What `rpcEngine_->buildResponse` yields: an error status, a result object, or an
exception that leaves the call. -/
inductive BuildOutcome where
  | status (s : Status)
  | result (json : JObject)
  | threw

/-- The collaborators of `RPCServerHandler`, none of which is defined in the two files:
the JSON parser, the RPC engine, the backend's range, the context factories, the error
helper, the ETL age and the two warning objects. -/
structure Services where
  /-- `boost::json::parse`; `none` stands for the `system_error` of a failed parse. -/
  parse : String → Option Json
  /-- `rpcEngine_->post(work, clientIp)`; the work unit is given by what it binds. -/
  post : JObject → Connection → String → PostOutcome
  /-- `backend_->fetchLedgerRange()`. -/
  fetchLedgerRange : Option LedgerRange
  /-- `rpc::make_WsContext(yield, request, connection, tag, range, clientIp, parser)`. -/
  make_WsContext : JObject → Connection → LedgerRange → String → Except Status WebContext
  /-- `rpc::make_HttpContext(yield, request, tag, range, clientIp, parser, isAdmin)`. -/
  make_HttpContext : JObject → LedgerRange → String → Bool → Except Status WebContext
  /-- `rpcEngine_->buildResponse(context)`. -/
  buildResponse : WebContext → BuildOutcome
  /-- `web::detail::ErrorHelper(connection, request).composeError(status)`. -/
  composeError : Connection → JObject → Status → JObject
  /-- `etl_->lastCloseAgeSeconds()`. -/
  lastCloseAgeSeconds : Nat
  /-- `rpc::makeWarning(rpc::warnRPC_CLIO)`. -/
  warnRPC_CLIO : Json
  /-- `rpc::makeWarning(rpc::warnRPC_OUTDATED)`. -/
  warnRPC_OUTDATED : Json

/-- The observable actions of the handler, in the order they happen. -/
inductive Event where
  | post (request : JObject) (connection : Connection) (clientIp : String)
  | notifyTooBusy
  | sendTooBusyError
  | notifyBadSyntax
  | sendJsonParsingError
  | notifyInternalError
  | notifyNotReady
  | sendNotReadyError (request : JObject)
  | sendError (err : Status) (request : JObject)
  | makeContext (upgraded : Bool) (request : JObject) (range : LedgerRange)
  | buildResponse (context : WebContext)
  | notifyComplete (method : String)
  | send (response : JObject)
  | sendInternalError (request : JObject)

/-- How a call of the handler ends: it returns, or an exception leaves it. -/
inductive Completion where
  | returned
  | rethrown
deriving DecidableEq, Repr

namespace RPCServerHandler

/-- The member name `JS(params)`. -/
def jsParams : String := "params"

/-- `RPCServerHandler::shouldReplaceParams`. -/
def shouldReplaceParams (req : JObject) : Bool :=
  let params := req.at? jsParams
  let hasParams := req.contains jsParams
  let paramsIsArray := hasParams && (params.map Json.is_array).getD false
  let paramsIsEmptyString := hasParams && (params.map Json.is_string).getD false &&
    ((params.bind Json.as_string).map String.isEmpty).getD false
  let paramsIsEmptyObject := hasParams && (params.map Json.is_object).getD false &&
    ((params.bind Json.as_object).map List.isEmpty).getD false
  let paramsIsNull := hasParams && (params.map Json.is_null).getD false
  let arrayIsEmpty := paramsIsArray && ((params.bind Json.as_array).map List.isEmpty).getD false
  let arrayIsNotEmpty :=
    paramsIsArray && !((params.bind Json.as_array).map List.isEmpty).getD false
  let firstArg := (params.bind Json.as_array).bind List.head?
  let firstArgIsNull := arrayIsNotEmpty && (firstArg.map Json.is_null).getD false
  let firstArgIsEmptyString := arrayIsNotEmpty && (firstArg.map Json.is_string).getD false &&
    ((firstArg.bind Json.as_string).map String.isEmpty).getD false
  !hasParams || paramsIsEmptyString || paramsIsNull || paramsIsEmptyObject || arrayIsEmpty ||
    firstArgIsEmptyString || firstArgIsNull

/-- The value `boost::json::array({boost::json::object{}})`. -/
def emptyParams : Json := Json.array [Json.object []]

/-- The request object bound into the work unit: lines 114-115 of `operator()`. -/
def normalizeParams (connection : Connection) (req : JObject) : JObject :=
  if !connection.upgraded && shouldReplaceParams req then
    req.insert_or_assign jsParams emptyParams
  else
    req

/-- The three `catch` clauses of `operator()` (lines 126-140), for an exception of the
given type raised anywhere in the `try` block, after the events `before`. The first clause
that matches the type handles it: a `system_error` and an `invalid_argument` are counted
with `notifyBadSyntax` and answered with the JSON-parsing error, wherever they were
raised; any other `std::exception` is counted with `notifyInternalError` and thrown
again. -/
def operatorCatch (kind : ExceptionKind) (before : List Event) : List Event × Completion :=
  match kind with
  | ExceptionKind.system_error =>
      -- catch (boost::system::system_error const&)
      (before ++ [Event.notifyBadSyntax, Event.sendJsonParsingError], Completion.returned)
  | ExceptionKind.invalid_argument =>
      -- catch (std::invalid_argument const&)
      (before ++ [Event.notifyBadSyntax, Event.sendJsonParsingError], Completion.returned)
  | ExceptionKind.other =>
      -- catch (std::exception const&)
      (before ++ [Event.notifyInternalError], Completion.rethrown)

/-- `RPCServerHandler::operator()(std::string const&, connection)`: the events it causes
and how it ends. A failed parse throws a `system_error`, the cast of a value that is not an
object an `invalid_argument`, and `post` may throw an exception of any type; the `notify`
and `send` calls are taken to return. Logging is left out. -/
def operatorCall (S : Services) (request : String) (connection : Connection) :
    List Event × Completion :=
  match S.parse request with
  | none => operatorCatch ExceptionKind.system_error []
  | some v =>
      match v.as_object with
      | none => operatorCatch ExceptionKind.invalid_argument []
      | some req0 =>
          let req := normalizeParams connection req0
          match S.post req connection connection.clientIp with
          | PostOutcome.accepted =>
              ([Event.post req connection connection.clientIp], Completion.returned)
          | PostOutcome.rejected =>
              ([Event.post req connection connection.clientIp, Event.notifyTooBusy,
                Event.sendTooBusyError], Completion.returned)
          | PostOutcome.threw kind =>
              operatorCatch kind [Event.post req connection connection.clientIp]

/-- The request object that `operator()` binds into the work unit it hands to
`rpcEngine_->post`, when the request parses to an object. -/
def boundRequest (S : Services) (request : String) (connection : Connection) : Option JObject :=
  (operatorCall S request connection).1.findSome? fun e =>
    match e with
    | Event.post req _ _ => some req
    | _ => none

/-- The flag `isForwarded` of `handleRequest` (lines 230-231). -/
def isForwarded (json : JObject) : Bool :=
  json.contains "forwarded" && ((json.at? "forwarded").map Json.is_bool).getD false &&
    ((json.at? "forwarded").bind Json.as_bool).getD false

/-- The envelope body before the transport fields are added (lines 236-241): the `response`
object, empty before, after the merge loop or after `response["result"] = json`. -/
def composeBody (connection : Connection) (json : JObject) : JObject :=
  if isForwarded json && (json.contains "result" || connection.upgraded) then
    json.foldl (fun response kv => response.insert_or_assign kv.1 kv.2) []
  else
    JObject.insert_or_assign [] "result" (Json.object json)

/-- The transport fields (lines 245-258); `none` stands for the exception of
`response["result"].as_object()` on a `result` that is not an object. -/
def addStatus (connection : Connection) (request : JObject) (response : JObject) :
    Option JObject :=
  if connection.upgraded then
    let id := if request.contains "id" then (request.at? "id").getD Json.null else Json.null
    let response := if !id.is_null then response.insert_or_assign "id" id else response
    let response :=
      if !response.contains "error" then
        response.insert_or_assign "status" (Json.string "success")
      else
        response
    some (response.insert_or_assign "type" (Json.string "response"))
  else if response.contains "result" then
    match (response.at? "result").bind Json.as_object with
    | none => none
    | some result =>
        if !result.contains "error" then
          some (response.insert_or_assign "result"
            (Json.object (result.insert_or_assign "status" (Json.string "success"))))
        else
          some response
  else
    some response

/-- The array `warnings` of `handleRequest` (lines 261-265). -/
def warnings (S : Services) : List Json :=
  if S.lastCloseAgeSeconds ≥ 60 then [S.warnRPC_CLIO, S.warnRPC_OUTDATED] else [S.warnRPC_CLIO]

/-- The context of `handleRequest` (lines 178-199): `rpc::make_WsContext` on a persistent
connection, `rpc::make_HttpContext` on a one-shot one. -/
def makeContext (S : Services) (request : JObject) (connection : Connection)
    (range : LedgerRange) : Except Status WebContext :=
  if connection.upgraded then
    S.make_WsContext request connection range connection.clientIp
  else
    S.make_HttpContext request range connection.clientIp connection.isAdmin

/-- `RPCServerHandler::handleRequest`: the events it causes and how it ends. It returns on
every path: its own `catch` counts the failure, sends the internal error and returns.
Logging and timing are left out. -/
def handleRequest (S : Services) (request : JObject) (connection : Connection) :
    List Event × Completion :=
  match S.fetchLedgerRange with
  | none => ([Event.notifyNotReady, Event.sendNotReadyError request], Completion.returned)
  | some range =>
      let made := Event.makeContext connection.upgraded request range
      match makeContext S request connection range with
      | Except.error err =>
          ([made, Event.notifyBadSyntax, Event.sendError err request], Completion.returned)
      | Except.ok ctx =>
          match S.buildResponse ctx with
          | BuildOutcome.threw =>
              -- catch (std::exception const&)
              ([made, Event.buildResponse ctx, Event.notifyInternalError,
                Event.sendInternalError request], Completion.returned)
          | BuildOutcome.status status =>
              let response := S.composeError connection request status
              ([made, Event.buildResponse ctx,
                Event.send (response.insert_or_assign "warnings" (Json.array (warnings S)))],
                Completion.returned)
          | BuildOutcome.result json =>
              match addStatus connection request (composeBody connection json) with
              | none =>
                  -- catch (std::exception const&)
                  ([made, Event.buildResponse ctx, Event.notifyComplete ctx.method,
                    Event.notifyInternalError, Event.sendInternalError request],
                    Completion.returned)
              | some response =>
                  ([made, Event.buildResponse ctx, Event.notifyComplete ctx.method,
                    Event.send (response.insert_or_assign "warnings" (Json.array (warnings S)))],
                    Completion.returned)

/-- Modelled from the spec: the bounded executor behind `rpcEngine_->post`, whose code is
not among the sources. It "either accepts a unit of work or signals saturation"; an
accepted unit runs, which here is `handleRequest` on the bound request and connection, and
"a request rejected at admission (queue saturated) never starts". The events of
`operator()` are followed by those of the unit when it was accepted. -/
def dispatch (S : Services) (request : String) (connection : Connection) : List Event :=
  (operatorCall S request connection).1 ++
    match boundRequest S request connection with
    | none => []
    | some req =>
        match S.post req connection connection.clientIp with
        | PostOutcome.accepted => (handleRequest S req connection).1
        | _ => []

/-- The condition of the specification for rewriting the parameters, in its words: the
request has no parameters, or they are an empty string, an empty object, an empty array,
null, or an array whose first element is null or an empty string. -/
def specReplaceParams (req : JObject) : Bool :=
  match req.at? jsParams with
  | none => true
  | some (Json.string s) => decide (s = "")
  | some (Json.object o) => decide (o.length = 0)
  | some (Json.array []) => true
  | some Json.null => true
  | some (Json.array (Json.null :: _)) => true
  | some (Json.array (Json.string s :: _)) => decide (s = "")
  | some _ => false

end RPCServerHandler

/-! ## `rpc::LedgerDataHandler` -/

/-- A `ripple::uint256`, as the number it denotes. -/
abbrev Uint256 := Nat

/-- A `data::Blob`: a vector of bytes. -/
abbrev Blob := List Nat

/-- The struct `data::LedgerObject`. -/
structure LedgerObject where
  key : Uint256
  blob : Blob
deriving DecidableEq, Repr

/-- The struct `data::LedgerPage`. -/
structure LedgerPage where
  objects : List LedgerObject
  cursor : Option Uint256
deriving DecidableEq, Repr

/-- The fields of `ripple::LedgerHeader` that `process` reads itself; the others reach
the output only through `toJson`. -/
structure LedgerHeader where
  seq : Nat
  hash : Uint256
deriving DecidableEq, Repr

/-- The enum `ripple::LedgerEntryType`: the values named in `LedgerData.cpp`, and the others. -/
inductive LedgerEntryType where
  | ltANY
  | ltACCOUNT_ROOT
  | ltDID
  | ltAMENDMENTS
  | ltCHECK
  | ltDEPOSIT_PREAUTH
  | ltDIR_NODE
  | ltESCROW
  | ltFEE_SETTINGS
  | ltLEDGER_HASHES
  | ltOFFER
  | ltPAYCHAN
  | ltSIGNER_LIST
  | ltRIPPLE_STATE
  | ltTICKET
  | ltNFTOKEN_OFFER
  | ltNFTOKEN_PAGE
  | ltAMM
  | ltOTHER (code : Nat)
deriving DecidableEq, Repr

/-- The 32-bit truncation of a narrowing conversion from `int64_t` to `uint32_t`. -/
def toUint32 (i : Int) : Nat :=
  (i % (2 ^ 32 : Int)).toNat

/-- Subtraction of `uint32_t` values, which wraps around. -/
def sub32 (a b : Nat) : Nat :=
  (a % 2 ^ 32 + (2 ^ 32 - b % 2 ^ 32)) % 2 ^ 32

namespace LedgerDataHandler

/-- `LedgerDataHandler::TYPES_MAP`. -/
def TYPES_MAP : List (String × LedgerEntryType) :=
  [("account", LedgerEntryType.ltACCOUNT_ROOT),
   ("did", LedgerEntryType.ltDID),
   ("amendments", LedgerEntryType.ltAMENDMENTS),
   ("check", LedgerEntryType.ltCHECK),
   ("deposit_preauth", LedgerEntryType.ltDEPOSIT_PREAUTH),
   ("directory", LedgerEntryType.ltDIR_NODE),
   ("escrow", LedgerEntryType.ltESCROW),
   ("fee", LedgerEntryType.ltFEE_SETTINGS),
   ("hashes", LedgerEntryType.ltLEDGER_HASHES),
   ("offer", LedgerEntryType.ltOFFER),
   ("payment_channel", LedgerEntryType.ltPAYCHAN),
   ("signer_list", LedgerEntryType.ltSIGNER_LIST),
   ("state", LedgerEntryType.ltRIPPLE_STATE),
   ("ticket", LedgerEntryType.ltTICKET),
   ("nft_offer", LedgerEntryType.ltNFTOKEN_OFFER),
   ("nft_page", LedgerEntryType.ltNFTOKEN_PAGE),
   ("amm", LedgerEntryType.ltAMM)]

/-- `LedgerDataHandler::TYPES_KEYS`. -/
def TYPES_KEYS : List String :=
  TYPES_MAP.map Prod.fst

/-- The struct `LedgerDataHandler::Input`, with the fields that `LedgerData.cpp` reads and
writes. -/
structure Input where
  ledgerHash : Option String
  ledgerIndex : Option Nat
  binary : Bool
  limit : Nat
  marker : Option Uint256
  diffMarker : Option Nat
  outOfOrder : Bool
  type : LedgerEntryType
deriving DecidableEq, Repr

/-- The struct `LedgerDataHandler::Output`, with the fields that `LedgerData.cpp` reads and
writes. -/
structure Output where
  states : List Json
  ledgerHash : String
  ledgerIndex : Nat
  marker : Option String
  diffMarker : Option Nat
  cacheFull : Option Bool
  header : Option Json
  validated : Bool

/-- The part of `rpc::Context` that `process` reads. -/
structure Context where
  apiVersion : Nat
deriving DecidableEq, Repr

/-- What `LedgerData.cpp` uses and does not define: the two limit ceilings and the default
of `Output::validated` (declared in `LedgerData.h`), and the ripple library functions. -/
structure Env where
  LIMITBINARY : Nat
  LIMITJSON : Nat
  /-- The value of `validated` in a default-constructed `Output`. -/
  validated : Bool
  /-- `ripple::strHex` on a `uint256`. -/
  strHex : Uint256 → String
  /-- `ripple::to_string` on a `uint256`. -/
  to_string : Uint256 → String
  /-- `toJson(lgrInfo, binary, apiVersion)`. -/
  toJsonHeader : LedgerHeader → Bool → Nat → Json
  /-- The entry type read by `ripple::STLedgerEntry{SerialIter{blob}, key}` and returned by
  `getType()`; `none` stands for the exception of a blob that does not decode. -/
  sleType : Blob → Uint256 → Option LedgerEntryType
  /-- `ripple::serializeHex(sle)`. -/
  serializeHex : Blob → Uint256 → String
  /-- `toJson(sle)`. -/
  toJsonSLE : Blob → Uint256 → Json
  /-- `ripple::uint256{str}`; `none` stands for the exception of a malformed string. -/
  parseUint256 : String → Option Uint256
  /-- `std::stoi`; `none` stands for its exception. -/
  stoi : String → Option Int

/-- The backend interface over a world state `σ`: each call yields its result and the
world after it. `getLedgerInfoFromHashOrSeq` is the helper of `RPCHelpers`, which reads the
backend; its left result is the error status. -/
structure Backend (σ : Type) where
  fetchLedgerRange : σ → Option LedgerRange × σ
  getLedgerInfoFromHashOrSeq :
    σ → Option String → Option Nat → Nat → (Status ⊕ LedgerHeader) × σ
  fetchLedgerObject : σ → Uint256 → Nat → Option Blob × σ
  fetchLedgerDiff : σ → Nat → List LedgerObject × σ
  fetchLedgerObjects : σ → List Uint256 → Nat → List Blob × σ
  fetchLedgerPage : σ → Option Uint256 → Nat → Nat → Bool → LedgerPage × σ
  cacheIsFull : σ → Bool × σ

/-- A call of the backend: its arguments and, last, what it returned. -/
inductive Call where
  | fetchLedgerRange (result : Option LedgerRange)
  | getLedgerInfoFromHashOrSeq (ledgerHash : Option String) (ledgerIndex : Option Nat)
      (maxSequence : Nat) (result : Status ⊕ LedgerHeader)
  | fetchLedgerObject (key : Uint256) (seq : Nat) (result : Option Blob)
  | fetchLedgerDiff (seq : Nat) (result : List LedgerObject)
  | fetchLedgerObjects (keys : List Uint256) (seq : Nat) (result : List Blob)
  | fetchLedgerPage (cursor : Option Uint256) (seq : Nat) (limit : Nat) (outOfOrder : Bool)
      (result : LedgerPage)
  | cacheIsFull (result : Bool)
deriving DecidableEq, Repr

/-- Whether a call fetches ledger records: a page, a diff, or a batch of objects. -/
def Call.isRecordFetch : Call → Bool
  | Call.fetchLedgerPage _ _ _ _ _ => true
  | Call.fetchLedgerDiff _ _ => true
  | Call.fetchLedgerObjects _ _ _ => true
  | _ => false

/-- How `process` ends: `Error{status}`, an `Output`, an exception that leaves it, or
undefined behaviour (an empty optional dereferenced, a vector read past its end). -/
inductive Outcome where
  | error (status : Status)
  | ok (output : Output)
  | exception
  | undefinedBehaviour

/-- The output of a successful outcome. -/
def Outcome.output? : Outcome → Option Output
  | Outcome.ok output => some output
  | _ => none

/-- The status of an error outcome. -/
def Outcome.status? : Outcome → Option Status
  | Outcome.error status => some status
  | _ => none

/-- The result of running `process`: how it ends, the world after it, and the backend calls
it made, in order, up to an undefined behaviour if there is one. -/
structure Run (σ : Type) where
  outcome : Outcome
  world : σ
  calls : List Call

/-- The keys pushed by the first loop of the diff branch: those of the diff entries whose
object is empty, in diff order. -/
def diffKeys (diff : List LedgerObject) : List Uint256 :=
  (diff.filter fun o => o.blob.isEmpty).map LedgerObject.key

/-- The second loop of the diff branch from index `i` on: a non-empty `objs[i]` is pushed
with `keys[i]`; reading `keys` past its end is undefined behaviour (`none`). -/
def collectFrom (keys : List Uint256) : Nat → List Blob → Option (List LedgerObject)
  | _, [] => some []
  | i, obj :: rest =>
      if obj.isEmpty then
        collectFrom keys (i + 1) rest
      else
        match keys[i]? with
        | none => none
        | some key => (collectFrom keys (i + 1) rest).map fun rs => ⟨key, obj⟩ :: rs

/-- The second loop of the diff branch. -/
def collectObjects (keys : List Uint256) (objs : List Blob) : Option (List LedgerObject) :=
  collectFrom keys 0 objs

/-- The limit passed to `fetchLedgerPage`: `std::min(input.limit, ceiling)`. -/
def effectiveLimit (E : Env) (input : Input) : Nat :=
  min input.limit (if input.binary then E.LIMITBINARY else E.LIMITJSON)

/-- What the fetch step (lines 118-153) leaves behind: the records, the two markers of the
output, the world and the calls made. -/
structure Fetched (σ : Type) where
  results : List LedgerObject
  marker : Option String
  diffMarker : Option Nat
  world : σ
  calls : List Call

/-- How the fetch step ends: with the records fetched, or in undefined behaviour after the
calls made so far. -/
inductive FetchResult (σ : Type) where
  | fetched (f : Fetched σ)
  | undefinedBehaviour (world : σ) (calls : List Call)

/-- The backend calls of the fetch step. -/
def FetchResult.calls {σ : Type} : FetchResult σ → List Call
  | FetchResult.fetched f => f.calls
  | FetchResult.undefinedBehaviour _ calls => calls

/-- The diff branch of `process` (lines 120-139). -/
def fetchDiff {σ : Type} (B : Backend σ) (diffMarker : Nat) (seq : Nat) (w : σ) :
    FetchResult σ :=
  let diff := B.fetchLedgerDiff w diffMarker
  let keys := diffKeys diff.1
  let objs := B.fetchLedgerObjects diff.2 keys seq
  let calls := [Call.fetchLedgerDiff diffMarker diff.1, Call.fetchLedgerObjects keys seq objs.1]
  match collectObjects keys objs.1 with
  | none => FetchResult.undefinedBehaviour objs.2 calls
  | some results =>
      FetchResult.fetched {
        results := results
        marker := none
        diffMarker := if diffMarker > seq then some (sub32 diffMarker 1) else none
        world := objs.2
        calls := calls }

/-- The full-state branch of `process` (lines 140-153). -/
def fetchPage {σ : Type} (E : Env) (B : Backend σ) (input : Input) (seq : Nat) (w : σ) :
    FetchResult σ :=
  let limit := effectiveLimit E input
  let page := B.fetchLedgerPage w input.marker seq limit input.outOfOrder
  let call := Call.fetchLedgerPage input.marker seq limit input.outOfOrder page.1
  match page.1.cursor with
  | some cursor =>
      FetchResult.fetched {
        results := page.1.objects
        marker := some (E.strHex cursor)
        diffMarker := none
        world := page.2
        calls := [call] }
  | none =>
      if input.outOfOrder then
        let range := B.fetchLedgerRange page.2
        match range.1 with
        | none => FetchResult.undefinedBehaviour range.2 [call, Call.fetchLedgerRange range.1]
        | some r =>
            FetchResult.fetched {
              results := page.1.objects
              marker := none
              diffMarker := some r.maxSequence
              world := range.2
              calls := [call, Call.fetchLedgerRange range.1] }
      else
        FetchResult.fetched {
          results := page.1.objects
          marker := none
          diffMarker := none
          world := page.2
          calls := [call] }

/-- The entry emitted for one record that passed the type filter (lines 166-173). -/
def encodeState (E : Env) (binary : Bool) (o : LedgerObject) : Json :=
  if binary then
    Json.object [("data", Json.string (E.serializeHex o.blob o.key)),
                 ("index", Json.string (E.to_string o.key))]
  else
    E.toJsonSLE o.blob o.key

/-- The serialization loop (lines 161-175); `none` stands for the exception of a record
that does not decode. -/
def serializeStates (E : Env) (input : Input) : List LedgerObject → Option (List Json)
  | [] => some []
  | o :: rest =>
      match E.sleType o.blob o.key with
      | none => none
      | some t =>
          if input.type = LedgerEntryType.ltANY ∨ t = input.type then
            (serializeStates E input rest).map fun js => encodeState E input.binary o :: js
          else
            serializeStates E input rest

/-- The fetch step of `process` (lines 120-153): the diff branch when `input.diffMarker`
is set, the full-state branch otherwise. -/
def fetchStep {σ : Type} (E : Env) (B : Backend σ) (input : Input) (seq : Nat) (w : σ) :
    FetchResult σ :=
  match input.diffMarker with
  | some diffMarker => fetchDiff B diffMarker seq w
  | none => fetchPage E B input seq w

/-- Whether a record passes the type filter of line 165: the requested type is `ltANY`, or
the record decodes to the requested type. -/
def passesFilter (E : Env) (input : Input) (o : LedgerObject) : Bool :=
  decide (input.type = LedgerEntryType.ltANY ∨ E.sleType o.blob o.key = some input.type)

/-- The second half of `process` (lines 114-184), after the ledger is resolved and the
marker is checked. -/
def finish {σ : Type} (E : Env) (B : Backend σ) (input : Input) (lgrInfo : LedgerHeader)
    (header : Option Json) (w : σ) (calls : List Call) : Run σ :=
  match fetchStep E B input lgrInfo.seq w with
  | FetchResult.undefinedBehaviour w2 calls2 =>
      ⟨Outcome.undefinedBehaviour, w2, calls ++ calls2⟩
  | FetchResult.fetched f =>
      match serializeStates E input f.results with
      | none => ⟨Outcome.exception, f.world, calls ++ f.calls⟩
      | some states =>
          let output : Output := {
            states := states
            ledgerHash := E.strHex lgrInfo.hash
            ledgerIndex := lgrInfo.seq
            marker := f.marker
            diffMarker := f.diffMarker
            cacheFull := none
            header := header
            validated := E.validated }
          if input.outOfOrder then
            let full := B.cacheIsFull f.world
            ⟨Outcome.ok { output with cacheFull := some full.1 }, full.2,
              calls ++ f.calls ++ [Call.cacheIsFull full.1]⟩
          else
            ⟨Outcome.ok output, f.world, calls ++ f.calls⟩

/-- `LedgerDataHandler::process`. Logging and the clock reads are left out. -/
def process {σ : Type} (E : Env) (B : Backend σ) (input : Input) (ctx : Context) (w : σ) :
    Run σ :=
  if input.outOfOrder && input.marker.isSome then
    ⟨Outcome.error ⟨RippledError.rpcINVALID_PARAMS, "outOfOrderMarkerNotInt"⟩, w, []⟩
  else if !input.outOfOrder && input.diffMarker.isSome then
    ⟨Outcome.error ⟨RippledError.rpcINVALID_PARAMS, "markerNotString"⟩, w, []⟩
  else
    let range := B.fetchLedgerRange w
    match range.1 with
    | none => ⟨Outcome.undefinedBehaviour, range.2, [Call.fetchLedgerRange range.1]⟩
    | some r =>
        let lgrInfoOrStatus :=
          B.getLedgerInfoFromHashOrSeq range.2 input.ledgerHash input.ledgerIndex r.maxSequence
        let calls := [Call.fetchLedgerRange range.1,
          Call.getLedgerInfoFromHashOrSeq input.ledgerHash input.ledgerIndex r.maxSequence
            lgrInfoOrStatus.1]
        match lgrInfoOrStatus.1 with
        | Sum.inl status => ⟨Outcome.error status, lgrInfoOrStatus.2, calls⟩
        | Sum.inr lgrInfo =>
            if input.marker.isNone && input.diffMarker.isNone then
              finish E B input lgrInfo (some (E.toJsonHeader lgrInfo input.binary ctx.apiVersion))
                lgrInfoOrStatus.2 calls
            else
              match input.marker with
              | some marker =>
                  let object := B.fetchLedgerObject lgrInfoOrStatus.2 marker lgrInfo.seq
                  let calls2 := calls ++ [Call.fetchLedgerObject marker lgrInfo.seq object.1]
                  if object.1.isNone then
                    ⟨Outcome.error ⟨RippledError.rpcINVALID_PARAMS, "markerDoesNotExist"⟩,
                      object.2, calls2⟩
                  else
                    finish E B input lgrInfo none object.2 calls2
              | none => finish E B input lgrInfo none lgrInfoOrStatus.2 calls

/-- The conversion `tag_invoke(value_from_tag, jv, output)`. -/
def tag_invoke_value_from (output : Output) : JObject :=
  let obj : JObject := [
    ("ledger_hash", Json.string output.ledgerHash),
    ("ledger_index", Json.uint64 output.ledgerIndex),
    ("validated", Json.bool output.validated),
    ("state", Json.array output.states)]
  let obj := match output.header with
    | some header => obj.insert_or_assign "ledger" header
    | none => obj
  let obj := match output.cacheFull with
    | some cacheFull => obj.insert_or_assign "cache_full" (Json.bool cacheFull)
    | none => obj
  match output.diffMarker with
  | some diffMarker => obj.insert_or_assign "marker" (Json.uint64 diffMarker)
  | none =>
      match output.marker with
      | some marker => obj.insert_or_assign "marker" (Json.string marker)
      | none => obj

/-- Modelled from the spec: the value of `LedgerDataHandler::Input{}`, whose declaration
(`LedgerData.h`) is not among the sources. The optional fields are empty; the spec treats
an absent `binary` and an absent `out_of_order` as false, an absent `type` as any type,
and clamps an absent `limit` to the ceiling of the mode. -/
def defaultInput (E : Env) : Input :=
  { ledgerHash := none
    ledgerIndex := none
    binary := false
    limit := E.LIMITJSON
    marker := none
    diffMarker := none
    outOfOrder := false
    type := LedgerEntryType.ltANY }

/-- Lines 218-221: the member `binary`. -/
def readBinary (E : Env) (o : JObject) (input : Input) : Option Input :=
  match o.at? "binary" with
  | none => some input
  | some v =>
      v.as_bool.map fun b =>
        { input with binary := b, limit := if b then E.LIMITBINARY else E.LIMITJSON }

/-- Lines 223-224: the member `limit`. -/
def readLimit (o : JObject) (input : Input) : Option Input :=
  match o.at? "limit" with
  | none => some input
  | some v => v.as_int64.map fun i => { input with limit := toUint32 i }

/-- Lines 226-227: the member `out_of_order`. -/
def readOutOfOrder (o : JObject) (input : Input) : Option Input :=
  match o.at? "out_of_order" with
  | none => some input
  | some v => v.as_bool.map fun b => { input with outOfOrder := b }

/-- Lines 229-235: the member `marker`. -/
def readMarker (E : Env) (o : JObject) (input : Input) : Option Input :=
  match o.at? "marker" with
  | none => some input
  | some v =>
      if v.is_string then
        (v.as_string.bind E.parseUint256).map fun k => { input with marker := some k }
      else
        v.as_int64.map fun i => { input with diffMarker := some (toUint32 i) }

/-- Lines 237-238: the member `ledger_hash`. -/
def readLedgerHash (o : JObject) (input : Input) : Option Input :=
  match o.at? "ledger_hash" with
  | none => some input
  | some v => v.as_string.map fun h => { input with ledgerHash := some h }

/-- Lines 240-246: the member `ledger_index`. -/
def readLedgerIndex (E : Env) (o : JObject) (input : Input) : Option Input :=
  match o.at? "ledger_index" with
  | none => some input
  | some v =>
      if !v.is_string then
        v.as_int64.map fun i => { input with ledgerIndex := some (toUint32 i) }
      else
        v.as_string.bind fun str =>
          if str ≠ "validated" then
            (E.stoi str).map fun i => { input with ledgerIndex := some (toUint32 i) }
          else
            some input

/-- Lines 248-249: the member `type`. -/
def readType (o : JObject) (input : Input) : Option Input :=
  match o.at? "type" with
  | none => some input
  | some v =>
      (v.as_string.bind fun name => TYPES_MAP.lookup name).map fun t => { input with type := t }

/-- The conversion `tag_invoke(value_to_tag<Input>, jv)`; `none` stands for an exception. -/
def tag_invoke_value_to (E : Env) (jv : Json) : Option Input :=
  jv.as_object.bind fun o =>
    (readBinary E o (defaultInput E)).bind fun i1 =>
    (readLimit o i1).bind fun i2 =>
    (readOutOfOrder o i2).bind fun i3 =>
    (readMarker E o i3).bind fun i4 =>
    (readLedgerHash o i4).bind fun i5 =>
    (readLedgerIndex E o i5).bind fun i6 =>
    readType o i6

end LedgerDataHandler

/-! ## Concrete collaborators, used to run the definitions on examples -/

namespace Example

/-- A one-shot (HTTP) connection. -/
def httpConnection : Connection :=
  { upgraded := false, clientIp := "127.0.0.1", isAdmin := false, tag := "[1] " }

/-- A persistent (WebSocket) connection. -/
def wsConnection : Connection :=
  { upgraded := true, clientIp := "127.0.0.1", isAdmin := false, tag := "[2] " }

/-- The request text of an object without members. -/
def textEmptyObject : String := "\x7b\x7d"

/-- The request text of an object whose only member is `params`, an array of one empty
object. -/
def textParamsOnly : String := "\x7b\"params\":[\x7b\x7d]\x7d"

/-- A JSON parser that knows the two request texts above. -/
def parse (text : String) : Option Json :=
  if text = textEmptyObject then some (Json.object [])
  else if text = textParamsOnly then
    some (Json.object [("params", Json.array [Json.object []])])
  else none

/-- A context for a request, whatever the transport. -/
def webContext (request : JObject) (range : LedgerRange) (clientIp : String) (isAdmin : Bool) :
    WebContext :=
  { method := "ledger_data", params := request, range := range, clientIp := clientIp,
    isAdmin := isAdmin, tag := "" }

/-- Services whose engine accepts every work unit and answers with an empty result. -/
def services : Services :=
  { parse := parse
    post := fun _ _ _ => PostOutcome.accepted
    fetchLedgerRange := some ⟨1, 30⟩
    make_WsContext := fun request connection range clientIp =>
      Except.ok (webContext request range clientIp connection.isAdmin)
    make_HttpContext := fun request range clientIp isAdmin =>
      Except.ok (webContext request range clientIp isAdmin)
    buildResponse := fun _ => BuildOutcome.result []
    composeError := fun _ _ status => [("error", Json.string status.message)]
    lastCloseAgeSeconds := 3
    warnRPC_CLIO := Json.object [("id", Json.int64 2001)]
    warnRPC_OUTDATED := Json.object [("id", Json.int64 2002)] }

/-- Services whose engine refuses every work unit. -/
def busyServices : Services :=
  { services with post := fun _ _ _ => PostOutcome.rejected }

/-- Services whose `post` throws a `std::exception` that is neither a `system_error` nor
an `invalid_argument`. -/
def brokenPostServices : Services :=
  { services with post := fun _ _ _ => PostOutcome.threw ExceptionKind.other }

/-- Services whose `post` throws a `boost::system::system_error`. -/
def systemErrorPostServices : Services :=
  { services with post := fun _ _ _ => PostOutcome.threw ExceptionKind.system_error }

/-- Services whose parser yields an array for every text. -/
def arrayServices : Services :=
  { services with parse := fun _ => some (Json.array []) }

/-- Services whose backend knows no ledger range yet. -/
def notReadyServices : Services :=
  { services with fetchLedgerRange := none }

/-- Services whose `buildResponse` throws. -/
def throwingServices : Services :=
  { services with buildResponse := fun _ => BuildOutcome.threw }

/-- Services whose handler returns the error status `rpcINVALID_PARAMS`. -/
def failingServices : Services :=
  { services with
    buildResponse := fun _ => BuildOutcome.status ⟨RippledError.rpcINVALID_PARAMS, "bad"⟩ }

/-- A forwarded result that carries its own `result` and its own `warnings`. -/
def forwardedWithWarnings : JObject :=
  [("result", Json.object [("info", Json.int64 1)]), ("forwarded", Json.bool true),
   ("warnings", Json.array [Json.string "upstream"])]

/-- Services whose last ledger closed 75 seconds ago and whose handler returns
`forwardedWithWarnings`. -/
def staleServices : Services :=
  { services with
    lastCloseAgeSeconds := 75
    buildResponse := fun _ => BuildOutcome.result forwardedWithWarnings }

/-- Services whose handler returns a forwarded result whose `result` is a string. -/
def oddServices : Services :=
  { services with
    buildResponse := fun _ =>
      BuildOutcome.result [("result", Json.string "text"), ("forwarded", Json.bool true)] }

/-- Services whose handler returns a result with an `error` member. -/
def errorResultServices : Services :=
  { services with
    buildResponse := fun _ => BuildOutcome.result [("error", Json.string "actNotFound")] }

/-- Services whose handler returns a result with one member `info`. -/
def infoServices : Services :=
  { services with buildResponse := fun _ => BuildOutcome.result [("info", Json.int64 1)] }

/-- A request object with the id 7. -/
def requestWithId : JObject :=
  [("id", Json.int64 7), ("command", Json.string "ledger_data")]

/-- A forwarded result that carries its own `result` member. -/
def forwardedResult : JObject :=
  [("result", Json.object [("info", Json.int64 1)]), ("forwarded", Json.bool true)]

/-- An environment: the ceilings of upstream clio, and toy stand-ins for the ripple
library, in which the first byte of a blob is its entry type (97 an account root, 111 an
offer), an empty blob does not decode, and a key `k` is written as `k` letters. -/
def env : LedgerDataHandler.Env :=
  { LIMITBINARY := 2048
    LIMITJSON := 256
    validated := true
    strHex := fun k => String.mk (List.replicate k 'F')
    to_string := fun k => String.mk (List.replicate k 'F')
    toJsonHeader := fun lgrInfo _ _ => Json.object [("ledger_index", Json.uint64 lgrInfo.seq)]
    sleType := fun blob _ =>
      match blob with
      | [] => none
      | b :: _ =>
          some (if b = 97 then LedgerEntryType.ltACCOUNT_ROOT
            else if b = 111 then LedgerEntryType.ltOFFER else LedgerEntryType.ltOTHER b)
    serializeHex := fun blob _ => String.mk (blob.map fun b => Char.ofNat b)
    toJsonSLE := fun _ key => Json.object [("index", Json.uint64 key)]
    parseUint256 := fun str => if str = "" then none else some str.length
    stoi := fun _ => none }

/-- The ledger state of the example backend: an account root, an offer, an account root. -/
def ledgerState : List LedgerObject :=
  [⟨1, [97, 1]⟩, ⟨2, [111, 5]⟩, ⟨4, [97, 7]⟩]

/-- The diff of the example backend at every sequence: keys 1 and 3 deleted, key 2
written. -/
def ledgerDiff : List LedgerObject :=
  [⟨1, []⟩, ⟨2, [111, 5]⟩, ⟨3, []⟩]

/-- A backend whose world is a clock that ticks at every call, and whose ledger range
advances with the clock: `maxSequence` is 30 plus the time of the call. -/
def backend : LedgerDataHandler.Backend Nat :=
  { fetchLedgerRange := fun w => (some ⟨1, 30 + w⟩, w + 1)
    getLedgerInfoFromHashOrSeq := fun w _ ledgerIndex maxSequence =>
      (match ledgerIndex with
        | some i =>
            if i ≤ maxSequence then Sum.inr ⟨i, i⟩
            else Sum.inl ⟨RippledError.rpcOther 21, "ledgerNotFound"⟩
        | none => Sum.inr ⟨maxSequence, maxSequence⟩, w + 1)
    fetchLedgerObject := fun w key _ =>
      ((ledgerState.find? fun o => o.key = key).map LedgerObject.blob, w + 1)
    fetchLedgerDiff := fun w _ => (ledgerDiff, w + 1)
    fetchLedgerObjects := fun w keys _ =>
      (keys.map fun k => ((ledgerState.find? fun o => o.key = k).map LedgerObject.blob).getD [],
        w + 1)
    fetchLedgerPage := fun w cursor _ limit _ =>
      let rest := ledgerState.filter fun o =>
        match cursor with
        | some c => c < o.key
        | none => true
      let objects := rest.take limit
      (⟨objects, if limit < rest.length then objects.getLast?.map LedgerObject.key else none⟩,
        w + 1)
    cacheIsFull := fun w => (true, w) }

/-- The context of the examples. -/
def context : LedgerDataHandler.Context := { apiVersion := 1 }

/-- A first-page request in JSON mode, for ledger 10, without limit or filter of its own. -/
def firstPage : LedgerDataHandler.Input :=
  { ledgerHash := none, ledgerIndex := some 10, binary := false, limit := 256, marker := none,
    diffMarker := none, outOfOrder := false, type := LedgerEntryType.ltANY }

/-- A diff-mode request for ledger `seq` with the sequence marker `m`. -/
def diffRequest (seq m : Nat) : LedgerDataHandler.Input :=
  { firstPage with ledgerIndex := some seq, diffMarker := some m, outOfOrder := true }

/-- The request object with `out_of_order` true and a string `marker`. -/
def jsonOutOfOrderKey : Json :=
  Json.object [("out_of_order", Json.bool true), ("marker", Json.string "F")]

/-- The request object with an integer `marker` and no `out_of_order`. -/
def jsonInOrderSequence : Json :=
  Json.object [("ledger_index", Json.int64 10), ("marker", Json.int64 7)]

/-- A first-page request for ledger 10 with limit 1 and the type offer. -/
def offerPage : LedgerDataHandler.Input :=
  { firstPage with limit := 1, type := LedgerEntryType.ltOFFER }

/-- The output of the example backend for `offerPage`: the page holds the account root
with key 1 only, so no state is emitted; the next key marker is 1. -/
def offerPageOutput : LedgerDataHandler.Output :=
  { states := []
    ledgerHash := "FFFFFFFFFF"
    ledgerIndex := 10
    marker := some "F"
    diffMarker := none
    cacheFull := none
    header := some (Json.object [("ledger_index", Json.uint64 10)])
    validated := true }

/-- The output of the example backend for `diffRequest 5 10`: of the deleted keys 1 and 3
only key 1 exists at ledger 5, with an account root. -/
def diffOutput : LedgerDataHandler.Output :=
  { states := [Json.object [("index", Json.uint64 1)]]
    ledgerHash := "FFFFF"
    ledgerIndex := 5
    marker := none
    diffMarker := some 9
    cacheFull := some true
    header := none
    validated := true }

/-- The output of the example backend for `diffRequest 10 5`: as `diffOutput`, at ledger
10 and without a next marker. -/
def diffBelowOutput : LedgerDataHandler.Output :=
  { states := [Json.object [("index", Json.uint64 1)]]
    ledgerHash := "FFFFFFFFFF"
    ledgerIndex := 10
    marker := none
    diffMarker := none
    cacheFull := some true
    header := none
    validated := true }

/-- A first-page request for ledger 10 in out-of-order mode. -/
def outOfOrderPage : LedgerDataHandler.Input :=
  { firstPage with outOfOrder := true }

/-- The output of the example backend for `outOfOrderPage`: the whole state in one page,
and as next marker the `maxSequence` that the backend reports after the page fetch, at
time 3. -/
def outOfOrderPageOutput : LedgerDataHandler.Output :=
  { states := [Json.object [("index", Json.uint64 1)], Json.object [("index", Json.uint64 2)],
      Json.object [("index", Json.uint64 4)]]
    ledgerHash := "FFFFFFFFFF"
    ledgerIndex := 10
    marker := none
    diffMarker := some 33
    cacheFull := some true
    header := some (Json.object [("ledger_index", Json.uint64 10)])
    validated := true }

/-- A request that resumes after the key 3, which the example ledger does not hold. -/
def staleMarkerPage : LedgerDataHandler.Input :=
  { firstPage with marker := some 3 }

/-- The request object with a string `marker` of three letters, the key 3. -/
def jsonStaleMarker : Json :=
  Json.object [("ledger_index", Json.int64 10), ("marker", Json.string "FFF")]

/-- The request object asking for binary output with a limit above the binary ceiling. -/
def jsonBinaryLimit : Json :=
  Json.object [("binary", Json.bool true), ("limit", Json.int64 5000)]

/-- The example environment with small ceilings: 2 records in JSON mode, 1 in binary
mode. -/
def smallEnv : LedgerDataHandler.Env :=
  { env with LIMITJSON := 2, LIMITBINARY := 1 }

/-- A first-page request in JSON mode for ledger 10 with the limit 5. -/
def clampedPage : LedgerDataHandler.Input :=
  { firstPage with limit := 5 }

/-- The output of the example backend for `clampedPage` under the small ceilings: the first
two records, and the key 2 as next marker. -/
def clampedPageOutput : LedgerDataHandler.Output :=
  { states := [Json.object [("index", Json.uint64 1)], Json.object [("index", Json.uint64 2)]]
    ledgerHash := "FFFFFFFFFF"
    ledgerIndex := 10
    marker := some "FF"
    diffMarker := none
    cacheFull := none
    header := some (Json.object [("ledger_index", Json.uint64 10)])
    validated := true }

/-- A first-page request in binary mode for ledger 10 with the limit 5. -/
def binaryPage : LedgerDataHandler.Input :=
  { firstPage with binary := true, limit := 5 }

/-- The output of the example backend for `binaryPage` under the small ceilings: the first
record alone, in binary form, and the key 1 as next marker. -/
def binaryPageOutput : LedgerDataHandler.Output :=
  { states := [Json.object [("data", Json.string "a\x01"), ("index", Json.string "F")]]
    ledgerHash := "FFFFFFFFFF"
    ledgerIndex := 10
    marker := some "F"
    diffMarker := none
    cacheFull := none
    header := some (Json.object [("ledger_index", Json.uint64 10)])
    validated := true }

/-- A first-page request for ledger 10 with the limit 5 and the type account root. -/
def accountPage : LedgerDataHandler.Input :=
  { firstPage with limit := 5, type := LedgerEntryType.ltACCOUNT_ROOT }

/-- The output of the example backend for `accountPage` under the small ceilings: the page
holds the first two records, of which the account root with key 1 is emitted; the account
root with key 4 lies beyond the clamped limit. -/
def accountPageOutput : LedgerDataHandler.Output :=
  { states := [Json.object [("index", Json.uint64 1)]]
    ledgerHash := "FFFFFFFFFF"
    ledgerIndex := 10
    marker := some "FF"
    diffMarker := none
    cacheFull := none
    header := some (Json.object [("ledger_index", Json.uint64 10)])
    validated := true }

/-- The example backend with a history and a cache that fills: the key 3 exists from
ledger 20 on, so that `fetchLedgerObjects` depends on the sequence it is asked at, and the
cache is full only when asked before time 4. -/
def historyBackend : LedgerDataHandler.Backend Nat :=
  { backend with
    fetchLedgerObjects := fun w keys seq =>
      (keys.map fun k =>
        if k = 3 then (if 20 ≤ seq then [111, 3] else [])
        else ((ledgerState.find? fun o => o.key = k).map LedgerObject.blob).getD [],
        w + 1)
    cacheIsFull := fun w => (decide (w < 4), w + 1) }

/-- The output of `historyBackend` for `diffRequest 5 25`: the deleted keys 1 and 3 are
asked at ledger 5, where only key 1 exists; the cache is asked at time 4. -/
def historyDiffOutput : LedgerDataHandler.Output :=
  { states := [Json.object [("index", Json.uint64 1)]]
    ledgerHash := "FFFFF"
    ledgerIndex := 5
    marker := none
    diffMarker := some 24
    cacheFull := some false
    header := none
    validated := true }

/-- An out-of-order first-page request for ledger 10 with the limit 1. -/
def outOfOrderShortPage : LedgerDataHandler.Input :=
  { firstPage with outOfOrder := true, limit := 1 }

/-- The output of `historyBackend` for `outOfOrderShortPage`: one record and a cursor; the
cache is asked at time 3. -/
def outOfOrderShortPageOutput : LedgerDataHandler.Output :=
  { states := [Json.object [("index", Json.uint64 1)]]
    ledgerHash := "FFFFFFFFFF"
    ledgerIndex := 10
    marker := some "F"
    diffMarker := none
    cacheFull := some true
    header := some (Json.object [("ledger_index", Json.uint64 10)])
    validated := true }

/-- The output of `historyBackend` for `outOfOrderPage`: as `outOfOrderPageOutput`, but
the cache is asked at time 4, after the page and the range were fetched. -/
def historyOutOfOrderOutput : LedgerDataHandler.Output :=
  { outOfOrderPageOutput with cacheFull := some false }

/-- A request object whose `params` is null, between two other members. -/
def requestNullParams : JObject :=
  [("method", Json.string "ledger_data"), ("params", Json.null), ("id", Json.int64 7)]

end Example

/-! ## Theorems -/

namespace JObject

theorem at?_insert_or_assign_same (o : JObject) (k : String) (v : Json) :
    at? (insert_or_assign o k v) k = some v := by
  induction o with
  | nil => simp [insert_or_assign, at?]
  | cons hd tl ih =>
    obtain ⟨k', v'⟩ := hd
    by_cases h : k' = k
    · simp [insert_or_assign, at?, h]
    · simp [insert_or_assign, at?, h, ih]

theorem at?_insert_or_assign_other (o : JObject) (k k' : String) (v : Json) (h : k' ≠ k) :
    at? (insert_or_assign o k v) k' = at? o k' := by
  induction o with
  | nil => simp [insert_or_assign, at?, Ne.symm h]
  | cons hd tl ih =>
    obtain ⟨k0, v0⟩ := hd
    by_cases h0 : k0 = k
    · subst h0
      simp [insert_or_assign, at?, Ne.symm h]
    · by_cases h1 : k0 = k'
      · subst h1
        simp [insert_or_assign, at?, h0]
      · simp [insert_or_assign, at?, h0, h1, ih]

theorem insert_or_assign_fresh (o : JObject) (k : String) (v : Json) (h : k ∉ keys o) :
    insert_or_assign o k v = o ++ [(k, v)] := by
  induction o with
  | nil => rfl
  | cons hd tl ih =>
    obtain ⟨k', v'⟩ := hd
    have hne : ¬ k' = k := fun e => h (by simp [keys, e])
    have htl : k ∉ keys tl := fun m => h (by
      simp only [keys, List.map_cons, List.mem_cons]
      exact Or.inr m)
    simp [insert_or_assign, hne, ih htl]

theorem foldl_insert_or_assign_fresh (l acc : JObject) (hl : (keys l).Nodup)
    (hd : ∀ k, k ∈ keys l → k ∉ keys acc) :
    l.foldl (fun response kv => insert_or_assign response kv.1 kv.2) acc = acc ++ l := by
  induction l generalizing acc with
  | nil => simp
  | cons hd0 tl ih =>
    obtain ⟨k, v⟩ := hd0
    simp only [keys, List.map_cons, List.nodup_cons] at hl
    have hk : k ∉ keys acc := hd k (by simp [keys])
    simp only [List.foldl_cons]
    rw [insert_or_assign_fresh acc k v hk, ih (acc ++ [(k, v)]) hl.2]
    · simp
    · intro k2 hk2 hin
      simp only [keys, List.map_append, List.map_cons, List.map_nil, List.mem_append,
        List.mem_singleton] at hin
      rcases hin with hin | hin
      · exact hd k2 (by simp only [keys, List.map_cons, List.mem_cons]; exact Or.inr hk2) hin
      · subst hin
        exact hl.1 hk2

end JObject

namespace RPCServerHandler

theorem isEmpty_eq_decide (s : String) : s.isEmpty = decide (s = "") := by
  by_cases h : s = ""
  · subst h
    rfl
  · have h1 : ¬ (s.isEmpty = true) := fun hs => h ((String.isEmpty_iff s).1 hs)
    simp [h, h1]

theorem shouldReplaceParams_eq_spec (req : JObject) :
    shouldReplaceParams req = specReplaceParams req := by
  unfold shouldReplaceParams specReplaceParams JObject.contains
  cases h : JObject.at? req jsParams with
  | none => simp
  | some p =>
    cases p with
    | array a =>
      cases a with
      | nil => simp [Json.is_array, Json.is_string, Json.is_object, Json.is_null, Json.as_array,
          Json.as_string, Json.as_object]
      | cons x xs =>
        cases x <;> simp [Json.is_array, Json.is_string, Json.is_object, Json.is_null,
          Json.as_array, Json.as_string, Json.as_object, isEmpty_eq_decide]
    | string s => simp [Json.is_array, Json.is_string, Json.is_object, Json.is_null,
        Json.as_array, Json.as_string, Json.as_object, isEmpty_eq_decide]
    | object o => cases o <;> simp [Json.is_array, Json.is_string, Json.is_object, Json.is_null,
        Json.as_array, Json.as_string, Json.as_object]
    | _ => simp [Json.is_array, Json.is_string, Json.is_object, Json.is_null,
        Json.as_array, Json.as_string, Json.as_object]

theorem boundRequest_of_parse (S : Services) (request : String) (connection : Connection)
    (req : JObject) (hparse : S.parse request = some (Json.object req)) :
    boundRequest S request connection = some (normalizeParams connection req) := by
  unfold boundRequest operatorCall
  rw [hparse]
  simp only [Json.as_object]
  cases S.post (normalizeParams connection req) connection connection.clientIp with
  | accepted => simp [List.findSome?]
  | rejected => simp [List.findSome?]
  | threw kind => cases kind <;> simp [operatorCatch, List.findSome?]

theorem shouldReplaceParams_of_emptyParams (req : JObject)
    (h : req.at? "params" = some (Json.array [Json.object []])) :
    shouldReplaceParams req = false := by
  rw [shouldReplaceParams_eq_spec]
  unfold specReplaceParams
  have hk : jsParams = "params" := rfl
  rw [hk, h]

theorem isForwarded_iff (json : JObject) :
    isForwarded json = true ↔ json.at? "forwarded" = some (Json.bool true) := by
  unfold isForwarded JObject.contains
  cases h : JObject.at? json "forwarded" with
  | none => simp
  | some v => cases v <;> simp [Json.is_bool, Json.as_bool]

/-- C9: on the success path of `handleRequest`, for a handler result `j` (an object, hence
with distinct member names): if `j` has the member `forwarded` with the boolean value true,
and `j` has a member `result` or the connection is persistent, the envelope body before the
transport fields is `j` itself, member by member; in every other case it is the object
whose only member is `result`, with value `j`. -/
theorem composeBody_forwarded_or_nested (connection : Connection) (j : JObject)
    (hj : (JObject.keys j).Nodup) :
    ((j.at? "forwarded" = some (Json.bool true) ∧
        (j.contains "result" = true ∨ connection.upgraded = true)) →
      composeBody connection j = j ∧ ∀ k, (composeBody connection j).at? k = j.at? k) ∧
    (¬ (j.at? "forwarded" = some (Json.bool true) ∧
        (j.contains "result" = true ∨ connection.upgraded = true)) →
      composeBody connection j = [("result", Json.object j)]) := by
  constructor
  · rintro ⟨hf, hr⟩
    have h1 : isForwarded j = true := (isForwarded_iff j).2 hf
    have h2 : (j.contains "result" || connection.upgraded) = true := by
      rcases hr with hr | hr <;> simp [hr]
    have h3 : composeBody connection j = j := by
      unfold composeBody
      rw [h1, h2]
      simp only [Bool.and_self, if_true]
      rw [JObject.foldl_insert_or_assign_fresh j [] hj
        (fun _ _ hin => by simp [JObject.keys] at hin)]
      simp
    exact ⟨h3, fun k => by rw [h3]⟩
  · intro hn
    have h1 : (isForwarded j && (j.contains "result" || connection.upgraded)) = false := by
      cases hf : isForwarded j with
      | false => simp
      | true =>
        have hf2 := (isForwarded_iff j).1 hf
        cases hc : j.contains "result" with
        | true => exact absurd ⟨hf2, Or.inl hc⟩ hn
        | false =>
          cases hu : connection.upgraded with
          | true => exact absurd ⟨hf2, Or.inr hu⟩ hn
          | false => simp
    unfold composeBody
    rw [h1]
    rfl

/-- Witness of C9: a forwarded result with its own `result` on a one-shot connection is
merged; the same holds for the theorem at a result that is not forwarded. -/
theorem composeBody_forwarded_or_nested_witness :
    composeBody Example.httpConnection Example.forwardedResult = Example.forwardedResult ∧
    composeBody Example.httpConnection [("info", Json.int64 1)]
      = [("result", Json.object [("info", Json.int64 1)])] :=
  ⟨((composeBody_forwarded_or_nested Example.httpConnection Example.forwardedResult
      (by decide)).1 ⟨rfl, Or.inl rfl⟩).1,
    (composeBody_forwarded_or_nested Example.httpConnection [("info", Json.int64 1)]
      (by decide)).2 (by rintro ⟨h, _⟩; exact absurd h (by simp [JObject.at?]))⟩

/-- C13: when `backend_->fetchLedgerRange()` returns no range, `handleRequest` calls
`notifyNotReady`, sends the not-ready error and returns; it builds no context, does not
call `buildResponse`, and sends no response of its own, the only kind to which the
`warnings` array is attached. -/
theorem handleRequest_not_ready (S : Services) (request : JObject) (connection : Connection)
    (h : S.fetchLedgerRange = none) :
    handleRequest S request connection
      = ([Event.notifyNotReady, Event.sendNotReadyError request], Completion.returned) ∧
    (∀ upgraded req range,
      Event.makeContext upgraded req range ∉ (handleRequest S request connection).1) ∧
    (∀ ctx, Event.buildResponse ctx ∉ (handleRequest S request connection).1) ∧
    (∀ response, Event.send response ∉ (handleRequest S request connection).1) := by
  have he : handleRequest S request connection
      = ([Event.notifyNotReady, Event.sendNotReadyError request], Completion.returned) := by
    unfold handleRequest
    rw [h]
  refine ⟨he, ?_, ?_, ?_⟩ <;> intros <;> rw [he] <;> simp

/-- Witness of C13: services without a ledger range. -/
theorem handleRequest_not_ready_witness :
    handleRequest Example.notReadyServices Example.requestWithId Example.httpConnection
      = ([Event.notifyNotReady, Event.sendNotReadyError Example.requestWithId],
          Completion.returned) :=
  (handleRequest_not_ready Example.notReadyServices Example.requestWithId
    Example.httpConnection rfl).1

/-- C14: for a request that parses to an object, when `post` refuses the work unit,
`operator()` calls `post` once, then `notifyTooBusy` once, then sends the too-busy error
once, and returns; and with an executor that never starts a refused unit, nothing of
`handleRequest` happens for the request. -/
theorem operatorCall_too_busy (S : Services) (request : String) (connection : Connection)
    (req : JObject) (hparse : S.parse request = some (Json.object req))
    (hpost : S.post (normalizeParams connection req) connection connection.clientIp
      = PostOutcome.rejected) :
    operatorCall S request connection
      = ([Event.post (normalizeParams connection req) connection connection.clientIp,
          Event.notifyTooBusy, Event.sendTooBusyError], Completion.returned) ∧
    dispatch S request connection
      = [Event.post (normalizeParams connection req) connection connection.clientIp,
          Event.notifyTooBusy, Event.sendTooBusyError] := by
  have he : operatorCall S request connection
      = ([Event.post (normalizeParams connection req) connection connection.clientIp,
          Event.notifyTooBusy, Event.sendTooBusyError], Completion.returned) := by
    unfold operatorCall
    rw [hparse]
    simp only [Json.as_object, hpost]
  refine ⟨he, ?_⟩
  unfold dispatch
  rw [boundRequest_of_parse S request connection req hparse, he]
  simp only [hpost, List.append_nil]

/-- Witness of C14: the empty request object against an engine that refuses every unit. -/
theorem operatorCall_too_busy_witness :
    operatorCall Example.busyServices Example.textEmptyObject Example.httpConnection
      = ([Event.post [("params", Json.array [Json.object []])] Example.httpConnection
            "127.0.0.1", Event.notifyTooBusy, Event.sendTooBusyError], Completion.returned) ∧
    dispatch Example.busyServices Example.textEmptyObject Example.httpConnection
      = [Event.post [("params", Json.array [Json.object []])] Example.httpConnection
            "127.0.0.1", Event.notifyTooBusy, Event.sendTooBusyError] :=
  operatorCall_too_busy Example.busyServices Example.textEmptyObject Example.httpConnection
    [] rfl rfl

/-- C15: for a request text that does not parse, or that parses to a value that is not an
object, `operator()` calls `notifyBadSyntax` once, then sends the JSON-parsing error once,
and returns; it does not call `post`, so nothing is bound or run. -/
theorem operatorCall_not_an_object (S : Services) (request : String) (connection : Connection)
    (h : S.parse request = none ∨ ∃ v, S.parse request = some v ∧ v.as_object = none) :
    operatorCall S request connection
      = ([Event.notifyBadSyntax, Event.sendJsonParsingError], Completion.returned) ∧
    (∀ req conn ip, Event.post req conn ip ∉ (operatorCall S request connection).1) ∧
    boundRequest S request connection = none ∧
    dispatch S request connection = [Event.notifyBadSyntax, Event.sendJsonParsingError] := by
  have he : operatorCall S request connection
      = ([Event.notifyBadSyntax, Event.sendJsonParsingError], Completion.returned) := by
    unfold operatorCall
    rcases h with h | ⟨v, h, hv⟩
    · simp only [h, operatorCatch, List.nil_append]
    · simp only [h, hv, operatorCatch, List.nil_append]
  have hb : boundRequest S request connection = none := by
    unfold boundRequest
    rw [he]
    rfl
  refine ⟨he, ?_, hb, ?_⟩
  · intro req conn ip
    rw [he]
    simp
  · unfold dispatch
    rw [hb, he]
    rfl

/-- Witness of C15: a text that does not parse, and a text that parses to an array. -/
theorem operatorCall_not_an_object_witness :
    operatorCall Example.services "ledger" Example.httpConnection
      = ([Event.notifyBadSyntax, Event.sendJsonParsingError], Completion.returned) ∧
    operatorCall Example.arrayServices "[]" Example.wsConnection
      = ([Event.notifyBadSyntax, Event.sendJsonParsingError], Completion.returned) :=
  ⟨(operatorCall_not_an_object Example.services "ledger" Example.httpConnection
      (Or.inl rfl)).1,
    (operatorCall_not_an_object Example.arrayServices "[]" Example.wsConnection
      (Or.inr ⟨Json.array [], rfl, rfl⟩)).1⟩

theorem handleRequest_returns (S : Services) (request : JObject) (connection : Connection) :
    (handleRequest S request connection).2 = Completion.returned := by
  unfold handleRequest
  cases S.fetchLedgerRange with
  | none => rfl
  | some range =>
    simp only
    cases makeContext S request connection range with
    | error err => rfl
    | ok ctx =>
      simp only
      cases S.buildResponse ctx with
      | threw => rfl
      | status st => rfl
      | result json =>
        simp only
        cases addStatus connection request (composeBody connection json) <;> rfl

theorem handleRequest_status (S : Services) (request : JObject) (connection : Connection)
    (range : LedgerRange) (ctx : WebContext) (status : Status)
    (hr : S.fetchLedgerRange = some range)
    (hc : makeContext S request connection range = Except.ok ctx)
    (hb : S.buildResponse ctx = BuildOutcome.status status) :
    handleRequest S request connection
      = ([Event.makeContext connection.upgraded request range, Event.buildResponse ctx,
          Event.send ((S.composeError connection request status).insert_or_assign "warnings"
            (Json.array (warnings S)))], Completion.returned) := by
  unfold handleRequest
  simp only [hr, hc, hb]

theorem handleRequest_result (S : Services) (request : JObject) (connection : Connection)
    (range : LedgerRange) (ctx : WebContext) (json response : JObject)
    (hr : S.fetchLedgerRange = some range)
    (hc : makeContext S request connection range = Except.ok ctx)
    (hb : S.buildResponse ctx = BuildOutcome.result json)
    (ha : addStatus connection request (composeBody connection json) = some response) :
    handleRequest S request connection
      = ([Event.makeContext connection.upgraded request range, Event.buildResponse ctx,
          Event.notifyComplete ctx.method,
          Event.send (response.insert_or_assign "warnings" (Json.array (warnings S)))],
          Completion.returned) := by
  unfold handleRequest
  simp only [hr, hc, hb, ha]

theorem handleRequest_failure (S : Services) (request : JObject) (connection : Connection)
    (range : LedgerRange) (ctx : WebContext)
    (hr : S.fetchLedgerRange = some range)
    (hc : makeContext S request connection range = Except.ok ctx)
    (hf : S.buildResponse ctx = BuildOutcome.threw ∨
      ∃ json, S.buildResponse ctx = BuildOutcome.result json ∧
        addStatus connection request (composeBody connection json) = none) :
    ∃ before, handleRequest S request connection
      = (before ++ [Event.notifyInternalError, Event.sendInternalError request],
          Completion.returned) ∧
      ∀ response, Event.send response ∉ before := by
  unfold handleRequest
  rcases hf with hb | ⟨json, hb, ha⟩
  · simp only [hr, hc, hb]
    exact ⟨[Event.makeContext connection.upgraded request range, Event.buildResponse ctx],
      rfl, by simp⟩
  · simp only [hr, hc, hb, ha]
    exact ⟨[Event.makeContext connection.upgraded request range, Event.buildResponse ctx,
      Event.notifyComplete ctx.method], rfl, by simp⟩

/-- C17, as stated, fails for `handleRequest`: when `buildResponse` throws, the failure
is counted with `notifyInternalError` and answered with the internal error, and
`handleRequest` returns; nothing is raised again to its caller. -/
theorem handleRequest_swallows_counterexample :
    Example.throwingServices.buildResponse
        (Example.webContext Example.requestWithId ⟨1, 30⟩ "127.0.0.1" false)
      = BuildOutcome.threw ∧
    handleRequest Example.throwingServices Example.requestWithId Example.httpConnection
      = ([Event.makeContext false Example.requestWithId ⟨1, 30⟩,
          Event.buildResponse
            (Example.webContext Example.requestWithId ⟨1, 30⟩ "127.0.0.1" false),
          Event.notifyInternalError, Event.sendInternalError Example.requestWithId],
          Completion.returned) ∧
    (handleRequest Example.throwingServices Example.requestWithId Example.httpConnection).2
      ≠ Completion.rethrown :=
  ⟨rfl, rfl, by decide⟩

/-- What the first two `catch` clauses of `operator()` do with a `system_error` or an
`invalid_argument`, wherever in the `try` block it was raised. -/
theorem operatorCatch_first_clauses (kind : ExceptionKind) (before : List Event)
    (h : kind ≠ ExceptionKind.other) :
    operatorCatch kind before
      = (before ++ [Event.notifyBadSyntax, Event.sendJsonParsingError],
          Completion.returned) := by
  cases kind with
  | other => exact absurd rfl h
  | system_error => rfl
  | invalid_argument => rfl

/-- C17, amended: of the failures raised while the Dispatcher handles a request that is
neither a JSON syntax error nor a non-object payload. In `operator()`, a failure that is a
`std::exception` other than a `system_error` or an `invalid_argument`, raised anywhere in
the `try` block (after any events `before`), in particular by `post`, is counted with
`notifyInternalError` and raised again to the caller; a `system_error` or an
`invalid_argument` raised by `post` is counted with `notifyBadSyntax`, answered with the
JSON parsing error and not raised again. In `handleRequest`, a failure (a throwing
`buildResponse`, or the cast of a `result` that is not an object) is counted with
`notifyInternalError` and answered with the internal error, and `handleRequest` returns,
as it does on every path. -/
theorem internal_error_paths (S : Services) :
    (∀ before : List Event,
      operatorCatch ExceptionKind.other before
        = (before ++ [Event.notifyInternalError], Completion.rethrown)) ∧
    (∀ (request : String) (connection : Connection) (req : JObject) (kind : ExceptionKind),
      S.parse request = some (Json.object req) →
      S.post (normalizeParams connection req) connection connection.clientIp
        = PostOutcome.threw kind →
      operatorCall S request connection
          = operatorCatch kind
            [Event.post (normalizeParams connection req) connection connection.clientIp] ∧
        (kind = ExceptionKind.other →
          operatorCall S request connection
            = ([Event.post (normalizeParams connection req) connection connection.clientIp,
                Event.notifyInternalError], Completion.rethrown)) ∧
        (kind ≠ ExceptionKind.other →
          operatorCall S request connection
            = ([Event.post (normalizeParams connection req) connection connection.clientIp,
                Event.notifyBadSyntax, Event.sendJsonParsingError], Completion.returned))) ∧
    (∀ (request : JObject) (connection : Connection) (range : LedgerRange) (ctx : WebContext),
      S.fetchLedgerRange = some range →
      makeContext S request connection range = Except.ok ctx →
      (S.buildResponse ctx = BuildOutcome.threw ∨
        ∃ json, S.buildResponse ctx = BuildOutcome.result json ∧
          addStatus connection request (composeBody connection json) = none) →
      ∃ before, handleRequest S request connection
        = (before ++ [Event.notifyInternalError, Event.sendInternalError request],
            Completion.returned) ∧
        ∀ response, Event.send response ∉ before) ∧
    (∀ (request : JObject) (connection : Connection),
      (handleRequest S request connection).2 = Completion.returned) := by
  refine ⟨fun before => rfl, fun request connection req kind hparse hpost => ?_,
    fun request connection range ctx hr hc hf =>
      handleRequest_failure S request connection range ctx hr hc hf,
    handleRequest_returns S⟩
  have he : operatorCall S request connection
      = operatorCatch kind
        [Event.post (normalizeParams connection req) connection connection.clientIp] := by
    unfold operatorCall
    rw [hparse]
    simp only [Json.as_object, hpost]
  refine ⟨he, fun hk => ?_, fun hk => ?_⟩
  · rw [he, hk]
    rfl
  · rw [he, operatorCatch_first_clauses kind _ hk]
    rfl

/-- Witness of the amended C17: a `post` that throws another `std::exception`, a throwing
`buildResponse`, a forwarded result whose `result` is a string on a one-shot connection,
and a `post` that throws a `system_error`. -/
theorem internal_error_paths_witness :
    operatorCall Example.brokenPostServices Example.textParamsOnly Example.wsConnection
      = ([Event.post [("params", Json.array [Json.object []])] Example.wsConnection
            "127.0.0.1", Event.notifyInternalError], Completion.rethrown) ∧
    (∃ before,
      handleRequest Example.throwingServices Example.requestWithId Example.httpConnection
        = (before ++ [Event.notifyInternalError,
            Event.sendInternalError Example.requestWithId], Completion.returned) ∧
        ∀ response, Event.send response ∉ before) ∧
    (∃ before,
      handleRequest Example.oddServices Example.requestWithId Example.httpConnection
        = (before ++ [Event.notifyInternalError,
            Event.sendInternalError Example.requestWithId], Completion.returned) ∧
        ∀ response, Event.send response ∉ before) ∧
    operatorCall Example.systemErrorPostServices Example.textParamsOnly Example.wsConnection
      = ([Event.post [("params", Json.array [Json.object []])] Example.wsConnection
            "127.0.0.1", Event.notifyBadSyntax, Event.sendJsonParsingError],
          Completion.returned) :=
  ⟨((internal_error_paths Example.brokenPostServices).2.1 Example.textParamsOnly
      Example.wsConnection _ ExceptionKind.other rfl rfl).2.1 rfl,
    (internal_error_paths Example.throwingServices).2.2.1 Example.requestWithId
      Example.httpConnection ⟨1, 30⟩ _ rfl rfl (Or.inl rfl),
    (internal_error_paths Example.oddServices).2.2.1 Example.requestWithId
      Example.httpConnection ⟨1, 30⟩ _ rfl rfl (Or.inr ⟨_, rfl, rfl⟩),
    ((internal_error_paths Example.systemErrorPostServices).2.1 Example.textParamsOnly
      Example.wsConnection _ ExceptionKind.system_error rfl rfl).2.2 (by decide)⟩

/-- C11: every response that `handleRequest` sends after the handler returned a result
or an error status has the member `warnings` equal to the array of the fixed warning
`warnRPC_CLIO` alone when `lastCloseAgeSeconds() < 60`, and of `warnRPC_CLIO` followed by
`warnRPC_OUTDATED` when `lastCloseAgeSeconds() >= 60`, whatever `warnings` member the
composed body had; and such a response is sent whenever the handler returned an error
status, or a result whose transport fields are added without failure. -/
theorem sent_warnings (S : Services) (request : JObject) (connection : Connection) :
    (∀ response, Event.send response ∈ (handleRequest S request connection).1 →
      (S.lastCloseAgeSeconds < 60 →
        response.at? "warnings" = some (Json.array [S.warnRPC_CLIO])) ∧
      (S.lastCloseAgeSeconds ≥ 60 →
        response.at? "warnings" = some (Json.array [S.warnRPC_CLIO, S.warnRPC_OUTDATED]))) ∧
    (∀ (range : LedgerRange) (ctx : WebContext),
      S.fetchLedgerRange = some range →
      makeContext S request connection range = Except.ok ctx →
      ((∃ status, S.buildResponse ctx = BuildOutcome.status status) ∨
        ∃ json body, S.buildResponse ctx = BuildOutcome.result json ∧
          addStatus connection request (composeBody connection json) = some body) →
      ∃ before response,
        (handleRequest S request connection).1 = before ++ [Event.send response] ∧
        ∀ other, Event.send other ∉ before) := by
  have hw : ∀ response : JObject,
      response.at? "warnings" = some (Json.array (warnings S)) →
      (S.lastCloseAgeSeconds < 60 →
        response.at? "warnings" = some (Json.array [S.warnRPC_CLIO])) ∧
      (S.lastCloseAgeSeconds ≥ 60 →
        response.at? "warnings" = some (Json.array [S.warnRPC_CLIO, S.warnRPC_OUTDATED])) := by
    intro response h
    constructor
    · intro hlt
      rw [h, warnings, if_neg (by omega)]
    · intro hge
      rw [h, warnings, if_pos hge]
  constructor
  · intro response hmem
    apply hw
    unfold handleRequest at hmem
    cases hr : S.fetchLedgerRange with
    | none => simp [hr] at hmem
    | some range =>
      simp only [hr] at hmem
      cases hc : makeContext S request connection range with
      | error err => simp [hc] at hmem
      | ok ctx =>
        simp only [hc] at hmem
        cases hb : S.buildResponse ctx with
        | threw => simp [hb] at hmem
        | status st =>
          simp only [hb, List.mem_cons, Event.send.injEq, List.mem_singleton, false_or,
            reduceCtorEq, List.not_mem_nil, or_false] at hmem
          rw [hmem]
          exact JObject.at?_insert_or_assign_same _ _ _
        | result json =>
          simp only [hb] at hmem
          cases ha : addStatus connection request (composeBody connection json) with
          | none => simp [ha] at hmem
          | some body =>
            simp only [ha, List.mem_cons, Event.send.injEq, List.mem_singleton, false_or,
              reduceCtorEq, List.not_mem_nil, or_false] at hmem
            rw [hmem]
            exact JObject.at?_insert_or_assign_same _ _ _
  · intro range ctx hr hc h
    rcases h with ⟨st, hb⟩ | ⟨json, body, hb, ha⟩
    · rw [handleRequest_status S request connection range ctx st hr hc hb]
      exact ⟨[Event.makeContext connection.upgraded request range, Event.buildResponse ctx],
        _, rfl, by simp⟩
    · rw [handleRequest_result S request connection range ctx json body hr hc hb ha]
      exact ⟨[Event.makeContext connection.upgraded request range, Event.buildResponse ctx,
        Event.notifyComplete ctx.method], _, rfl, by simp⟩

/-- Witness of C11: a merged forwarded result with its own `warnings`, served 75 seconds
after the last close: the sent `warnings` are the two of the Dispatcher. -/
theorem sent_warnings_witness :
    ∃ response,
      Event.send response
        ∈ (handleRequest Example.staleServices Example.requestWithId Example.httpConnection).1 ∧
      Example.forwardedWithWarnings.at? "warnings"
        = some (Json.array [Json.string "upstream"]) ∧
      response.at? "warnings"
        = some (Json.array [Json.object [("id", Json.int64 2001)],
            Json.object [("id", Json.int64 2002)]]) := by
  obtain ⟨before, response, h, _⟩ :=
    (sent_warnings Example.staleServices Example.requestWithId Example.httpConnection).2
      ⟨1, 30⟩ _ rfl rfl (Or.inr ⟨Example.forwardedWithWarnings, _, rfl, rfl⟩)
  have hmem : Event.send response
      ∈ (handleRequest Example.staleServices Example.requestWithId Example.httpConnection).1 := by
    rw [h]
    simp
  exact ⟨response, hmem, rfl,
    ((sent_warnings Example.staleServices Example.requestWithId Example.httpConnection).1
      response hmem).2 (by decide)⟩

theorem contains_insert_or_assign_other (o : JObject) (k k2 : String) (v : Json)
    (h : k2 ≠ k) : (o.insert_or_assign k v).contains k2 = o.contains k2 := by
  unfold JObject.contains
  rw [JObject.at?_insert_or_assign_other o k k2 v h]

/-- The transport step on a one-shot connection, for a body with an object `result`. -/
theorem addStatus_oneShot (connection : Connection) (request body res : JObject)
    (hup : connection.upgraded = false)
    (hres : body.at? "result" = some (Json.object res)) :
    addStatus connection request body
      = some (if res.contains "error" then body
          else body.insert_or_assign "result"
            (Json.object (res.insert_or_assign "status" (Json.string "success")))) := by
  unfold addStatus
  have hc : body.contains "result" = true := by simp [JObject.contains, hres]
  simp only [hup, Bool.false_eq_true, if_false, hc, if_true, hres, Option.some_bind,
    Json.as_object]
  cases res.contains "error" <;> simp

/-- C18: on the success path of `handleRequest` over a one-shot connection, for a handler
result whose envelope body has an object `result`: the sent response has, as `result`,
that object with `status` set to `success` when the object has no `error` member, and that
object unchanged when it has one; every other member of the sent response except
`warnings`, so `status`, `id` and `type` at the top level, is as in the envelope body. -/
theorem oneShot_status_in_result (S : Services) (request : JObject) (connection : Connection)
    (range : LedgerRange) (ctx : WebContext) (json res : JObject)
    (hup : connection.upgraded = false)
    (hr : S.fetchLedgerRange = some range)
    (hc : makeContext S request connection range = Except.ok ctx)
    (hb : S.buildResponse ctx = BuildOutcome.result json)
    (hres : (composeBody connection json).at? "result" = some (Json.object res)) :
    ∃ response,
      handleRequest S request connection
        = ([Event.makeContext connection.upgraded request range, Event.buildResponse ctx,
            Event.notifyComplete ctx.method, Event.send response], Completion.returned) ∧
      (res.contains "error" = false →
        response.at? "result"
            = some (Json.object (res.insert_or_assign "status" (Json.string "success"))) ∧
          (res.insert_or_assign "status" (Json.string "success")).at? "status"
            = some (Json.string "success")) ∧
      (res.contains "error" = true → response.at? "result" = some (Json.object res)) ∧
      (∀ k, k ≠ "result" → k ≠ "warnings" →
        response.at? k = (composeBody connection json).at? k) ∧
      response.at? "status" = (composeBody connection json).at? "status" ∧
      response.at? "id" = (composeBody connection json).at? "id" ∧
      response.at? "type" = (composeBody connection json).at? "type" := by
  have ha := addStatus_oneShot connection request (composeBody connection json) res hup hres
  refine ⟨_, handleRequest_result S request connection range ctx json _ hr hc hb ha, ?_, ?_, ?_⟩
  · intro he
    refine ⟨?_, JObject.at?_insert_or_assign_same _ _ _⟩
    rw [JObject.at?_insert_or_assign_other _ _ _ _ (by decide)]
    simp only [he, Bool.false_eq_true, if_false]
    exact JObject.at?_insert_or_assign_same _ _ _
  · intro he
    rw [JObject.at?_insert_or_assign_other _ _ _ _ (by decide)]
    simp only [he, if_true]
    exact hres
  · have hk : ∀ k, k ≠ "result" → k ≠ "warnings" →
        (JObject.insert_or_assign
          (if res.contains "error" = true then composeBody connection json
            else (composeBody connection json).insert_or_assign "result"
              (Json.object (res.insert_or_assign "status" (Json.string "success"))))
          "warnings" (Json.array (warnings S))).at? k
          = (composeBody connection json).at? k := by
      intro k h1 h2
      rw [JObject.at?_insert_or_assign_other _ _ _ _ h2]
      cases res.contains "error"
      · simp only [Bool.false_eq_true, if_false]
        exact JObject.at?_insert_or_assign_other _ _ _ _ h1
      · simp only [if_true]
    exact ⟨hk, hk "status" (by decide) (by decide), hk "id" (by decide) (by decide),
      hk "type" (by decide) (by decide)⟩

/-- Witness of C18: a result without `error` gets `status` inside `result`, a result with
`error` stays as it is. -/
theorem oneShot_status_in_result_witness :
    (∃ response,
      handleRequest Example.infoServices Example.requestWithId Example.httpConnection
        = ([Event.makeContext false Example.requestWithId ⟨1, 30⟩,
            Event.buildResponse
              (Example.webContext Example.requestWithId ⟨1, 30⟩ "127.0.0.1" false),
            Event.notifyComplete "ledger_data", Event.send response],
            Completion.returned) ∧
        response.at? "result"
          = some (Json.object [("info", Json.int64 1), ("status", Json.string "success")]) ∧
        response.at? "status" = none) ∧
    (∃ response,
      handleRequest Example.errorResultServices Example.requestWithId Example.httpConnection
        = ([Event.makeContext false Example.requestWithId ⟨1, 30⟩,
            Event.buildResponse
              (Example.webContext Example.requestWithId ⟨1, 30⟩ "127.0.0.1" false),
            Event.notifyComplete "ledger_data", Event.send response],
            Completion.returned) ∧
        response.at? "result" = some (Json.object [("error", Json.string "actNotFound")])) := by
  constructor
  · obtain ⟨response, h1, h2, _, _, h4, _⟩ :=
      oneShot_status_in_result Example.infoServices Example.requestWithId
        Example.httpConnection ⟨1, 30⟩ _ [("info", Json.int64 1)] [("info", Json.int64 1)]
        rfl rfl rfl rfl rfl
    exact ⟨response, h1, (h2 rfl).1, h4⟩
  · obtain ⟨response, h1, _, h3, _⟩ :=
      oneShot_status_in_result Example.errorResultServices Example.requestWithId
        Example.httpConnection ⟨1, 30⟩ _ [("error", Json.string "actNotFound")]
        [("error", Json.string "actNotFound")] rfl rfl rfl rfl rfl
    exact ⟨response, h1, h3 rfl⟩

/-- The transport step on a persistent connection, member by member. -/
theorem addStatus_upgraded (connection : Connection) (request body : JObject)
    (hup : connection.upgraded = true) :
    ∃ response, addStatus connection request body = some response ∧
      (∀ id, request.at? "id" = some id → id ≠ Json.null → response.at? "id" = some id) ∧
      ((request.at? "id" = none ∨ request.at? "id" = some Json.null) →
        response.at? "id" = body.at? "id") ∧
      (body.contains "error" = false → response.at? "status" = some (Json.string "success")) ∧
      (body.contains "error" = true → response.at? "status" = body.at? "status") ∧
      response.at? "type" = some (Json.string "response") := by
  unfold addStatus
  simp only [hup, if_true]
  refine ⟨_, rfl, ?_, ?_, ?_, ?_, JObject.at?_insert_or_assign_same _ _ _⟩
  · intro id hid hne
    have hnull : id.is_null = false := by
      cases id <;> simp [Json.is_null] at hne ⊢
    rw [JObject.at?_insert_or_assign_other _ _ _ _ (by decide)]
    simp only [JObject.contains, hid, Option.isSome_some, if_true, Option.getD_some, hnull,
      Bool.not_false]
    have hce : (JObject.insert_or_assign body "id" id).contains "error"
        = body.contains "error" := contains_insert_or_assign_other body "id" "error" id (by decide)
    unfold JObject.contains at hce
    cases hc : (JObject.at? (JObject.insert_or_assign body "id" id) "error").isSome
    · simp only [Bool.not_false, if_true]
      rw [JObject.at?_insert_or_assign_other _ _ _ _ (by decide)]
      exact JObject.at?_insert_or_assign_same _ _ _
    · simp only [Bool.not_true, Bool.false_eq_true, if_false]
      exact JObject.at?_insert_or_assign_same _ _ _
  · intro hid
    have hnull : (if request.contains "id" = true then (request.at? "id").getD Json.null
        else Json.null).is_null = true := by
      rcases hid with hid | hid <;> simp [JObject.contains, hid, Json.is_null]
    rw [JObject.at?_insert_or_assign_other _ _ _ _ (by decide)]
    simp only [hnull, Bool.not_true, Bool.false_eq_true, if_false]
    cases body.contains "error"
    · simp only [Bool.not_false, if_true]
      exact JObject.at?_insert_or_assign_other _ _ _ _ (by decide)
    · simp only [Bool.not_true, Bool.false_eq_true, if_false]
  · intro he
    rw [JObject.at?_insert_or_assign_other _ _ _ _ (by decide)]
    cases hn : (if request.contains "id" = true then (request.at? "id").getD Json.null
        else Json.null).is_null
    · simp only [Bool.not_false, if_true]
      rw [contains_insert_or_assign_other _ _ _ _ (by decide), he]
      simp only [Bool.not_false, if_true]
      exact JObject.at?_insert_or_assign_same _ _ _
    · simp only [Bool.not_true, Bool.false_eq_true, if_false, he, Bool.not_false, if_true]
      exact JObject.at?_insert_or_assign_same _ _ _
  · intro he
    rw [JObject.at?_insert_or_assign_other _ _ _ _ (by decide)]
    cases hn : (if request.contains "id" = true then (request.at? "id").getD Json.null
        else Json.null).is_null
    · simp only [Bool.not_false, if_true]
      rw [contains_insert_or_assign_other _ _ _ _ (by decide), he]
      simp only [Bool.not_true, Bool.false_eq_true, if_false]
      exact JObject.at?_insert_or_assign_other _ _ _ _ (by decide)
    · simp only [Bool.not_true, Bool.false_eq_true, if_false, he]

/-- C19: on the success path of `handleRequest` over a persistent connection, for every
request and handler result: the sent response has the request's `id` as top-level `id`
when the request has an `id` that is not null, and otherwise the `id` member is as in the
envelope body (the Dispatcher sets none); when the envelope body has no top-level `error`,
the sent response has `status` equal to `success`; and it has `type` equal to `response`
in every case. -/
theorem persistent_id_status_type (S : Services) (request : JObject) (connection : Connection)
    (range : LedgerRange) (ctx : WebContext) (json : JObject)
    (hup : connection.upgraded = true)
    (hr : S.fetchLedgerRange = some range)
    (hc : makeContext S request connection range = Except.ok ctx)
    (hb : S.buildResponse ctx = BuildOutcome.result json) :
    ∃ response,
      handleRequest S request connection
        = ([Event.makeContext connection.upgraded request range, Event.buildResponse ctx,
            Event.notifyComplete ctx.method, Event.send response], Completion.returned) ∧
      (∀ id, request.at? "id" = some id → id ≠ Json.null → response.at? "id" = some id) ∧
      ((request.at? "id" = none ∨ request.at? "id" = some Json.null) →
        response.at? "id" = (composeBody connection json).at? "id") ∧
      ((composeBody connection json).contains "error" = false →
        response.at? "status" = some (Json.string "success") ∧
          response.at? "type" = some (Json.string "response")) ∧
      response.at? "type" = some (Json.string "response") := by
  obtain ⟨body, ha, h1, h2, h3, _, h5⟩ :=
    addStatus_upgraded connection request (composeBody connection json) hup
  have hw : ∀ k, k ≠ "warnings" →
      (body.insert_or_assign "warnings" (Json.array (warnings S))).at? k = body.at? k :=
    fun k hk => JObject.at?_insert_or_assign_other _ _ _ _ hk
  refine ⟨_, handleRequest_result S request connection range ctx json body hr hc hb ha,
    fun id hid hne => ?_, fun hid => ?_, fun he => ⟨?_, ?_⟩, ?_⟩
  · rw [hw "id" (by decide)]
    exact h1 id hid hne
  · rw [hw "id" (by decide)]
    exact h2 hid
  · rw [hw "status" (by decide)]
    exact h3 he
  · rw [hw "type" (by decide)]
    exact h5
  · rw [hw "type" (by decide)]
    exact h5

/-- Witness of C19: a request with the id 7 and a result without `error` on the persistent
connection. -/
theorem persistent_id_status_type_witness :
    ∃ response,
      handleRequest Example.infoServices Example.requestWithId Example.wsConnection
        = ([Event.makeContext true Example.requestWithId ⟨1, 30⟩,
            Event.buildResponse
              (Example.webContext Example.requestWithId ⟨1, 30⟩ "127.0.0.1" false),
            Event.notifyComplete "ledger_data", Event.send response],
            Completion.returned) ∧
      response.at? "id" = some (Json.int64 7) ∧
      response.at? "status" = some (Json.string "success") ∧
      response.at? "type" = some (Json.string "response") := by
  obtain ⟨response, h1, h2, _, h4, _⟩ :=
    persistent_id_status_type Example.infoServices Example.requestWithId
      Example.wsConnection ⟨1, 30⟩ _ [("info", Json.int64 1)] rfl rfl rfl rfl
  exact ⟨response, h1, h2 (Json.int64 7) rfl (by simp), (h4 rfl).1, (h4 rfl).2⟩

/-- C22: for every request object `req` with `shouldReplaceParams(req)` true, the
rewritten object (`params` set to an array of one empty object) has `shouldReplaceParams`
false, has that array as `params`, and has every member other than `params` as in `req`;
so the normalization of line 114-115, on a connection of either kind, changes nothing when
applied a second time, and never changes a member other than `params`. -/
theorem normalizeParams_idempotent :
    (∀ req : JObject, shouldReplaceParams req = true →
      shouldReplaceParams (req.insert_or_assign "params" (Json.array [Json.object []]))
          = false ∧
        (req.insert_or_assign "params" (Json.array [Json.object []])).at? "params"
          = some (Json.array [Json.object []]) ∧
        (∀ k, k ≠ "params" →
          (req.insert_or_assign "params" (Json.array [Json.object []])).at? k = req.at? k)) ∧
    (∀ (connection : Connection) (req : JObject),
      normalizeParams connection (normalizeParams connection req)
        = normalizeParams connection req) ∧
    (∀ (connection : Connection) (req : JObject) (k : String), k ≠ "params" →
      (normalizeParams connection req).at? k = req.at? k) := by
  have hset : ∀ req : JObject,
      (req.insert_or_assign "params" (Json.array [Json.object []])).at? "params"
        = some (Json.array [Json.object []]) :=
    fun req => JObject.at?_insert_or_assign_same req _ _
  have hfalse : ∀ req : JObject,
      shouldReplaceParams (req.insert_or_assign "params" (Json.array [Json.object []]))
        = false :=
    fun req => shouldReplaceParams_of_emptyParams _ (hset req)
  have hother : ∀ (req : JObject) (k : String), k ≠ "params" →
      (req.insert_or_assign "params" (Json.array [Json.object []])).at? k = req.at? k :=
    fun req k hk => JObject.at?_insert_or_assign_other req "params" k _ hk
  refine ⟨fun req _ => ⟨hfalse req, hset req, hother req⟩, fun connection req => ?_,
    fun connection req k hk => ?_⟩
  · by_cases hc : (!connection.upgraded && shouldReplaceParams req) = true
    · have h1 : normalizeParams connection req
          = req.insert_or_assign "params" (Json.array [Json.object []]) := by
        simp only [normalizeParams, hc, if_true, jsParams, emptyParams]
      rw [h1]
      simp only [normalizeParams, hfalse req, Bool.and_false, Bool.false_eq_true, if_false]
    · have h1 : normalizeParams connection req = req := by
        simp only [normalizeParams, hc, Bool.false_eq_true, if_false]
      rw [h1, h1]
  · by_cases hc : (!connection.upgraded && shouldReplaceParams req) = true
    · have h1 : normalizeParams connection req
          = req.insert_or_assign "params" (Json.array [Json.object []]) := by
        simp only [normalizeParams, hc, if_true, jsParams, emptyParams]
      rw [h1]
      exact hother req k hk
    · have h1 : normalizeParams connection req = req := by
        simp only [normalizeParams, hc, Bool.false_eq_true, if_false]
      rw [h1]

/-- Witness of C22: a request whose `params` is null, with a member before and a member
after it. -/
theorem normalizeParams_idempotent_witness :
    shouldReplaceParams Example.requestNullParams = true ∧
    JObject.insert_or_assign Example.requestNullParams "params" (Json.array [Json.object []])
      = [("method", Json.string "ledger_data"), ("params", Json.array [Json.object []]),
          ("id", Json.int64 7)] ∧
    shouldReplaceParams
        (JObject.insert_or_assign Example.requestNullParams "params"
          (Json.array [Json.object []])) = false ∧
    (JObject.insert_or_assign Example.requestNullParams "params"
        (Json.array [Json.object []])).at? "id" = Example.requestNullParams.at? "id" :=
  ⟨rfl, rfl, (normalizeParams_idempotent.1 Example.requestNullParams rfl).1,
    (normalizeParams_idempotent.1 Example.requestNullParams rfl).2.2 "id" (by decide)⟩

end RPCServerHandler

namespace LedgerDataHandler

/-- The serialization loop emits the records that pass the type filter, in order. -/
theorem serializeStates_eq_filter (E : Env) (input : Input) (rs : List LedgerObject)
    (states : List Json) (h : serializeStates E input rs = some states) :
    states = (rs.filter (passesFilter E input)).map (encodeState E input.binary) := by
  induction rs generalizing states with
  | nil =>
    simp only [serializeStates, Option.some.injEq] at h
    simp [← h]
  | cons o rest ih =>
    unfold serializeStates at h
    cases ht : E.sleType o.blob o.key with
    | none => simp [ht] at h
    | some t =>
      simp only [ht] at h
      by_cases hm : input.type = LedgerEntryType.ltANY ∨ t = input.type
      · simp only [hm, if_true, Option.map_eq_some'] at h
        obtain ⟨js, hjs, rfl⟩ := h
        have hp : passesFilter E input o = true := by
          simpa [passesFilter, ht] using hm
        rw [List.filter_cons_of_pos hp, List.map_cons, ← ih js hjs]
      · simp only [hm, if_false] at h
        have hp : ¬ passesFilter E input o = true := by
          simpa [passesFilter, ht] using hm
        rw [List.filter_cons_of_neg hp, ← ih states h]

theorem finish_ok {σ : Type} (E : Env) (B : Backend σ) (input : Input) (lgrInfo : LedgerHeader)
    (header : Option Json) (w : σ) (calls : List Call) (out : Output)
    (h : (finish E B input lgrInfo header w calls).outcome = Outcome.ok out) :
    ∃ f states, fetchStep E B input lgrInfo.seq w = FetchResult.fetched f ∧
      serializeStates E input f.results = some states ∧
      out.states = states ∧ out.marker = f.marker ∧ out.diffMarker = f.diffMarker ∧
      out.ledgerIndex = lgrInfo.seq ∧ out.header = header ∧
      out.cacheFull = (if input.outOfOrder then some (B.cacheIsFull f.world).1 else none) ∧
      (finish E B input lgrInfo header w calls).calls = calls ++ f.calls ++
        (if input.outOfOrder then [Call.cacheIsFull (B.cacheIsFull f.world).1] else []) := by
  unfold finish at h ⊢
  cases hf : fetchStep E B input lgrInfo.seq w with
  | undefinedBehaviour w2 calls2 => simp [hf] at h
  | fetched f =>
    simp only [hf] at h ⊢
    cases hs : serializeStates E input f.results with
    | none => simp [hs] at h
    | some states =>
      simp only [hs] at h ⊢
      cases ho : input.outOfOrder with
      | true =>
        simp only [ho, if_true, Outcome.ok.injEq] at h ⊢
        subst h
        exact ⟨f, states, rfl, hs, rfl, rfl, rfl, rfl, rfl, rfl, rfl⟩
      | false =>
        simp only [ho, Bool.false_eq_true, if_false, Outcome.ok.injEq] at h ⊢
        subst h
        refine ⟨f, states, rfl, hs, rfl, rfl, rfl, rfl, rfl, rfl, ?_⟩
        simp

theorem process_ok {σ : Type} (E : Env) (B : Backend σ) (input : Input) (ctx : Context) (w : σ)
    (out : Output) (h : (process E B input ctx w).outcome = Outcome.ok out) :
    (input.outOfOrder = true → input.marker = none) ∧
    (input.outOfOrder = false → input.diffMarker = none) ∧
    ∃ r lgr w1 pre header,
      process E B input ctx w = finish E B input lgr header w1 pre ∧
      header = (if input.marker.isNone && input.diffMarker.isNone then
        some (E.toJsonHeader lgr input.binary ctx.apiVersion) else none) ∧
      ((input.marker = none ∧
          pre = [Call.fetchLedgerRange (some r),
            Call.getLedgerInfoFromHashOrSeq input.ledgerHash input.ledgerIndex r.maxSequence
              (Sum.inr lgr)]) ∨
        (∃ k blob, input.marker = some k ∧
          pre = [Call.fetchLedgerRange (some r),
            Call.getLedgerInfoFromHashOrSeq input.ledgerHash input.ledgerIndex r.maxSequence
              (Sum.inr lgr),
            Call.fetchLedgerObject k lgr.seq (some blob)])) := by
  unfold process at h ⊢
  by_cases c1 : (input.outOfOrder && input.marker.isSome) = true
  · simp [c1] at h
  simp only [c1, if_false] at h ⊢
  by_cases c2 : (!input.outOfOrder && input.diffMarker.isSome) = true
  · simp [c2] at h
  simp only [c2, if_false] at h ⊢
  refine ⟨?_, ?_, ?_⟩
  · intro ho
    cases hm : input.marker with
    | none => rfl
    | some k => simp [ho, hm] at c1
  · intro ho
    cases hm : input.diffMarker with
    | none => rfl
    | some k => simp [ho, hm] at c2
  cases hr : (B.fetchLedgerRange w).1 with
  | none => simp [hr] at h
  | some r =>
    simp only [hr] at h ⊢
    cases hl : (B.getLedgerInfoFromHashOrSeq (B.fetchLedgerRange w).2 input.ledgerHash
        input.ledgerIndex r.maxSequence).1 with
    | inl status => simp [hl] at h
    | inr lgr =>
      simp only [hl] at h ⊢
      by_cases c3 : (input.marker.isNone && input.diffMarker.isNone) = true
      · simp only [c3, if_true] at h ⊢
        have hm : input.marker = none := by
          cases hm : input.marker with
          | none => rfl
          | some k => simp [hm] at c3
        exact ⟨r, lgr, _, _, _, rfl, rfl, Or.inl ⟨hm, rfl⟩⟩
      · simp only [c3, if_false] at h ⊢
        cases hm : input.marker with
        | none =>
          simp only [hm] at h ⊢
          exact ⟨r, lgr, _, _, _, rfl, rfl, Or.inl ⟨trivial, rfl⟩⟩
        | some k =>
          simp only [hm] at h ⊢
          cases ho : (B.fetchLedgerObject (B.getLedgerInfoFromHashOrSeq (B.fetchLedgerRange w).2
              input.ledgerHash input.ledgerIndex r.maxSequence).2 k lgr.seq).1 with
          | none => simp [ho] at h
          | some blob =>
            simp only [ho, Option.isNone_some, Bool.false_eq_true, if_false] at h ⊢
            refine ⟨r, lgr, _, _, _, rfl, rfl, Or.inr ⟨k, blob, ?_, ?_⟩⟩ <;> simp

/-- What `readBinary` leaves alone. -/
theorem readBinary_frame (E : Env) (o : JObject) (i j : Input) (h : readBinary E o i = some j) :
    j.marker = i.marker ∧ j.diffMarker = i.diffMarker ∧ j.outOfOrder = i.outOfOrder := by
  unfold readBinary at h
  cases hv : o.at? "binary" with
  | none =>
    simp only [hv, Option.some.injEq] at h
    subst h
    exact ⟨rfl, rfl, rfl⟩
  | some v =>
    simp only [hv, Option.map_eq_some'] at h
    obtain ⟨b, _, rfl⟩ := h
    exact ⟨rfl, rfl, rfl⟩

/-- What `readBinary` sets. -/
theorem readBinary_binary (E : Env) (o : JObject) (i j : Input) (h : readBinary E o i = some j) :
    (∀ b, o.at? "binary" = some (Json.bool b) → j.binary = b) ∧
    (o.at? "binary" = none → j.binary = i.binary) := by
  unfold readBinary at h
  cases hv : o.at? "binary" with
  | none =>
    simp only [hv, Option.some.injEq] at h
    subst h
    simp
  | some v =>
    simp only [hv, Option.map_eq_some'] at h
    obtain ⟨b, hb, rfl⟩ := h
    refine ⟨fun b2 h2 => ?_, fun h2 => by simp at h2⟩
    simp only [Option.some.injEq] at h2
    subst h2
    simp only [Json.as_bool, Option.some.injEq] at hb
    exact hb.symm

/-- What `readLimit` leaves alone, and what it sets. -/
theorem readLimit_frame (o : JObject) (i j : Input) (h : readLimit o i = some j) :
    j.marker = i.marker ∧ j.diffMarker = i.diffMarker ∧ j.outOfOrder = i.outOfOrder ∧
      j.binary = i.binary ∧
      (∀ n, o.at? "limit" = some (Json.int64 n) → j.limit = toUint32 n) := by
  unfold readLimit at h
  cases hv : o.at? "limit" with
  | none =>
    simp only [hv, Option.some.injEq] at h
    subst h
    simp
  | some v =>
    simp only [hv, Option.map_eq_some'] at h
    obtain ⟨n, hn, rfl⟩ := h
    refine ⟨rfl, rfl, rfl, rfl, fun n2 h2 => ?_⟩
    simp only [Option.some.injEq] at h2
    subst h2
    simp only [Json.as_int64, Option.some.injEq] at hn
    simp [hn]

/-- What `readOutOfOrder` leaves alone, and what it sets. -/
theorem readOutOfOrder_frame (o : JObject) (i j : Input) (h : readOutOfOrder o i = some j) :
    j.marker = i.marker ∧ j.diffMarker = i.diffMarker ∧ j.binary = i.binary ∧
      j.limit = i.limit ∧
      (∀ b, o.at? "out_of_order" = some (Json.bool b) → j.outOfOrder = b) ∧
      (o.at? "out_of_order" = none → j.outOfOrder = i.outOfOrder) := by
  unfold readOutOfOrder at h
  cases hv : o.at? "out_of_order" with
  | none =>
    simp only [hv, Option.some.injEq] at h
    subst h
    simp
  | some v =>
    simp only [hv, Option.map_eq_some'] at h
    obtain ⟨b, hb, rfl⟩ := h
    refine ⟨rfl, rfl, rfl, rfl, fun b2 h2 => ?_, fun h2 => by simp at h2⟩
    simp only [Option.some.injEq] at h2
    subst h2
    simp only [Json.as_bool, Option.some.injEq] at hb
    exact hb.symm

/-- What `readMarker` leaves alone, and what it sets. -/
theorem readMarker_frame (E : Env) (o : JObject) (i j : Input) (h : readMarker E o i = some j) :
    j.outOfOrder = i.outOfOrder ∧ j.binary = i.binary ∧ j.limit = i.limit ∧
      (∀ str, o.at? "marker" = some (Json.string str) →
        j.marker = E.parseUint256 str ∧ j.marker.isSome = true ∧
          j.diffMarker = i.diffMarker) ∧
      (∀ n, o.at? "marker" = some (Json.int64 n) →
        j.diffMarker = some (toUint32 n) ∧ j.marker = i.marker) ∧
      (o.at? "marker" = none → j.marker = i.marker ∧ j.diffMarker = i.diffMarker) := by
  unfold readMarker at h
  cases hv : o.at? "marker" with
  | none =>
    simp only [hv, Option.some.injEq] at h
    subst h
    simp
  | some v =>
    simp only [hv] at h
    cases v with
    | string str =>
      simp only [Json.is_string, if_true, Json.as_string, Option.some_bind,
        Option.map_eq_some'] at h
      obtain ⟨k, hk, rfl⟩ := h
      refine ⟨rfl, rfl, rfl, fun s2 h2 => ?_, fun n h2 => by simp at h2,
        fun h2 => by simp at h2⟩
      simp only [Option.some.injEq, Json.string.injEq] at h2
      subst h2
      simp [hk]
    | int64 n =>
      simp only [Json.is_string, Bool.false_eq_true, if_false, Json.as_int64, Option.map_some',
        Option.some.injEq] at h
      subst h
      refine ⟨rfl, rfl, rfl, fun s2 h2 => by simp at h2, fun n2 h2 => ?_,
        fun h2 => by simp at h2⟩
      simp only [Option.some.injEq, Json.int64.injEq] at h2
      subst h2
      simp
    | _ => simp [Json.is_string, Json.as_int64] at h

/-- What `readLedgerHash` leaves alone. -/
theorem readLedgerHash_frame (o : JObject) (i j : Input) (h : readLedgerHash o i = some j) :
    j.marker = i.marker ∧ j.diffMarker = i.diffMarker ∧ j.outOfOrder = i.outOfOrder ∧
      j.binary = i.binary ∧ j.limit = i.limit := by
  unfold readLedgerHash at h
  cases hv : o.at? "ledger_hash" with
  | none =>
    simp only [hv, Option.some.injEq] at h
    subst h
    simp
  | some v =>
    simp only [hv, Option.map_eq_some'] at h
    obtain ⟨n, _, rfl⟩ := h
    exact ⟨rfl, rfl, rfl, rfl, rfl⟩

/-- What `readLedgerIndex` leaves alone. -/
theorem readLedgerIndex_frame (E : Env) (o : JObject) (i j : Input)
    (h : readLedgerIndex E o i = some j) :
    j.marker = i.marker ∧ j.diffMarker = i.diffMarker ∧ j.outOfOrder = i.outOfOrder ∧
      j.binary = i.binary ∧ j.limit = i.limit := by
  unfold readLedgerIndex at h
  cases hv : o.at? "ledger_index" with
  | none =>
    simp only [hv, Option.some.injEq] at h
    subst h
    simp
  | some v =>
    simp only [hv] at h
    by_cases hs : v.is_string = true
    · simp only [hs, Bool.not_true, Bool.false_eq_true, if_false, Option.bind_eq_some] at h
      obtain ⟨str, _, h⟩ := h
      by_cases hval : str = "validated"
      · simp only [hval, ne_eq, not_true_eq_false, if_false, Option.some.injEq] at h
        subst h
        simp
      · simp only [ne_eq, hval, not_false_eq_true, if_true, Option.map_eq_some'] at h
        obtain ⟨n, _, rfl⟩ := h
        exact ⟨rfl, rfl, rfl, rfl, rfl⟩
    · simp only [hs, Bool.not_false, if_true, Option.map_eq_some'] at h
      obtain ⟨n, _, rfl⟩ := h
      exact ⟨rfl, rfl, rfl, rfl, rfl⟩

/-- What `readType` leaves alone. -/
theorem readType_frame (o : JObject) (i j : Input) (h : readType o i = some j) :
    j.marker = i.marker ∧ j.diffMarker = i.diffMarker ∧ j.outOfOrder = i.outOfOrder ∧
      j.binary = i.binary ∧ j.limit = i.limit := by
  unfold readType at h
  cases hv : o.at? "type" with
  | none =>
    simp only [hv, Option.some.injEq] at h
    subst h
    simp
  | some v =>
    simp only [hv, Option.map_eq_some'] at h
    obtain ⟨n, _, rfl⟩ := h
    exact ⟨rfl, rfl, rfl, rfl, rfl⟩

/-- The fields of the parsed input that decide the paging mode and the limit, read off
the members of the request. -/
theorem tag_invoke_value_to_fields (E : Env) (jv : Json) (o : JObject) (input : Input)
    (hjv : jv.as_object = some o) (h : tag_invoke_value_to E jv = some input) :
    (∀ b, o.at? "out_of_order" = some (Json.bool b) → input.outOfOrder = b) ∧
    (o.at? "out_of_order" = none → input.outOfOrder = false) ∧
    (∀ str, o.at? "marker" = some (Json.string str) →
      input.marker = E.parseUint256 str ∧ input.marker.isSome = true ∧
        input.diffMarker = none) ∧
    (∀ n, o.at? "marker" = some (Json.int64 n) →
      input.diffMarker = some (toUint32 n) ∧ input.marker = none) ∧
    (o.at? "marker" = none → input.marker = none ∧ input.diffMarker = none) ∧
    (∀ b, o.at? "binary" = some (Json.bool b) → input.binary = b) ∧
    (o.at? "binary" = none → input.binary = false) ∧
    (∀ n, o.at? "limit" = some (Json.int64 n) → input.limit = toUint32 n) := by
  unfold tag_invoke_value_to at h
  rw [hjv] at h
  simp only [Option.some_bind, Option.bind_eq_some] at h
  obtain ⟨i1, h1, i2, h2, i3, h3, i4, h4, i5, h5, i6, h6, h7⟩ := h
  have f1 := readBinary_frame E o _ _ h1
  have b1 := readBinary_binary E o _ _ h1
  have f2 := readLimit_frame o _ _ h2
  have f3 := readOutOfOrder_frame o _ _ h3
  have f4 := readMarker_frame E o _ _ h4
  have f5 := readLedgerHash_frame o _ _ h5
  have f6 := readLedgerIndex_frame E o _ _ h6
  have f7 := readType_frame o _ _ h7
  have eM : input.marker = i4.marker := by rw [f7.1, f6.1, f5.1]
  have eD : input.diffMarker = i4.diffMarker := by rw [f7.2.1, f6.2.1, f5.2.1]
  have eO : input.outOfOrder = i3.outOfOrder := by rw [f7.2.2.1, f6.2.2.1, f5.2.2.1, f4.1]
  have eB : input.binary = i1.binary := by
    rw [f7.2.2.2.1, f6.2.2.2.1, f5.2.2.2.1, f4.2.1, f3.2.2.1, f2.2.2.2.1]
  have eL : input.limit = i2.limit := by
    rw [f7.2.2.2.2, f6.2.2.2.2, f5.2.2.2.2, f4.2.2.1, f3.2.2.2.1]
  have m3 : i3.marker = none := by rw [f3.1, f2.1, f1.1]; rfl
  have d3 : i3.diffMarker = none := by rw [f3.2.1, f2.2.1, f1.2.1]; rfl
  refine ⟨fun b hb => ?_, fun hn => ?_, fun str hs => ?_, fun n hn => ?_, fun hn => ?_,
    fun b hb => ?_, fun hn => ?_, fun n hn => ?_⟩
  · rw [eO]
    exact f3.2.2.2.2.1 b hb
  · rw [eO, f3.2.2.2.2.2 hn, f2.2.2.1, f1.2.2]
    rfl
  · obtain ⟨a1, a2, a3⟩ := f4.2.2.2.1 str hs
    exact ⟨by rw [eM, a1], by rw [eM, a2], by rw [eD, a3, d3]⟩
  · obtain ⟨a1, a2⟩ := f4.2.2.2.2.1 n hn
    exact ⟨by rw [eD, a1], by rw [eM, a2, m3]⟩
  · obtain ⟨a1, a2⟩ := f4.2.2.2.2.2 hn
    exact ⟨by rw [eM, a1, m3], by rw [eD, a2, d3]⟩
  · rw [eB]
    exact b1.1 b hb
  · rw [eB, b1.2 hn]
    rfl
  · rw [eL]
    exact f2.2.2.2.2 n hn

/-- C4: for every input with `outOfOrder` true and a key marker present, in particular
the input parsed from a request object with `out_of_order` true and a string `marker`,
whatever the other fields, the context and the backend, `process` returns the error status
`rpcINVALID_PARAMS` with message `outOfOrderMarkerNotInt`, without a backend call. -/
theorem process_outOfOrder_key_marker {σ : Type} (E : Env) (B : Backend σ) (ctx : Context)
    (w : σ) :
    (∀ input : Input, input.outOfOrder = true → input.marker.isSome = true →
      (process E B input ctx w).outcome
          = Outcome.error ⟨RippledError.rpcINVALID_PARAMS, "outOfOrderMarkerNotInt"⟩ ∧
        (process E B input ctx w).calls = [] ∧ (process E B input ctx w).world = w) ∧
    (∀ (jv : Json) (o : JObject) (str : String) (input : Input),
      jv.as_object = some o → o.at? "out_of_order" = some (Json.bool true) →
      o.at? "marker" = some (Json.string str) → tag_invoke_value_to E jv = some input →
      (process E B input ctx w).outcome
          = Outcome.error ⟨RippledError.rpcINVALID_PARAMS, "outOfOrderMarkerNotInt"⟩ ∧
        (process E B input ctx w).calls = [] ∧ (process E B input ctx w).world = w) := by
  have key : ∀ input : Input, input.outOfOrder = true → input.marker.isSome = true →
      (process E B input ctx w).outcome
          = Outcome.error ⟨RippledError.rpcINVALID_PARAMS, "outOfOrderMarkerNotInt"⟩ ∧
        (process E B input ctx w).calls = [] ∧ (process E B input ctx w).world = w := by
    intro input ho hm
    unfold process
    simp [ho, hm]
  refine ⟨key, fun jv o str input hjv hoo hmk hparse => ?_⟩
  have hf := tag_invoke_value_to_fields E jv o input hjv hparse
  exact key input (hf.1 true hoo) (hf.2.2.1 str hmk).2.1

/-- Witness of C4: an out-of-order input with the key marker 1, and the parsed request
object with `out_of_order` true and a string `marker`. -/
theorem process_outOfOrder_key_marker_witness :
    ((process Example.env Example.backend
        { Example.firstPage with outOfOrder := true, marker := some 1 } Example.context 0).outcome
        = Outcome.error ⟨RippledError.rpcINVALID_PARAMS, "outOfOrderMarkerNotInt"⟩ ∧
      (process Example.env Example.backend
        { Example.firstPage with outOfOrder := true, marker := some 1 } Example.context 0).calls
        = [] ∧
      (process Example.env Example.backend
        { Example.firstPage with outOfOrder := true, marker := some 1 } Example.context 0).world
        = 0) ∧
    tag_invoke_value_to Example.env Example.jsonOutOfOrderKey
      = some { Example.firstPage with
          ledgerIndex := none, outOfOrder := true, marker := some 1 } ∧
    (process Example.env Example.backend
        { Example.firstPage with ledgerIndex := none, outOfOrder := true, marker := some 1 }
        Example.context 0).outcome
      = Outcome.error ⟨RippledError.rpcINVALID_PARAMS, "outOfOrderMarkerNotInt"⟩ :=
  ⟨(process_outOfOrder_key_marker Example.env Example.backend Example.context 0).1
      { Example.firstPage with outOfOrder := true, marker := some 1 } rfl rfl,
    rfl,
    ((process_outOfOrder_key_marker Example.env Example.backend Example.context 0).2
      Example.jsonOutOfOrderKey _ "F" _ rfl rfl rfl rfl).1⟩

/-- C5: for every input with `outOfOrder` false and a sequence marker present, in
particular the input parsed from a request object with `out_of_order` absent or false and
an integer `marker`, whatever the other fields, the context and the backend, `process`
returns the error status `rpcINVALID_PARAMS` with message `markerNotString`, without a
backend call. -/
theorem process_inOrder_sequence_marker {σ : Type} (E : Env) (B : Backend σ) (ctx : Context)
    (w : σ) :
    (∀ input : Input, input.outOfOrder = false → input.diffMarker.isSome = true →
      (process E B input ctx w).outcome
          = Outcome.error ⟨RippledError.rpcINVALID_PARAMS, "markerNotString"⟩ ∧
        (process E B input ctx w).calls = [] ∧ (process E B input ctx w).world = w) ∧
    (∀ (jv : Json) (o : JObject) (n : Int) (input : Input),
      jv.as_object = some o →
      (o.at? "out_of_order" = none ∨ o.at? "out_of_order" = some (Json.bool false)) →
      o.at? "marker" = some (Json.int64 n) → tag_invoke_value_to E jv = some input →
      (process E B input ctx w).outcome
          = Outcome.error ⟨RippledError.rpcINVALID_PARAMS, "markerNotString"⟩ ∧
        (process E B input ctx w).calls = [] ∧ (process E B input ctx w).world = w) := by
  have key : ∀ input : Input, input.outOfOrder = false → input.diffMarker.isSome = true →
      (process E B input ctx w).outcome
          = Outcome.error ⟨RippledError.rpcINVALID_PARAMS, "markerNotString"⟩ ∧
        (process E B input ctx w).calls = [] ∧ (process E B input ctx w).world = w := by
    intro input ho hm
    unfold process
    simp [ho, hm]
  refine ⟨key, fun jv o n input hjv hoo hmk hparse => ?_⟩
  have hf := tag_invoke_value_to_fields E jv o input hjv hparse
  have ho : input.outOfOrder = false := by
    rcases hoo with hoo | hoo
    · exact hf.2.1 hoo
    · exact hf.1 false hoo
  refine key input ho ?_
  rw [(hf.2.2.2.1 n hmk).1]
  rfl

/-- Witness of C5: an in-order input with the sequence marker 7, and the parsed request
object with an integer `marker` and no `out_of_order`. -/
theorem process_inOrder_sequence_marker_witness :
    ((process Example.env Example.backend
        { Example.firstPage with diffMarker := some 7 } Example.context 0).outcome
        = Outcome.error ⟨RippledError.rpcINVALID_PARAMS, "markerNotString"⟩ ∧
      (process Example.env Example.backend
        { Example.firstPage with diffMarker := some 7 } Example.context 0).calls = [] ∧
      (process Example.env Example.backend
        { Example.firstPage with diffMarker := some 7 } Example.context 0).world = 0) ∧
    tag_invoke_value_to Example.env Example.jsonInOrderSequence
      = some { Example.firstPage with diffMarker := some 7 } ∧
    (process Example.env Example.backend
        { Example.firstPage with diffMarker := some 7 } Example.context 0).outcome
      = Outcome.error ⟨RippledError.rpcINVALID_PARAMS, "markerNotString"⟩ :=
  ⟨(process_inOrder_sequence_marker Example.env Example.backend Example.context 0).1
      { Example.firstPage with diffMarker := some 7 } rfl rfl,
    rfl,
    ((process_inOrder_sequence_marker Example.env Example.backend Example.context 0).2
      Example.jsonInOrderSequence _ 7 _ rfl (Or.inl rfl) rfl rfl).1⟩

theorem sub32_one (m : Nat) (h0 : 0 < m) (h32 : m < 2 ^ 32) : sub32 m 1 = m - 1 := by
  unfold sub32
  have e1 : m % 2 ^ 32 = m := Nat.mod_eq_of_lt h32
  have e2 : 1 % 2 ^ 32 = 1 := by norm_num
  rw [e1, e2]
  have e3 : m + (2 ^ 32 - 1) = (m - 1) + 2 ^ 32 := by omega
  rw [e3, Nat.add_mod_right]
  exact Nat.mod_eq_of_lt (by omega)

/-- The member `marker` of the encoded output: the sequence marker when it is set, else
the key marker when it is set, else absent. -/
theorem tag_invoke_value_from_marker (out : Output) :
    (tag_invoke_value_from out).at? "marker" =
      match out.diffMarker with
      | some d => some (Json.uint64 d)
      | none => out.marker.map Json.string := by
  unfold tag_invoke_value_from
  cases out.header <;> cases out.cacheFull <;> cases out.diffMarker <;> cases out.marker <;>
    simp +decide [JObject.at?_insert_or_assign_same, JObject.at?_insert_or_assign_other,
      JObject.at?]

theorem fetchDiff_some {σ : Type} (B : Backend σ) (m seq : Nat) (w : σ) (f : Fetched σ)
    (h : fetchDiff B m seq w = FetchResult.fetched f) :
    f.marker = none ∧ f.diffMarker = (if m > seq then some (sub32 m 1) else none) ∧
      f.calls = [Call.fetchLedgerDiff m (B.fetchLedgerDiff w m).1,
        Call.fetchLedgerObjects (diffKeys (B.fetchLedgerDiff w m).1) seq
          (B.fetchLedgerObjects (B.fetchLedgerDiff w m).2
            (diffKeys (B.fetchLedgerDiff w m).1) seq).1] ∧
      collectObjects (diffKeys (B.fetchLedgerDiff w m).1)
        (B.fetchLedgerObjects (B.fetchLedgerDiff w m).2
          (diffKeys (B.fetchLedgerDiff w m).1) seq).1 = some f.results := by
  unfold fetchDiff at h
  simp only at h
  cases hc : collectObjects (diffKeys (B.fetchLedgerDiff w m).1)
      (B.fetchLedgerObjects (B.fetchLedgerDiff w m).2
        (diffKeys (B.fetchLedgerDiff w m).1) seq).1 with
  | none => simp [hc] at h
  | some results =>
    simp only [hc, FetchResult.fetched.injEq] at h
    subst h
    exact ⟨rfl, rfl, rfl, rfl⟩

/-- C1, as stated, fails: with the marker 5 and the resolved sequence 10 (marker below the
sequence) the output carries no marker, where the claim gives 4; with the marker 10 and the
resolved sequence 5 (marker above the sequence) the output carries the marker 9, where the
claim gives none. -/
theorem diffMarker_counterexample :
    (process Example.env Example.backend (Example.diffRequest 10 5) Example.context 0).outcome
      = Outcome.ok Example.diffBelowOutput ∧
    Example.diffBelowOutput.ledgerIndex = 10 ∧
    Example.diffBelowOutput.diffMarker = none ∧
    Example.diffBelowOutput.marker = none ∧
    (tag_invoke_value_from Example.diffBelowOutput).at? "marker" = none ∧
    (process Example.env Example.backend (Example.diffRequest 5 10) Example.context 0).outcome
      = Outcome.ok Example.diffOutput ∧
    Example.diffOutput.ledgerIndex = 5 ∧
    Example.diffOutput.diffMarker = some 9 ∧
    (tag_invoke_value_from Example.diffOutput).at? "marker" = some (Json.uint64 9) :=
  ⟨rfl, rfl, rfl, rfl, rfl, rfl, rfl, rfl, rfl⟩

/-- C1, amended: in diff mode (a sequence marker `m` below `2 ^ 32` supplied, the run
successful, the ledger selector resolved to the sequence `s` that the output reports as
`ledgerIndex`): when `m > s` the next marker of the output is the integer `m - 1`, and
when `m ≤ s` the output carries no marker. -/
theorem diffMarker_next {σ : Type} (E : Env) (B : Backend σ) (input : Input) (ctx : Context)
    (w : σ) (out : Output) (m : Nat) (hm : input.diffMarker = some m) (h32 : m < 2 ^ 32)
    (hok : (process E B input ctx w).outcome = Outcome.ok out) :
    (∃ (r : LedgerRange) (lgr : LedgerHeader),
      Call.getLedgerInfoFromHashOrSeq input.ledgerHash input.ledgerIndex
        r.maxSequence (Sum.inr lgr) ∈ (process E B input ctx w).calls ∧
      lgr.seq = out.ledgerIndex) ∧
    (m > out.ledgerIndex →
      out.diffMarker = some (m - 1) ∧
        (tag_invoke_value_from out).at? "marker" = some (Json.uint64 (m - 1))) ∧
    (m ≤ out.ledgerIndex →
      out.diffMarker = none ∧ out.marker = none ∧
        (tag_invoke_value_from out).at? "marker" = none) := by
  obtain ⟨_, _, r, lgr, w1, pre, header, hfin, _, hpre⟩ := process_ok E B input ctx w out hok
  rw [hfin] at hok
  obtain ⟨f, states, hf, _, _, hmk, hdm, hidx, _, _, hcalls⟩ :=
    finish_ok E B input lgr header w1 pre out hok
  simp only [fetchStep, hm] at hf
  obtain ⟨f1, f2, _, _⟩ := fetchDiff_some B m lgr.seq w1 f hf
  have hmem : Call.getLedgerInfoFromHashOrSeq input.ledgerHash input.ledgerIndex
      r.maxSequence (Sum.inr lgr) ∈ (process E B input ctx w).calls := by
    rw [hfin, hcalls]
    rcases hpre with ⟨_, hp⟩ | ⟨k, blob, _, hp⟩ <;> simp [hp]
  refine ⟨⟨r, lgr, hmem, hidx.symm⟩, fun hgt => ?_, fun hle => ?_⟩
  · have hd : out.diffMarker = some (m - 1) := by
      rw [hidx] at hgt
      rw [hdm, f2, if_pos hgt, sub32_one m (by omega) h32]
    exact ⟨hd, by rw [tag_invoke_value_from_marker, hd]⟩
  · have hd : out.diffMarker = none := by
      rw [hdm, f2]
      exact if_neg (by rw [← hidx]; omega)
    have hk : out.marker = none := by rw [hmk, f1]
    exact ⟨hd, hk, by rw [tag_invoke_value_from_marker, hd, hk]; rfl⟩

/-- Witness of the amended C1: the marker 10 against the resolved sequence 5. -/
theorem diffMarker_next_witness :
    ∃ out, (process Example.env Example.backend (Example.diffRequest 5 10)
        Example.context 0).outcome = Outcome.ok out ∧
      (10 > out.ledgerIndex → out.diffMarker = some (10 - 1) ∧
        (tag_invoke_value_from out).at? "marker" = some (Json.uint64 (10 - 1))) :=
  ⟨_, rfl, (diffMarker_next Example.env Example.backend (Example.diffRequest 5 10)
    Example.context 0 _ 10 rfl (by norm_num) rfl).2.1⟩

theorem finish_status {σ : Type} (E : Env) (B : Backend σ) (input : Input)
    (lgrInfo : LedgerHeader) (header : Option Json) (w : σ) (calls : List Call) :
    (finish E B input lgrInfo header w calls).outcome.status? = none := by
  unfold finish
  cases fetchStep E B input lgrInfo.seq w with
  | undefinedBehaviour w2 calls2 => rfl
  | fetched f =>
    simp only
    cases serializeStates E input f.results with
    | none => rfl
    | some states =>
      simp only
      cases input.outOfOrder <;> rfl

theorem finish_calls {σ : Type} (E : Env) (B : Backend σ) (input : Input)
    (lgrInfo : LedgerHeader) (header : Option Json) (w : σ) (calls : List Call) :
    ∃ rest, (finish E B input lgrInfo header w calls).calls
        = calls ++ (fetchStep E B input lgrInfo.seq w).calls ++ rest ∧
      ∀ c ∈ rest, c.isRecordFetch = false := by
  unfold finish
  cases fetchStep E B input lgrInfo.seq w with
  | undefinedBehaviour w2 calls2 => exact ⟨[], by simp [FetchResult.calls], by simp⟩
  | fetched f =>
    simp only
    cases serializeStates E input f.results with
    | none => exact ⟨[], by simp [FetchResult.calls], by simp⟩
    | some states =>
      simp only
      cases input.outOfOrder with
      | false => exact ⟨[], by simp [FetchResult.calls], by simp⟩
      | true =>
        exact ⟨[Call.cacheIsFull (B.cacheIsFull f.world).1], by simp [FetchResult.calls],
          by simp [Call.isRecordFetch]⟩

/-- The record fetches of the fetch step: one page fetch with the clamped limit in
full-state mode, no page fetch in diff mode. -/
theorem fetchStep_page_calls {σ : Type} (E : Env) (B : Backend σ) (input : Input) (seq : Nat)
    (w : σ) :
    (input.diffMarker = none →
      (fetchStep E B input seq w).calls.filter Call.isRecordFetch
        = [Call.fetchLedgerPage input.marker seq (effectiveLimit E input) input.outOfOrder
            (B.fetchLedgerPage w input.marker seq (effectiveLimit E input) input.outOfOrder).1]) ∧
    (∀ m, input.diffMarker = some m →
      (fetchStep E B input seq w).calls
        = [Call.fetchLedgerDiff m (B.fetchLedgerDiff w m).1,
          Call.fetchLedgerObjects (diffKeys (B.fetchLedgerDiff w m).1) seq
            (B.fetchLedgerObjects (B.fetchLedgerDiff w m).2
              (diffKeys (B.fetchLedgerDiff w m).1) seq).1]) := by
  constructor
  · intro hd
    simp only [fetchStep, hd, fetchPage]
    cases (B.fetchLedgerPage w input.marker seq (effectiveLimit E input)
        input.outOfOrder).1.cursor with
    | some c => simp [FetchResult.calls, Call.isRecordFetch]
    | none =>
      simp only
      cases input.outOfOrder with
      | false => simp [FetchResult.calls, Call.isRecordFetch]
      | true =>
        simp only [if_true]
        cases (B.fetchLedgerRange (B.fetchLedgerPage w input.marker seq
            (effectiveLimit E input) true).2).1 <;>
          simp [FetchResult.calls, Call.isRecordFetch]
  · intro m hd
    simp only [fetchStep, hd, fetchDiff]
    cases collectObjects (diffKeys (B.fetchLedgerDiff w m).1)
        (B.fetchLedgerObjects (B.fetchLedgerDiff w m).2
          (diffKeys (B.fetchLedgerDiff w m).1) seq).1 <;>
      simp [FetchResult.calls]

/-- The shape of every run of `process`: it ends before the fetch step with calls that
fetch no records, or it is a run of `finish` after such calls. -/
theorem process_cases {σ : Type} (E : Env) (B : Backend σ) (input : Input) (ctx : Context)
    (w : σ) :
    ((process E B input ctx w).outcome.output? = none ∧
        (process E B input ctx w).calls.filter Call.isRecordFetch = []) ∨
      ∃ lgr header w1 pre,
        process E B input ctx w = finish E B input lgr header w1 pre ∧
          pre.filter Call.isRecordFetch = [] := by
  unfold process
  by_cases c1 : (input.outOfOrder && input.marker.isSome) = true
  · exact Or.inl (by simp [c1, Outcome.output?])
  simp only [c1, if_false]
  by_cases c2 : (!input.outOfOrder && input.diffMarker.isSome) = true
  · exact Or.inl (by simp [c2, Outcome.output?])
  simp only [c2, if_false]
  cases hr : (B.fetchLedgerRange w).1 with
  | none => exact Or.inl (by simp [Outcome.output?, Call.isRecordFetch])
  | some r =>
    simp only
    cases hl : (B.getLedgerInfoFromHashOrSeq (B.fetchLedgerRange w).2 input.ledgerHash
        input.ledgerIndex r.maxSequence).1 with
    | inl status => exact Or.inl (by simp [Outcome.output?, Call.isRecordFetch])
    | inr lgr =>
      simp only
      by_cases c3 : (input.marker.isNone && input.diffMarker.isNone) = true
      · simp only [c3, if_true]
        exact Or.inr ⟨lgr, _, _, _, rfl, by simp [Call.isRecordFetch]⟩
      · simp only [c3, if_false]
        cases hm : input.marker with
        | none => exact Or.inr ⟨lgr, _, _, _, rfl, by simp [Call.isRecordFetch]⟩
        | some k =>
          simp only
          cases ho : (B.fetchLedgerObject (B.getLedgerInfoFromHashOrSeq (B.fetchLedgerRange w).2
              input.ledgerHash input.ledgerIndex r.maxSequence).2 k lgr.seq).1 with
          | none => exact Or.inl (by simp [Outcome.output?, Call.isRecordFetch])
          | some blob =>
            simp only [Option.isNone_some, Bool.false_eq_true, if_false]
            exact Or.inr ⟨lgr, _, _, _, rfl, by simp [Call.isRecordFetch]⟩

/-- The record fetches of a whole run: none, or the one page fetch of full-state mode with
the clamped limit, or the diff fetch and the batched object fetch of diff mode. -/
theorem process_record_fetches {σ : Type} (E : Env) (B : Backend σ) (input : Input)
    (ctx : Context) (w : σ) :
    ((process E B input ctx w).outcome.output? = none ∧
        (process E B input ctx w).calls.filter Call.isRecordFetch = []) ∨
      ∃ (lgr : LedgerHeader) (w1 : σ), (process E B input ctx w).outcome.status? = none ∧
        ((process E B input ctx w).outcome.output? = none ∨
          ((process E B input ctx w).outcome.output?.map fun o => o.ledgerIndex)
            = some lgr.seq) ∧
        ((input.diffMarker = none ∧
          (process E B input ctx w).calls.filter Call.isRecordFetch
            = [Call.fetchLedgerPage input.marker lgr.seq (effectiveLimit E input)
                input.outOfOrder
                (B.fetchLedgerPage w1 input.marker lgr.seq (effectiveLimit E input)
                  input.outOfOrder).1]) ∨
        (∃ m, input.diffMarker = some m ∧
          (process E B input ctx w).calls.filter Call.isRecordFetch
            = [Call.fetchLedgerDiff m (B.fetchLedgerDiff w1 m).1,
              Call.fetchLedgerObjects (diffKeys (B.fetchLedgerDiff w1 m).1) lgr.seq
                (B.fetchLedgerObjects (B.fetchLedgerDiff w1 m).2
                  (diffKeys (B.fetchLedgerDiff w1 m).1) lgr.seq).1])) := by
  rcases process_cases E B input ctx w with h | ⟨lgr, header, w1, pre, hfin, hpre⟩
  · exact Or.inl h
  · right
    obtain ⟨rest, hcalls, hrest⟩ := finish_calls E B input lgr header w1 pre
    have hrest2 : rest.filter Call.isRecordFetch = [] := by
      rw [List.filter_eq_nil_iff]
      intro c hc
      simp [hrest c hc]
    have hfilter : (process E B input ctx w).calls.filter Call.isRecordFetch
        = (fetchStep E B input lgr.seq w1).calls.filter Call.isRecordFetch := by
      rw [hfin, hcalls, List.filter_append, List.filter_append, hpre, hrest2]
      simp
    have hidx : (process E B input ctx w).outcome.output? = none ∨
        ((process E B input ctx w).outcome.output?.map fun o => o.ledgerIndex)
          = some lgr.seq := by
      cases ho : (process E B input ctx w).outcome with
      | ok out =>
        right
        rw [hfin] at ho
        obtain ⟨_, _, _, _, _, _, _, hi, _⟩ := finish_ok E B input lgr header w1 pre out ho
        simp [Outcome.output?, hi]
      | _ => exact Or.inl rfl
    refine ⟨lgr, w1, by rw [hfin]; exact finish_status E B input lgr header w1 pre, hidx, ?_⟩
    cases hd : input.diffMarker with
    | none =>
      left
      exact ⟨rfl, by rw [hfilter]; exact (fetchStep_page_calls E B input lgr.seq w1).1 hd⟩
    | some m =>
      right
      refine ⟨m, rfl, ?_⟩
      rw [hfilter, (fetchStep_page_calls E B input lgr.seq w1).2 m hd]
      simp [Call.isRecordFetch]

/-- Whether a run ends in an error status, and in which, does not depend on the limit. -/
theorem process_status_limit {σ : Type} (E : Env) (B : Backend σ) (input : Input)
    (ctx : Context) (w : σ) (L : Nat) :
    (process E B { input with limit := L } ctx w).outcome.status?
      = (process E B input ctx w).outcome.status? := by
  unfold process
  simp only
  by_cases c1 : (input.outOfOrder && input.marker.isSome) = true
  · simp [c1]
  by_cases c2 : (!input.outOfOrder && input.diffMarker.isSome) = true
  · simp [c1, c2]
  simp only [c1, c2, Bool.false_eq_true, if_false]
  cases hr : (B.fetchLedgerRange w).1 with
  | none => rfl
  | some r =>
    simp only
    cases hl : (B.getLedgerInfoFromHashOrSeq (B.fetchLedgerRange w).2 input.ledgerHash
        input.ledgerIndex r.maxSequence).1 with
    | inl status => rfl
    | inr lgr =>
      simp only
      by_cases c3 : (input.marker.isNone && input.diffMarker.isNone) = true
      · simp only [c3, if_true, finish_status]
      · simp only [c3, Bool.false_eq_true, if_false]
        cases hm : input.marker with
        | none => simp only [finish_status]
        | some k =>
          simp only
          cases ho : (B.fetchLedgerObject (B.getLedgerInfoFromHashOrSeq (B.fetchLedgerRange w).2
              input.ledgerHash input.ledgerIndex r.maxSequence).2 k lgr.seq).1 with
          | none => rfl
          | some blob =>
            simp only [Option.isNone_some, Bool.false_eq_true, if_false, finish_status]

theorem fetchPage_fetched {σ : Type} (E : Env) (B : Backend σ) (input : Input) (seq : Nat)
    (w : σ) (f : Fetched σ) (h : fetchPage E B input seq w = FetchResult.fetched f) :
    f.results = (B.fetchLedgerPage w input.marker seq (effectiveLimit E input)
        input.outOfOrder).1.objects ∧
    (∀ c, (B.fetchLedgerPage w input.marker seq (effectiveLimit E input)
        input.outOfOrder).1.cursor = some c →
      f.marker = some (E.strHex c) ∧ f.diffMarker = none ∧
        f.calls = [Call.fetchLedgerPage input.marker seq (effectiveLimit E input)
          input.outOfOrder (B.fetchLedgerPage w input.marker seq (effectiveLimit E input)
            input.outOfOrder).1]) ∧
    ((B.fetchLedgerPage w input.marker seq (effectiveLimit E input)
        input.outOfOrder).1.cursor = none → input.outOfOrder = true →
      ∃ r, f.marker = none ∧ f.diffMarker = some r.maxSequence ∧
        f.calls = [Call.fetchLedgerPage input.marker seq (effectiveLimit E input)
          input.outOfOrder (B.fetchLedgerPage w input.marker seq (effectiveLimit E input)
            input.outOfOrder).1, Call.fetchLedgerRange (some r)]) ∧
    ((B.fetchLedgerPage w input.marker seq (effectiveLimit E input)
        input.outOfOrder).1.cursor = none → input.outOfOrder = false →
      f.marker = none ∧ f.diffMarker = none ∧
        f.calls = [Call.fetchLedgerPage input.marker seq (effectiveLimit E input)
          input.outOfOrder (B.fetchLedgerPage w input.marker seq (effectiveLimit E input)
            input.outOfOrder).1]) := by
  unfold fetchPage at h
  simp only at h
  cases hc : (B.fetchLedgerPage w input.marker seq (effectiveLimit E input)
      input.outOfOrder).1.cursor with
  | some c =>
    simp only [hc, FetchResult.fetched.injEq] at h
    subst h
    simp
  | none =>
    simp only [hc] at h
    cases ho : input.outOfOrder with
    | false =>
      simp only [ho, Bool.false_eq_true, if_false, FetchResult.fetched.injEq] at h
      subst h
      simp
    | true =>
      simp only [ho, if_true] at h
      cases hr : (B.fetchLedgerRange (B.fetchLedgerPage w input.marker seq
          (effectiveLimit E input) true).2).1 with
      | none => simp [hr] at h
      | some r =>
        simp only [hr, FetchResult.fetched.injEq] at h
        subst h
        simp [hr]

/-- The second loop of the diff branch, when `objs` is not longer than the rest of `keys`:
the pairs of a key and its object, in order, whose object is not empty. -/
theorem collectFrom_zip (keys : List Uint256) (objs : List Blob) (i : Nat)
    (h : i + objs.length ≤ keys.length) :
    collectFrom keys i objs = some ((((keys.drop i).zip objs).filter fun p => !p.2.isEmpty).map
      fun p => (⟨p.1, p.2⟩ : LedgerObject)) := by
  induction objs generalizing i with
  | nil => simp [collectFrom]
  | cons obj rest ih =>
    have hi : i < keys.length := by
      simp only [List.length_cons] at h
      omega
    have hrest : i + 1 + rest.length ≤ keys.length := by
      simp only [List.length_cons] at h
      omega
    rw [List.drop_eq_getElem_cons hi, List.zip_cons_cons]
    unfold collectFrom
    by_cases he : obj.isEmpty = true
    · rw [if_pos he, ih (i + 1) hrest, List.filter_cons_of_neg (by simp [he])]
    · rw [if_neg he, List.getElem?_eq_getElem hi]
      simp only [ih (i + 1) hrest, Option.map_some']
      rw [List.filter_cons_of_pos (by simp [he]), List.map_cons]

/-- C12: for every input with a key marker `k`, `outOfOrder` false and no sequence marker
(in particular the input parsed from a request with a string `marker`), when the range is
known, the ledger selector resolves to the header `lgr` and `fetchLedgerObject(k, lgr.seq)`
yields no object, `process` returns the error status `rpcINVALID_PARAMS` with message
`markerDoesNotExist`; its backend calls are the range read, the resolution and that object
fetch, so neither `fetchLedgerPage` nor `fetchLedgerDiff` is called. -/
theorem process_marker_missing {σ : Type} (E : Env) (B : Backend σ) (ctx : Context) (w : σ) :
    (∀ (input : Input) (k : Uint256) (r : LedgerRange) (lgr : LedgerHeader),
      input.outOfOrder = false → input.marker = some k → input.diffMarker = none →
      (B.fetchLedgerRange w).1 = some r →
      (B.getLedgerInfoFromHashOrSeq (B.fetchLedgerRange w).2 input.ledgerHash
        input.ledgerIndex r.maxSequence).1 = Sum.inr lgr →
      (B.fetchLedgerObject (B.getLedgerInfoFromHashOrSeq (B.fetchLedgerRange w).2
        input.ledgerHash input.ledgerIndex r.maxSequence).2 k lgr.seq).1 = none →
      (process E B input ctx w).outcome
          = Outcome.error ⟨RippledError.rpcINVALID_PARAMS, "markerDoesNotExist"⟩ ∧
        (process E B input ctx w).calls
          = [Call.fetchLedgerRange (some r),
            Call.getLedgerInfoFromHashOrSeq input.ledgerHash input.ledgerIndex r.maxSequence
              (Sum.inr lgr),
            Call.fetchLedgerObject k lgr.seq none] ∧
        (∀ cursor seq limit outOfOrder page,
          Call.fetchLedgerPage cursor seq limit outOfOrder page
            ∉ (process E B input ctx w).calls) ∧
        (∀ m diff, Call.fetchLedgerDiff m diff ∉ (process E B input ctx w).calls)) ∧
    (∀ (jv : Json) (o : JObject) (str : String) (input : Input),
      jv.as_object = some o →
      (o.at? "out_of_order" = none ∨ o.at? "out_of_order" = some (Json.bool false)) →
      o.at? "marker" = some (Json.string str) → tag_invoke_value_to E jv = some input →
      input.outOfOrder = false ∧ input.marker = E.parseUint256 str ∧
        input.marker.isSome = true ∧ input.diffMarker = none) := by
  constructor
  · intro input k r lgr ho hm hd hr hl hobj
    have hcalls : process E B input ctx w
        = ⟨Outcome.error ⟨RippledError.rpcINVALID_PARAMS, "markerDoesNotExist"⟩,
          (B.fetchLedgerObject (B.getLedgerInfoFromHashOrSeq (B.fetchLedgerRange w).2
            input.ledgerHash input.ledgerIndex r.maxSequence).2 k lgr.seq).2,
          [Call.fetchLedgerRange (some r),
            Call.getLedgerInfoFromHashOrSeq input.ledgerHash input.ledgerIndex r.maxSequence
              (Sum.inr lgr),
            Call.fetchLedgerObject k lgr.seq none]⟩ := by
      unfold process
      simp [ho, hm, hd, hr, hl, hobj]
    rw [hcalls]
    refine ⟨rfl, rfl, ?_, ?_⟩ <;> intros <;> simp
  · intro jv o str input hjv hoo hmk hparse
    have hf := tag_invoke_value_to_fields E jv o input hjv hparse
    have ho : input.outOfOrder = false := by
      rcases hoo with hoo | hoo
      · exact hf.2.1 hoo
      · exact hf.1 false hoo
    obtain ⟨a1, a2, a3⟩ := hf.2.2.1 str hmk
    exact ⟨ho, a1, a2, a3⟩

/-- Witness of C12: the example ledger holds the keys 1, 2 and 4; a request resuming
after the key 3 fails, also when parsed from its request object. -/
theorem process_marker_missing_witness :
    ((process Example.env Example.backend Example.staleMarkerPage Example.context 0).outcome
        = Outcome.error ⟨RippledError.rpcINVALID_PARAMS, "markerDoesNotExist"⟩ ∧
      (process Example.env Example.backend Example.staleMarkerPage Example.context 0).calls
        = [Call.fetchLedgerRange (some ⟨1, 30⟩),
          Call.getLedgerInfoFromHashOrSeq none (some 10) 30 (Sum.inr ⟨10, 10⟩),
          Call.fetchLedgerObject 3 10 none]) ∧
    tag_invoke_value_to Example.env Example.jsonStaleMarker = some Example.staleMarkerPage ∧
    Example.staleMarkerPage.diffMarker = none := by
  obtain ⟨h1, h2, _, _⟩ :=
    (process_marker_missing Example.env Example.backend Example.context 0).1
      Example.staleMarkerPage 3 ⟨1, 30⟩ ⟨10, 10⟩ rfl rfl rfl rfl rfl rfl
  exact ⟨⟨h1, h2⟩, rfl,
    ((process_marker_missing Example.env Example.backend Example.context 0).2
      Example.jsonStaleMarker _ "FFF" Example.staleMarkerPage rfl (Or.inl rfl) rfl rfl).2.2.2⟩

theorem tag_invoke_value_from_ledger (out : Output) :
    (tag_invoke_value_from out).at? "ledger" = out.header := by
  unfold tag_invoke_value_from
  cases out.header <;> cases out.cacheFull <;> cases out.diffMarker <;> cases out.marker <;>
    simp +decide [JObject.at?_insert_or_assign_same, JObject.at?_insert_or_assign_other,
      JObject.at?]

/-- C20: for every successful run of `process`, the output carries the ledger header
exactly when the input has neither a key marker nor a sequence marker, and then it is
`toJson` of the resolved header; and the encoded output has the member `ledger` exactly
when the output carries the header, with the header as its value. -/
theorem header_iff_no_marker {σ : Type} (E : Env) (B : Backend σ) (input : Input)
    (ctx : Context) (w : σ) (out : Output)
    (hok : (process E B input ctx w).outcome = Outcome.ok out) :
    (out.header.isSome = true ↔ (input.marker = none ∧ input.diffMarker = none)) ∧
    ((input.marker = none ∧ input.diffMarker = none) →
      ∃ lgr : LedgerHeader, lgr.seq = out.ledgerIndex ∧
        out.header = some (E.toJsonHeader lgr input.binary ctx.apiVersion)) ∧
    ((tag_invoke_value_from out).contains "ledger" = true ↔ out.header.isSome = true) ∧
    (tag_invoke_value_from out).at? "ledger" = out.header := by
  obtain ⟨_, _, r, lgr, w1, pre, header, hfin, hh, _⟩ := process_ok E B input ctx w out hok
  rw [hfin] at hok
  obtain ⟨f, states, _, _, _, _, _, hidx, hhd, _⟩ :=
    finish_ok E B input lgr header w1 pre out hok
  have hiff : out.header.isSome = true ↔ (input.marker = none ∧ input.diffMarker = none) := by
    rw [hhd, hh]
    cases input.marker <;> cases input.diffMarker <;> simp
  refine ⟨hiff, fun hn => ⟨lgr, hidx.symm, ?_⟩, ?_, tag_invoke_value_from_ledger out⟩
  · rw [hhd, hh, hn.1, hn.2]
    rfl
  · unfold JObject.contains
    rw [tag_invoke_value_from_ledger]

/-- Witness of C20: a first page of the example backend carries the header, a diff-mode
page, requested with a sequence marker, does not. -/
theorem header_iff_no_marker_witness :
    (Example.offerPageOutput.header.isSome = true ↔
      (Example.offerPage.marker = none ∧ Example.offerPage.diffMarker = none)) ∧
    (tag_invoke_value_from Example.offerPageOutput).at? "ledger"
      = some (Json.object [("ledger_index", Json.uint64 10)]) ∧
    (Example.diffOutput.header.isSome = true ↔
      ((Example.diffRequest 5 10).marker = none ∧
        (Example.diffRequest 5 10).diffMarker = none)) ∧
    (tag_invoke_value_from Example.diffOutput).at? "ledger" = none :=
  ⟨(header_iff_no_marker Example.env Example.backend Example.offerPage Example.context 0
      Example.offerPageOutput rfl).1,
    (header_iff_no_marker Example.env Example.backend Example.offerPage Example.context 0
      Example.offerPageOutput rfl).2.2.2,
    (header_iff_no_marker Example.env Example.backend (Example.diffRequest 5 10)
      Example.context 0 Example.diffOutput rfl).1,
    (header_iff_no_marker Example.env Example.backend (Example.diffRequest 5 10)
      Example.context 0 Example.diffOutput rfl).2.2.2⟩

theorem tag_invoke_value_from_cache_full (out : Output) :
    (tag_invoke_value_from out).at? "cache_full" = out.cacheFull.map Json.bool := by
  unfold tag_invoke_value_from
  cases out.header <;> cases out.cacheFull <;> cases out.diffMarker <;> cases out.marker <;>
    simp +decide [JObject.at?_insert_or_assign_same, JObject.at?_insert_or_assign_other,
      JObject.at?]

/-- The fetch step does not ask the cache. -/
theorem fetchStep_calls_no_cache {σ : Type} (E : Env) (B : Backend σ) (input : Input)
    (seq : Nat) (w : σ) (b : Bool) :
    Call.cacheIsFull b ∉ (fetchStep E B input seq w).calls := by
  unfold fetchStep
  cases hd : input.diffMarker with
  | some m =>
    simp only [fetchDiff]
    cases collectObjects (diffKeys (B.fetchLedgerDiff w m).1)
        (B.fetchLedgerObjects (B.fetchLedgerDiff w m).2
          (diffKeys (B.fetchLedgerDiff w m).1) seq).1 <;>
      simp [FetchResult.calls]
  | none =>
    simp only [fetchPage]
    cases (B.fetchLedgerPage w input.marker seq (effectiveLimit E input)
        input.outOfOrder).1.cursor with
    | some c => simp [FetchResult.calls]
    | none =>
      simp only
      cases input.outOfOrder with
      | false => simp [FetchResult.calls]
      | true =>
        simp only [if_true]
        cases (B.fetchLedgerRange (B.fetchLedgerPage w input.marker seq
            (effectiveLimit E input) true).2).1 <;>
          simp [FetchResult.calls]

theorem toUint32_lt (i : Int) : toUint32 i < 2 ^ 32 := by
  unfold toUint32
  have h1 : (0 : Int) ≤ i % (2 ^ 32 : Int) := Int.emod_nonneg i (by norm_num)
  have h2 : i % (2 ^ 32 : Int) < (2 ^ 32 : Int) := Int.emod_lt_of_pos i (by norm_num)
  omega

/-- The next marker of the diff branch, for a marker in the unsigned 32-bit range. -/
theorem fetchDiff_marker {σ : Type} (B : Backend σ) (m seq : Nat) (w : σ) (f : Fetched σ)
    (h32 : m < 2 ^ 32) (h : fetchDiff B m seq w = FetchResult.fetched f) :
    (∀ d, f.diffMarker = some d →
      1 ≤ m ∧ seq < m ∧ d + 1 = m ∧ seq ≤ d ∧ d < 2 ^ 32) ∧
      (m = 0 → f.diffMarker = none) := by
  obtain ⟨_, hd, _, _⟩ := fetchDiff_some B m seq w f h
  constructor
  · intro d hdd
    rw [hd] at hdd
    by_cases hg : m > seq
    · rw [if_pos hg, sub32_one m (by omega) h32] at hdd
      have := Option.some.inj hdd
      omega
    · rw [if_neg hg] at hdd
      simp at hdd
  · intro h0
    rw [hd, if_neg (by omega)]

/-- C23: the decrement of the sequence marker does not wrap around. For a marker `m` in the
unsigned 32-bit range, as every parsed marker is, and the resolved sequence `s`: whenever
the diff branch sets a next marker `d`, then `m >= 1` (indeed `m > s`), `d` is the
mathematical `m - 1` (`d + 1 = m`), and `d >= s`; a marker of 0 yields no next marker.
This holds for the fetch step and for the output of every successful run. -/
theorem diffMarker_no_wrap {σ : Type} (E : Env) (B : Backend σ) (ctx : Context) (w : σ) :
    (∀ (m seq : Nat) (w1 : σ) (f : Fetched σ), m < 2 ^ 32 →
      fetchDiff B m seq w1 = FetchResult.fetched f →
      (∀ d, f.diffMarker = some d →
        1 ≤ m ∧ seq < m ∧ d + 1 = m ∧ seq ≤ d ∧ d < 2 ^ 32) ∧
        (m = 0 → f.diffMarker = none)) ∧
    (∀ (input : Input) (out : Output) (m : Nat), input.diffMarker = some m → m < 2 ^ 32 →
      (process E B input ctx w).outcome = Outcome.ok out →
      (∀ d, out.diffMarker = some d →
        1 ≤ m ∧ out.ledgerIndex < m ∧ d + 1 = m ∧ out.ledgerIndex ≤ d ∧ d < 2 ^ 32) ∧
        (m = 0 → out.diffMarker = none ∧ (tag_invoke_value_from out).at? "marker" = none)) ∧
    (∀ (jv : Json) (o : JObject) (n : Int) (input : Input),
      jv.as_object = some o → o.at? "marker" = some (Json.int64 n) →
      tag_invoke_value_to E jv = some input →
      ∃ m, input.diffMarker = some m ∧ m < 2 ^ 32) := by
  refine ⟨fun m seq w1 f h32 h => fetchDiff_marker B m seq w1 f h32 h,
    fun input out m hm h32 hok => ?_, fun jv o n input hjv hmk hparse => ?_⟩
  · obtain ⟨_, _, r, lgr, w1, pre, header, hfin, _, _⟩ := process_ok E B input ctx w out hok
    rw [hfin] at hok
    obtain ⟨f, states, hf, _, _, hmk, hdm, hidx, _⟩ :=
      finish_ok E B input lgr header w1 pre out hok
    simp only [fetchStep, hm] at hf
    obtain ⟨h1, h2⟩ := fetchDiff_marker B m lgr.seq w1 f h32 hf
    obtain ⟨hfm, _⟩ := fetchDiff_some B m lgr.seq w1 f hf
    rw [hdm, hidx]
    refine ⟨h1, fun h0 => ⟨h2 h0, ?_⟩⟩
    rw [tag_invoke_value_from_marker, hdm, h2 h0, hmk, hfm]
    rfl
  · exact ⟨toUint32 n, ((tag_invoke_value_to_fields E jv o input hjv hparse).2.2.2.1 n hmk).1,
      toUint32_lt n⟩

/-- Witness of C23: the marker 10 against the resolved sequence 5 gives the next marker 9;
without the guard, the 32-bit decrement of the marker 0 would give `2 ^ 32 - 1`. -/
theorem diffMarker_no_wrap_witness :
    (process Example.env Example.backend (Example.diffRequest 5 10) Example.context 0).outcome
      = Outcome.ok Example.diffOutput ∧
    (1 ≤ 10 ∧ Example.diffOutput.ledgerIndex < 10 ∧ 9 + 1 = 10 ∧
      Example.diffOutput.ledgerIndex ≤ 9 ∧ 9 < 2 ^ 32) ∧
    (∃ m, ({ Example.firstPage with diffMarker := some 7 } : Input).diffMarker = some m ∧
      m < 2 ^ 32) ∧
    sub32 0 1 = 4294967295 :=
  ⟨rfl,
    ((diffMarker_no_wrap Example.env Example.backend Example.context 0).2.1
      (Example.diffRequest 5 10) Example.diffOutput 10 rfl (by norm_num) rfl).1 9 rfl,
    (diffMarker_no_wrap Example.env Example.backend Example.context 0).2.2
      Example.jsonInOrderSequence _ 7 { Example.firstPage with diffMarker := some 7 }
      rfl rfl rfl,
    by decide⟩

/-- The run of `process` when the range is known, the ledger selector resolves and the
marker, if any, is of the right kind and exists: the second half, started in the world `w3`
that the third of these backend calls leaves. -/
theorem process_reaches_finish {σ : Type} (E : Env) (B : Backend σ) (input : Input)
    (ctx : Context) (w w1 w2 w3 : σ) (r : LedgerRange) (lgr : LedgerHeader)
    (hr : B.fetchLedgerRange w = (some r, w1))
    (hl : B.getLedgerInfoFromHashOrSeq w1 input.ledgerHash input.ledgerIndex r.maxSequence
      = (Sum.inr lgr, w2))
    (hm : (input.marker = none ∧ w3 = w2) ∨
      ∃ k blob, input.marker = some k ∧ B.fetchLedgerObject w2 k lgr.seq = (some blob, w3))
    (hc1 : input.outOfOrder = true → input.marker = none)
    (hc2 : input.outOfOrder = false → input.diffMarker = none) :
    ∃ header pre, process E B input ctx w = finish E B input lgr header w3 pre ∧
      pre.filter Call.isRecordFetch = [] ∧ (∀ b, Call.cacheIsFull b ∉ pre) := by
  have c1 : (input.outOfOrder && input.marker.isSome) = false := by
    cases ho : input.outOfOrder with
    | false => rfl
    | true => simp [hc1 ho]
  have c2 : (!input.outOfOrder && input.diffMarker.isSome) = false := by
    cases ho : input.outOfOrder with
    | true => rfl
    | false => simp [hc2 ho]
  unfold process
  simp only [c1, c2, Bool.false_eq_true, if_false, hr, hl]
  rcases hm with ⟨hmn, hw⟩ | ⟨k, blob, hmk, hobj⟩
  · subst hw
    simp only [hmn]
    cases input.diffMarker with
    | none =>
      exact ⟨some (E.toJsonHeader lgr input.binary ctx.apiVersion),
        [Call.fetchLedgerRange (some r), Call.getLedgerInfoFromHashOrSeq input.ledgerHash
          input.ledgerIndex r.maxSequence (Sum.inr lgr)],
        by simp, by simp [Call.isRecordFetch], by simp⟩
    | some m =>
      exact ⟨none,
        [Call.fetchLedgerRange (some r), Call.getLedgerInfoFromHashOrSeq input.ledgerHash
          input.ledgerIndex r.maxSequence (Sum.inr lgr)],
        by simp, by simp [Call.isRecordFetch], by simp⟩
  · simp only [hmk, hobj]
    exact ⟨none,
      [Call.fetchLedgerRange (some r), Call.getLedgerInfoFromHashOrSeq input.ledgerHash
        input.ledgerIndex r.maxSequence (Sum.inr lgr),
        Call.fetchLedgerObject k lgr.seq (some blob)],
      by simp, by simp [Call.isRecordFetch], by simp⟩

/-- The world that the diff branch leaves. -/
theorem fetchDiff_world {σ : Type} (B : Backend σ) (m seq : Nat) (w : σ) (f : Fetched σ)
    (h : fetchDiff B m seq w = FetchResult.fetched f) :
    f.world = (B.fetchLedgerObjects (B.fetchLedgerDiff w m).2
      (diffKeys (B.fetchLedgerDiff w m).1) seq).2 := by
  unfold fetchDiff at h
  simp only at h
  cases hc : collectObjects (diffKeys (B.fetchLedgerDiff w m).1)
      (B.fetchLedgerObjects (B.fetchLedgerDiff w m).2
        (diffKeys (B.fetchLedgerDiff w m).1) seq).1 with
  | none => simp [hc] at h
  | some results =>
    simp only [hc, FetchResult.fetched.injEq] at h
    subst h
    rfl

/-- The world that the full-state branch leaves. -/
theorem fetchPage_world {σ : Type} (E : Env) (B : Backend σ) (input : Input) (seq : Nat)
    (w : σ) (f : Fetched σ) (h : fetchPage E B input seq w = FetchResult.fetched f) :
    (∀ c, (B.fetchLedgerPage w input.marker seq (effectiveLimit E input)
        input.outOfOrder).1.cursor = some c →
      f.world = (B.fetchLedgerPage w input.marker seq (effectiveLimit E input)
        input.outOfOrder).2) ∧
    ((B.fetchLedgerPage w input.marker seq (effectiveLimit E input)
        input.outOfOrder).1.cursor = none → input.outOfOrder = true →
      f.world = (B.fetchLedgerRange (B.fetchLedgerPage w input.marker seq
        (effectiveLimit E input) input.outOfOrder).2).2) := by
  unfold fetchPage at h
  simp only at h
  cases hc : (B.fetchLedgerPage w input.marker seq (effectiveLimit E input)
      input.outOfOrder).1.cursor with
  | some c =>
    simp only [hc, FetchResult.fetched.injEq] at h
    subst h
    simp
  | none =>
    simp only [hc] at h
    cases ho : input.outOfOrder with
    | false => simp
    | true =>
      simp only [ho, if_true] at h
      cases hr : (B.fetchLedgerRange (B.fetchLedgerPage w input.marker seq
          (effectiveLimit E input) true).2).1 with
      | none => simp [hr] at h
      | some r =>
        simp only [hr, FetchResult.fetched.injEq] at h
        subst h
        simp

/-- The second half of a full-state run: its record fetches are those made before it and
one page fetch with the clamped limit, in the world it starts in; a successful output takes
its sequence from the resolved ledger and its states and key marker from that page. -/
theorem finish_page {σ : Type} (E : Env) (B : Backend σ) (input : Input) (lgr : LedgerHeader)
    (header : Option Json) (w : σ) (pre : List Call) (hd : input.diffMarker = none) :
    (finish E B input lgr header w pre).calls.filter Call.isRecordFetch
      = pre.filter Call.isRecordFetch ++
        [Call.fetchLedgerPage input.marker lgr.seq (effectiveLimit E input) input.outOfOrder
          (B.fetchLedgerPage w input.marker lgr.seq (effectiveLimit E input)
            input.outOfOrder).1] ∧
    ∀ out, (finish E B input lgr header w pre).outcome = Outcome.ok out →
      out.ledgerIndex = lgr.seq ∧
      out.states = ((B.fetchLedgerPage w input.marker lgr.seq (effectiveLimit E input)
        input.outOfOrder).1.objects.filter (passesFilter E input)).map
          (encodeState E input.binary) ∧
      out.marker = (B.fetchLedgerPage w input.marker lgr.seq (effectiveLimit E input)
        input.outOfOrder).1.cursor.map E.strHex := by
  constructor
  · obtain ⟨rest, hcalls, hrest⟩ := finish_calls E B input lgr header w pre
    rw [hcalls, List.filter_append, List.filter_append,
      (fetchStep_page_calls E B input lgr.seq w).1 hd]
    have : rest.filter Call.isRecordFetch = [] := by
      rw [List.filter_eq_nil_iff]
      intro c hc
      simp [hrest c hc]
    rw [this, List.append_nil]
  · intro out hok
    obtain ⟨f, states, hf, hs, hst, hmk, _, hidx, _, _, _⟩ :=
      finish_ok E B input lgr header w pre out hok
    simp only [fetchStep, hd] at hf
    obtain ⟨hres, hsome, hnone1, hnone2⟩ := fetchPage_fetched E B input lgr.seq w f hf
    refine ⟨hidx, ?_, ?_⟩
    · rw [hst, serializeStates_eq_filter E input f.results states hs, hres]
    · rw [hmk]
      cases hc : (B.fetchLedgerPage w input.marker lgr.seq (effectiveLimit E input)
          input.outOfOrder).1.cursor with
      | some c => rw [(hsome c hc).1]; rfl
      | none =>
        cases ho : input.outOfOrder with
        | true =>
          obtain ⟨_, h, _⟩ := hnone1 hc ho
          rw [h]
          rfl
        | false => rw [(hnone2 hc ho).1]; rfl

/-- C6: a full-state run of `process` that reaches the page fetch (the range is known, the
ledger selector resolves to `lgr`, the key marker if any exists; `w3` is the world these
backend calls leave) fetches records by exactly one backend call: `B.fetchLedgerPage` in
`w3` at `lgr.seq` with the limit `min(input.limit, LIMITBINARY)` when `input.binary` is
true and `min(input.limit, LIMITJSON)` when it is false. The run does not end in an error
status, and the states and the key marker of a successful output are those of the page
that this call returned. For every run, a page call in the log carries the clamped limit;
whether a run ends in an error status does not depend on the limit at all; and a request
member `limit` within the unsigned 32-bit range is the `input.limit` of the parsed input. -/
theorem fetchLedgerPage_limit_clamped {σ : Type} (E : Env) (B : Backend σ) (input : Input)
    (ctx : Context) (w w1 w2 w3 : σ) (r : LedgerRange) (lgr : LedgerHeader)
    (hr : B.fetchLedgerRange w = (some r, w1))
    (hl : B.getLedgerInfoFromHashOrSeq w1 input.ledgerHash input.ledgerIndex r.maxSequence
      = (Sum.inr lgr, w2))
    (hm : (input.marker = none ∧ w3 = w2) ∨
      ∃ k blob, input.marker = some k ∧ B.fetchLedgerObject w2 k lgr.seq = (some blob, w3))
    (hd : input.diffMarker = none)
    (ho : input.outOfOrder = true → input.marker = none) :
    (input.binary = true →
      (process E B input ctx w).calls.filter Call.isRecordFetch
        = [Call.fetchLedgerPage input.marker lgr.seq (min input.limit E.LIMITBINARY)
            input.outOfOrder
            (B.fetchLedgerPage w3 input.marker lgr.seq (min input.limit E.LIMITBINARY)
              input.outOfOrder).1]) ∧
    (input.binary = false →
      (process E B input ctx w).calls.filter Call.isRecordFetch
        = [Call.fetchLedgerPage input.marker lgr.seq (min input.limit E.LIMITJSON)
            input.outOfOrder
            (B.fetchLedgerPage w3 input.marker lgr.seq (min input.limit E.LIMITJSON)
              input.outOfOrder).1]) ∧
    (process E B input ctx w).outcome.status? = none ∧
    (∀ out, (process E B input ctx w).outcome = Outcome.ok out →
      out.states = ((B.fetchLedgerPage w3 input.marker lgr.seq
          (min input.limit (if input.binary then E.LIMITBINARY else E.LIMITJSON))
          input.outOfOrder).1.objects.filter fun o =>
            decide (input.type = LedgerEntryType.ltANY ∨
              E.sleType o.blob o.key = some input.type)).map (encodeState E input.binary) ∧
      out.marker = (B.fetchLedgerPage w3 input.marker lgr.seq
          (min input.limit (if input.binary then E.LIMITBINARY else E.LIMITJSON))
          input.outOfOrder).1.cursor.map E.strHex) ∧
    (∀ (E2 : Env) (B2 : Backend σ) (input2 : Input) (v : σ) cursor seq limit outOfOrder page,
      Call.fetchLedgerPage cursor seq limit outOfOrder page
        ∈ (process E2 B2 input2 ctx v).calls →
      (input2.binary = true → limit = min input2.limit E2.LIMITBINARY) ∧
      (input2.binary = false → limit = min input2.limit E2.LIMITJSON) ∧
      (process E2 B2 input2 ctx v).outcome.status? = none) ∧
    (∀ L, (process E B { input with limit := L } ctx w).outcome.status?
      = (process E B input ctx w).outcome.status?) ∧
    (∀ (jv : Json) (o : JObject) (L : Int) (parsed : Input),
      jv.as_object = some o → o.at? "limit" = some (Json.int64 L) → 0 ≤ L → L < 2 ^ 32 →
      tag_invoke_value_to E jv = some parsed → (parsed.limit : Int) = L) := by
  obtain ⟨header, pre, hfin, hpre, _⟩ := process_reaches_finish E B input ctx w w1 w2 w3 r lgr
    hr hl hm ho (fun _ => hd)
  obtain ⟨hcalls, hout⟩ := finish_page E B input lgr header w3 pre hd
  rw [hpre, List.nil_append] at hcalls
  refine ⟨fun hb => ?_, fun hb => ?_, ?_, fun out hok => ?_,
    fun E2 B2 input2 v cursor seq limit outOfOrder page hmem => ?_,
    process_status_limit E B input ctx w, fun jv o L parsed hjv hl h0 h32 hparse => ?_⟩
  · rw [hfin, hcalls]
    simp [effectiveLimit, hb]
  · rw [hfin, hcalls]
    simp [effectiveLimit, hb]
  · rw [hfin]
    exact finish_status E B input lgr header w3 pre
  · rw [hfin] at hok
    obtain ⟨_, hst, hmk⟩ := hout out hok
    exact ⟨hst, hmk⟩
  · have hmem2 : Call.fetchLedgerPage cursor seq limit outOfOrder page
        ∈ (process E2 B2 input2 ctx v).calls.filter Call.isRecordFetch :=
      List.mem_filter.2 ⟨hmem, rfl⟩
    rcases process_record_fetches E2 B2 input2 ctx v with ⟨_, h⟩ | ⟨lgr2, v1, hst, _, h⟩
    · rw [h] at hmem2
      simp at hmem2
    · rcases h with ⟨_, h⟩ | ⟨m, _, h⟩
      · rw [h] at hmem2
        have heq := List.mem_singleton.1 hmem2
        have hlim : limit = effectiveLimit E2 input2 := by
          simp only [Call.fetchLedgerPage.injEq] at heq
          exact heq.2.2.1
        refine ⟨fun hb => ?_, fun hb => ?_, hst⟩
        · rw [hlim]
          simp [effectiveLimit, hb]
        · rw [hlim]
          simp [effectiveLimit, hb]
      · rw [h] at hmem2
        simp at hmem2
  · rw [(tag_invoke_value_to_fields E jv o parsed hjv hparse).2.2.2.2.2.2.2 L hl]
    unfold toUint32
    rw [Int.emod_eq_of_lt h0 h32]
    exact Int.toNat_of_nonneg h0

/-- Witness of C6: under ceilings of 2 and 1 records, a first-page request with the limit 5
reaches the backend with the limit 2 in JSON mode and 1 in binary mode, and the output
holds the two records, or the one record, that the backend returned for that limit; asked
with the limit 5 the backend would have returned all three. The parsed request with the
limit 5000 has the limit 5000. -/
theorem fetchLedgerPage_limit_clamped_witness :
    (process Example.smallEnv Example.backend Example.clampedPage Example.context 0).calls.filter
      Call.isRecordFetch
      = [Call.fetchLedgerPage none 10 2 false ⟨[⟨1, [97, 1]⟩, ⟨2, [111, 5]⟩], some 2⟩] ∧
    (process Example.smallEnv Example.backend Example.binaryPage Example.context 0).calls.filter
      Call.isRecordFetch
      = [Call.fetchLedgerPage none 10 1 false ⟨[⟨1, [97, 1]⟩], some 1⟩] ∧
    (Example.backend.fetchLedgerPage 2 none 10 5 false).1 = ⟨Example.ledgerState, none⟩ ∧
    (process Example.smallEnv Example.backend Example.clampedPage Example.context 0).outcome
      = Outcome.ok Example.clampedPageOutput ∧
    (process Example.smallEnv Example.backend Example.binaryPage Example.context 0).outcome
      = Outcome.ok Example.binaryPageOutput ∧
    (process Example.smallEnv Example.backend Example.clampedPage
      Example.context 0).outcome.status? = none ∧
    Example.clampedPageOutput.marker = some "FF" ∧
    tag_invoke_value_to Example.env Example.jsonBinaryLimit
      = some { Example.firstPage with ledgerIndex := none, binary := true, limit := 5000 } ∧
    (((5000 : Nat) : Int) = 5000) :=
  ⟨(fetchLedgerPage_limit_clamped Example.smallEnv Example.backend Example.clampedPage
      Example.context 0 1 2 2 ⟨1, 30⟩ ⟨10, 10⟩ rfl rfl (Or.inl ⟨rfl, rfl⟩) rfl
      (fun _ => rfl)).2.1 rfl,
    (fetchLedgerPage_limit_clamped Example.smallEnv Example.backend Example.binaryPage
      Example.context 0 1 2 2 ⟨1, 30⟩ ⟨10, 10⟩ rfl rfl (Or.inl ⟨rfl, rfl⟩) rfl
      (fun _ => rfl)).1 rfl,
    by decide, rfl, rfl,
    (fetchLedgerPage_limit_clamped Example.smallEnv Example.backend Example.clampedPage
      Example.context 0 1 2 2 ⟨1, 30⟩ ⟨10, 10⟩ rfl rfl (Or.inl ⟨rfl, rfl⟩) rfl
      (fun _ => rfl)).2.2.1,
    ((fetchLedgerPage_limit_clamped Example.smallEnv Example.backend Example.clampedPage
      Example.context 0 1 2 2 ⟨1, 30⟩ ⟨10, 10⟩ rfl rfl (Or.inl ⟨rfl, rfl⟩) rfl
      (fun _ => rfl)).2.2.2.1 Example.clampedPageOutput rfl).2,
    rfl,
    (fetchLedgerPage_limit_clamped Example.env Example.backend Example.firstPage
      Example.context 0 1 2 2 ⟨1, 30⟩ ⟨10, 10⟩ rfl rfl (Or.inl ⟨rfl, rfl⟩) rfl
      (fun _ => rfl)).2.2.2.2.2.2 Example.jsonBinaryLimit _ 5000
      { Example.firstPage with ledgerIndex := none, binary := true, limit := 5000 }
      rfl rfl (by norm_num) (by norm_num) rfl⟩

/-- C3: in full-state mode (no sequence marker), for every successful run of `process`
whose ledger selector resolves to `lgr` and whose fetch step starts in the world `w3`: the
run fetches records by exactly one backend call, `B.fetchLedgerPage` in `w3` at `lgr.seq`
with the clamped limit `min(input.limit, ceiling)`; the emitted states are, in order, the
encodings (the hex data and index in binary mode, the JSON form otherwise) of the records
of the page which that call returned whose entry type is the requested one, or of all of
them when the type is `ltANY`; the record fetches of the run are the same whatever the type
filter; so when the page holds at most one record and that record does not have the
requested type, no state is emitted. -/
theorem states_filtered_after_limit {σ : Type} (E : Env) (B : Backend σ) (input : Input)
    (ctx : Context) (w w1 w2 w3 : σ) (r : LedgerRange) (lgr : LedgerHeader) (out : Output)
    (hr : B.fetchLedgerRange w = (some r, w1))
    (hl : B.getLedgerInfoFromHashOrSeq w1 input.ledgerHash input.ledgerIndex r.maxSequence
      = (Sum.inr lgr, w2))
    (hm : (input.marker = none ∧ w3 = w2) ∨
      ∃ k blob, input.marker = some k ∧ B.fetchLedgerObject w2 k lgr.seq = (some blob, w3))
    (hd : input.diffMarker = none)
    (hok : (process E B input ctx w).outcome = Outcome.ok out) :
    ∃ page : LedgerPage,
      page = (B.fetchLedgerPage w3 input.marker lgr.seq
        (min input.limit (if input.binary then E.LIMITBINARY else E.LIMITJSON))
        input.outOfOrder).1 ∧
      (process E B input ctx w).calls.filter Call.isRecordFetch
        = [Call.fetchLedgerPage input.marker lgr.seq
            (min input.limit (if input.binary then E.LIMITBINARY else E.LIMITJSON))
            input.outOfOrder page] ∧
      (∀ t, (process E B { input with type := t } ctx w).calls.filter Call.isRecordFetch
        = (process E B input ctx w).calls.filter Call.isRecordFetch) ∧
      out.ledgerIndex = lgr.seq ∧
      out.states = (page.objects.filter fun o =>
          decide (input.type = LedgerEntryType.ltANY ∨
            E.sleType o.blob o.key = some input.type)).map (fun o =>
          if input.binary then
            Json.object [("data", Json.string (E.serializeHex o.blob o.key)),
              ("index", Json.string (E.to_string o.key))]
          else E.toJsonSLE o.blob o.key) ∧
      (input.type = LedgerEntryType.ltANY →
        out.states = page.objects.map (encodeState E input.binary)) ∧
      (page.objects.length ≤ 1 →
        (∀ o, page.objects.head? = some o → input.type ≠ LedgerEntryType.ltANY ∧
          E.sleType o.blob o.key ≠ some input.type) →
        out.states = []) := by
  obtain ⟨hc1, hc2, _⟩ := process_ok E B input ctx w out hok
  obtain ⟨header, pre, hfin, hpre, _⟩ := process_reaches_finish E B input ctx w w1 w2 w3 r lgr
    hr hl hm hc1 hc2
  obtain ⟨hcalls, hout⟩ := finish_page E B input lgr header w3 pre hd
  rw [hpre, List.nil_append] at hcalls
  rw [hfin] at hok
  obtain ⟨hidx, hst, _⟩ := hout out hok
  have hst2 : out.states = ((B.fetchLedgerPage w3 input.marker lgr.seq
      (min input.limit (if input.binary then E.LIMITBINARY else E.LIMITJSON))
      input.outOfOrder).1.objects.filter (passesFilter E input)).map
        (encodeState E input.binary) := hst
  refine ⟨_, rfl, ?_, fun t => ?_, hidx, ?_, fun hany => ?_, fun hlen hno => ?_⟩
  · rw [hfin, hcalls]
    rfl
  · obtain ⟨header3, pre3, hfin3, hpre3, _⟩ := process_reaches_finish E B
      { input with type := t } ctx w w1 w2 w3 r lgr hr hl hm hc1 hc2
    obtain ⟨hcalls3, _⟩ := finish_page E B { input with type := t } lgr header3 w3 pre3 hd
    rw [hpre3, List.nil_append] at hcalls3
    rw [hfin3, hcalls3, hfin, hcalls]
    rfl
  · exact hst2
  · rw [hst2]
    congr 1
    rw [List.filter_eq_self]
    intro o _
    simp [passesFilter, hany]
  · rw [hst2]
    cases hobjs : (B.fetchLedgerPage w3 input.marker lgr.seq
        (min input.limit (if input.binary then E.LIMITBINARY else E.LIMITJSON))
        input.outOfOrder).1.objects with
    | nil => rfl
    | cons o rest =>
      rw [hobjs] at hlen hno
      have hrest : rest = [] := by
        cases rest with
        | nil => rfl
        | cons _ _ => simp at hlen
      subst hrest
      obtain ⟨h1, h2⟩ := hno o rfl
      simp [passesFilter, h1, h2]

/-- Witness of C3: under a JSON ceiling of 2 records, a first-page request with the limit 5
and the type account root gets the page of the first two records, fetched once with the
limit 2, and emits the account root with key 1 alone; the account root with key 4, which
the backend would have returned for the limit 5, is not fetched to fill the page. With the
limit 1 and the type offer, the page holds the account root with key 1 only and no state
is emitted. -/
theorem states_filtered_after_limit_witness :
    (process Example.smallEnv Example.backend Example.accountPage Example.context 0).outcome
      = Outcome.ok Example.accountPageOutput ∧
    (Example.backend.fetchLedgerPage 2 none 10 5 false).1 = ⟨Example.ledgerState, none⟩ ∧
    (∃ page : LedgerPage,
      page = ⟨[⟨1, [97, 1]⟩, ⟨2, [111, 5]⟩], some 2⟩ ∧
      (process Example.smallEnv Example.backend Example.accountPage
        Example.context 0).calls.filter Call.isRecordFetch
        = [Call.fetchLedgerPage none 10 2 false page] ∧
      Example.accountPageOutput.states = (page.objects.filter fun o =>
          decide (Example.accountPage.type = LedgerEntryType.ltANY ∨
            Example.smallEnv.sleType o.blob o.key = some Example.accountPage.type)).map
          (fun o => Example.smallEnv.toJsonSLE o.blob o.key)) ∧
    Example.accountPageOutput.states = [Json.object [("index", Json.uint64 1)]] ∧
    (process Example.env Example.backend Example.offerPage Example.context 0).outcome
      = Outcome.ok Example.offerPageOutput ∧
    (∃ page : LedgerPage,
      page = ⟨[⟨1, [97, 1]⟩], some 1⟩ ∧
      (process Example.env Example.backend Example.offerPage Example.context 0).calls.filter
        Call.isRecordFetch = [Call.fetchLedgerPage none 10 1 false page] ∧
      Example.offerPageOutput.states = []) := by
  obtain ⟨page, hp, hcalls, _, _, hst, _, _⟩ :=
    states_filtered_after_limit Example.smallEnv Example.backend Example.accountPage
      Example.context 0 1 2 2 ⟨1, 30⟩ ⟨10, 10⟩ Example.accountPageOutput rfl rfl
      (Or.inl ⟨rfl, rfl⟩) rfl rfl
  obtain ⟨page2, hp2, hcalls2, _, _, _, _, hempty⟩ :=
    states_filtered_after_limit Example.env Example.backend Example.offerPage
      Example.context 0 1 2 2 ⟨1, 30⟩ ⟨10, 10⟩ Example.offerPageOutput rfl rfl
      (Or.inl ⟨rfl, rfl⟩) rfl rfl
  refine ⟨rfl, by decide, ⟨page, hp, hcalls, hst⟩, rfl, rfl, ⟨page2, hp2, hcalls2, ?_⟩⟩
  apply hempty
  · rw [hp2]
    decide
  · intro o ho
    rw [hp2] at ho
    have : o = ⟨1, [97, 1]⟩ := (Option.some.inj ho).symm
    subst this
    exact ⟨by decide, by decide⟩

/-- C7: in diff mode, for every successful run of `process` whose ledger selector resolves
to `lgr`, where `diff` is what `B.fetchLedgerDiff` returned for the marker, `keys` are the
keys of the entries of `diff` with an empty blob, in diff order, and `objs` is what
`B.fetchLedgerObjects` returned for `keys` at the resolved sequence `lgr.seq`, one blob per
key: these two backend calls are the record fetches of the run, and the records passed on
to serialization are exactly the pairs of a key of `keys` and the blob returned for it, in
order, whose returned blob is not empty. Each of them has a key that `diff` lists with an
empty blob, and a key that `diff` lists with non-empty blobs only is not among them. -/
theorem diff_results {σ : Type} (E : Env) (B : Backend σ) (input : Input) (ctx : Context)
    (w w1 w2 w3 w4 : σ) (r : LedgerRange) (lgr : LedgerHeader) (out : Output) (m : Nat)
    (diff : List LedgerObject) (objs : List Blob)
    (hr : B.fetchLedgerRange w = (some r, w1))
    (hl : B.getLedgerInfoFromHashOrSeq w1 input.ledgerHash input.ledgerIndex r.maxSequence
      = (Sum.inr lgr, w2))
    (hm : input.diffMarker = some m)
    (hdiff : B.fetchLedgerDiff w2 m = (diff, w3))
    (hobjs : B.fetchLedgerObjects w3
      ((diff.filter fun o => o.blob.isEmpty).map LedgerObject.key) lgr.seq = (objs, w4))
    (hlen : objs.length = ((diff.filter fun o => o.blob.isEmpty).map LedgerObject.key).length)
    (hok : (process E B input ctx w).outcome = Outcome.ok out) :
    ∃ results : List LedgerObject,
      results = (((((diff.filter fun o => o.blob.isEmpty).map LedgerObject.key).zip objs).filter
        fun p => !p.2.isEmpty).map fun p => (⟨p.1, p.2⟩ : LedgerObject)) ∧
      serializeStates E input results = some out.states ∧
      out.ledgerIndex = lgr.seq ∧
      (process E B input ctx w).calls.filter Call.isRecordFetch
        = [Call.fetchLedgerDiff m diff,
          Call.fetchLedgerObjects ((diff.filter fun o => o.blob.isEmpty).map LedgerObject.key)
            lgr.seq objs] ∧
      (∀ x ∈ results, x.blob ≠ [] ∧ ∃ e ∈ diff, e.key = x.key ∧ e.blob = []) ∧
      (∀ k, (∀ e ∈ diff, e.key = k → e.blob ≠ []) → k ∉ results.map LedgerObject.key) := by
  obtain ⟨hc1, hc2, _⟩ := process_ok E B input ctx w out hok
  have hooo : input.outOfOrder = true := by
    cases ho : input.outOfOrder with
    | true => rfl
    | false =>
      rw [hc2 ho] at hm
      cases hm
  obtain ⟨header, pre, hfin, hpre, _⟩ := process_reaches_finish E B input ctx w w1 w2 w2 r lgr
    hr hl (Or.inl ⟨hc1 hooo, rfl⟩) hc1 hc2
  rw [hfin] at hok
  obtain ⟨f, states, hf, hs, hst, _, _, hidx, _, _, hcalls⟩ :=
    finish_ok E B input lgr header w2 pre out hok
  simp only [fetchStep, hm] at hf
  obtain ⟨_, _, hfc, hcol⟩ := fetchDiff_some B m lgr.seq w2 f hf
  simp only [hdiff, diffKeys, hobjs] at hfc hcol
  have hzip := collectFrom_zip ((diff.filter fun o => o.blob.isEmpty).map LedgerObject.key)
    objs 0 (by rw [Nat.zero_add]; exact Nat.le_of_eq hlen)
  rw [List.drop_zero] at hzip
  unfold collectObjects at hcol
  rw [hcol] at hzip
  have hres := Option.some.inj hzip
  have hmemb : ∀ x ∈ f.results, x.blob ≠ [] ∧ ∃ e ∈ diff, e.key = x.key ∧ e.blob = [] := by
    intro x hx
    rw [hres] at hx
    simp only [List.mem_map, List.mem_filter, Prod.exists] at hx
    obtain ⟨k, b, ⟨hz, hne⟩, rfl⟩ := hx
    have hk := (List.of_mem_zip hz).1
    simp only [List.mem_map, List.mem_filter] at hk
    obtain ⟨e, ⟨he, hemp⟩, hek⟩ := hk
    refine ⟨?_, e, he, hek, ?_⟩
    · intro hb
      simp only at hb
      simp [hb] at hne
    · simpa using hemp
  refine ⟨f.results, hres, by rw [hst]; exact hs, hidx, ?_, hmemb, fun k hk hin => ?_⟩
  · rw [hfin, hcalls, List.filter_append, List.filter_append, hpre, hfc]
    cases input.outOfOrder <;> simp [Call.isRecordFetch]
  · simp only [List.mem_map] at hin
    obtain ⟨x, hx, hxk⟩ := hin
    obtain ⟨_, e, he, hek, hb⟩ := hmemb x hx
    exact hk e he (hek.trans hxk) hb

/-- Witness of C7: the diff deletes the keys 1 and 3 and writes the key 2. The key 3 exists
from ledger 20 on, so asked at the marker 25 the backend returns an offer for it; asked at
the resolved ledger 5 it returns nothing, and the account root of key 1 alone is passed on
and emitted. -/
theorem diff_results_witness :
    (process Example.env Example.historyBackend (Example.diffRequest 5 25)
      Example.context 0).outcome = Outcome.ok Example.historyDiffOutput ∧
    (Example.historyBackend.fetchLedgerObjects 3 [1, 3] 25).1 = [[97, 1], [111, 3]] ∧
    ∃ results : List LedgerObject,
      results = [⟨1, [97, 1]⟩] ∧
      serializeStates Example.env (Example.diffRequest 5 25) results
        = some [Json.object [("index", Json.uint64 1)]] ∧
      (process Example.env Example.historyBackend (Example.diffRequest 5 25)
        Example.context 0).calls.filter Call.isRecordFetch
        = [Call.fetchLedgerDiff 25 Example.ledgerDiff,
          Call.fetchLedgerObjects [1, 3] 5 [[97, 1], []]] ∧
      2 ∉ results.map LedgerObject.key ∧ 3 ∉ results.map LedgerObject.key := by
  obtain ⟨results, hres, hs, _, hcalls, _, hk⟩ :=
    diff_results Example.env Example.historyBackend (Example.diffRequest 5 25) Example.context
      0 1 2 3 4 ⟨1, 30⟩ ⟨5, 5⟩ Example.historyDiffOutput 25 Example.ledgerDiff [[97, 1], []]
      rfl rfl rfl rfl rfl rfl rfl
  have hres2 : results = [⟨1, [97, 1]⟩] := hres.trans (by decide)
  refine ⟨rfl, by decide, results, hres2, hs, hcalls, hk 2 (by decide), ?_⟩
  rw [hres2]
  decide

/-- C21: for every successful run of `process` whose ledger selector resolves to `lgr`, the
backend being in the world `w2` afterwards: the output reports cache fullness exactly when
`input.outOfOrder` is true, and the encoded output has the member `cache_full` exactly
then, with the reported value as a boolean. With `outOfOrder`, the reported value is what
`B.cacheIsFull` returns in the world that the record fetches of the run leave: after the
diff and the batched object fetch in diff mode, after the page fetch in full-state mode
when the page has a cursor, and after the range fetch that follows it when it has none.
This call is the last backend call of the run and its only cache call; without
`outOfOrder` the cache is not asked. -/
theorem cacheFull_iff_outOfOrder {σ : Type} (E : Env) (B : Backend σ) (input : Input)
    (ctx : Context) (w w1 w2 : σ) (r : LedgerRange) (lgr : LedgerHeader) (out : Output)
    (hr : B.fetchLedgerRange w = (some r, w1))
    (hl : B.getLedgerInfoFromHashOrSeq w1 input.ledgerHash input.ledgerIndex r.maxSequence
      = (Sum.inr lgr, w2))
    (hok : (process E B input ctx w).outcome = Outcome.ok out) :
    (out.cacheFull.isSome = true ↔ input.outOfOrder = true) ∧
    ((tag_invoke_value_from out).contains "cache_full" = true ↔ input.outOfOrder = true) ∧
    (tag_invoke_value_from out).at? "cache_full" = out.cacheFull.map Json.bool ∧
    (input.outOfOrder = true → ∀ m, input.diffMarker = some m →
      out.cacheFull = some (B.cacheIsFull (B.fetchLedgerObjects (B.fetchLedgerDiff w2 m).2
        ((((B.fetchLedgerDiff w2 m).1).filter fun o => o.blob.isEmpty).map LedgerObject.key)
        lgr.seq).2).1) ∧
    (input.outOfOrder = true → input.diffMarker = none →
      ∀ c, (B.fetchLedgerPage w2 none lgr.seq
        (min input.limit (if input.binary then E.LIMITBINARY else E.LIMITJSON)) true).1.cursor
          = some c →
      out.cacheFull = some (B.cacheIsFull (B.fetchLedgerPage w2 none lgr.seq
        (min input.limit (if input.binary then E.LIMITBINARY else E.LIMITJSON)) true).2).1) ∧
    (input.outOfOrder = true → input.diffMarker = none →
      (B.fetchLedgerPage w2 none lgr.seq
        (min input.limit (if input.binary then E.LIMITBINARY else E.LIMITJSON)) true).1.cursor
          = none →
      out.cacheFull = some (B.cacheIsFull (B.fetchLedgerRange (B.fetchLedgerPage w2 none lgr.seq
        (min input.limit (if input.binary then E.LIMITBINARY else E.LIMITJSON))
          true).2).2).1) ∧
    (input.outOfOrder = true →
      ∃ (full : Bool) (before : List Call),
        (process E B input ctx w).calls = before ++ [Call.cacheIsFull full] ∧
        (∀ b, Call.cacheIsFull b ∉ before) ∧
        out.cacheFull = some full ∧
        (tag_invoke_value_from out).at? "cache_full" = some (Json.bool full)) ∧
    (input.outOfOrder = false →
      (∀ b, Call.cacheIsFull b ∉ (process E B input ctx w).calls) ∧
        out.cacheFull = none ∧ (tag_invoke_value_from out).at? "cache_full" = none) := by
  obtain ⟨hc1, hc2, _⟩ := process_ok E B input ctx w out hok
  have hcases : ∃ w3, (input.marker = none ∧ w3 = w2) ∨
      ∃ k blob, input.marker = some k ∧ B.fetchLedgerObject w2 k lgr.seq = (some blob, w3) := by
    have hok2 := hok
    unfold process at hok2
    cases hmk : input.marker with
    | none => exact ⟨w2, Or.inl ⟨rfl, rfl⟩⟩
    | some k =>
      have ho : input.outOfOrder = false := by
        cases ho : input.outOfOrder with
        | false => rfl
        | true =>
          rw [hc1 ho] at hmk
          cases hmk
      cases hb : (B.fetchLedgerObject w2 k lgr.seq).1 with
      | none =>
        simp [hmk, ho, hc2 ho, hr, hl, hb] at hok2
      | some blob =>
        exact ⟨(B.fetchLedgerObject w2 k lgr.seq).2, Or.inr ⟨k, blob, rfl, by rw [← hb]⟩⟩
  obtain ⟨w3, hm⟩ := hcases
  obtain ⟨header, pre, hfin, _, hpre2⟩ := process_reaches_finish E B input ctx w w1 w2 w3 r lgr
    hr hl hm hc1 hc2
  have hw3 : input.outOfOrder = true → w3 = w2 := by
    intro ho
    rcases hm with ⟨_, h⟩ | ⟨k, blob, hk, _⟩
    · exact h
    · rw [hc1 ho] at hk
      cases hk
  rw [hfin] at hok
  obtain ⟨f, states, hf, _, _, _, _, _, _, hcf, hcalls⟩ :=
    finish_ok E B input lgr header w3 pre out hok
  have hfc : ∀ b, Call.cacheIsFull b ∉ f.calls := by
    intro b
    have h := fetchStep_calls_no_cache E B input lgr.seq w3 b
    rw [hf] at h
    exact h
  have hiff : out.cacheFull.isSome = true ↔ input.outOfOrder = true := by
    rw [hcf]
    cases input.outOfOrder <;> simp
  have hv : input.outOfOrder = true → out.cacheFull = some (B.cacheIsFull f.world).1 := by
    intro ho
    rw [hcf, ho]
    rfl
  refine ⟨hiff, ?_, tag_invoke_value_from_cache_full out, fun ho m hdm => ?_,
    fun ho hdm c hc => ?_, fun ho hdm hc => ?_, fun ho => ?_, fun ho => ?_⟩
  · unfold JObject.contains
    rw [tag_invoke_value_from_cache_full, Option.isSome_map']
    exact hiff
  · rw [hw3 ho] at hf
    simp only [fetchStep, hdm] at hf
    rw [hv ho, fetchDiff_world B m lgr.seq w2 f hf]
    rfl
  · rw [hw3 ho] at hf
    simp only [fetchStep, hdm] at hf
    have hwd := (fetchPage_world E B input lgr.seq w2 f hf).1
    rw [hc1 ho, ho] at hwd
    rw [hv ho, hwd c hc]
    rfl
  · rw [hw3 ho] at hf
    simp only [fetchStep, hdm] at hf
    have hwd := (fetchPage_world E B input lgr.seq w2 f hf).2
    rw [hc1 ho, ho] at hwd
    rw [hv ho, hwd hc rfl]
    rfl
  · refine ⟨(B.cacheIsFull f.world).1, pre ++ f.calls, ?_, fun b hb => ?_, hv ho, ?_⟩
    · rw [hfin, hcalls, ho]
      rfl
    · rcases List.mem_append.1 hb with hb | hb
      · exact hpre2 b hb
      · exact hfc b hb
    · rw [tag_invoke_value_from_cache_full, hv ho]
      rfl
  · have hn : out.cacheFull = none := by
      rw [hcf, ho]
      rfl
    refine ⟨fun b hb => ?_, hn, by rw [tag_invoke_value_from_cache_full, hn]; rfl⟩
    rw [hfin, hcalls, ho] at hb
    simp only [Bool.false_eq_true, if_false, List.append_nil] at hb
    rcases List.mem_append.1 hb with hb | hb
    · exact hpre2 b hb
    · exact hfc b hb

/-- Witness of C21: a backend whose cache is full only when asked before time 4. The diff
request asks it at time 4, after the diff and the object fetch, and reports false; the
out-of-order page with a cursor asks it at time 3, after the page fetch, and reports true;
the out-of-order page without cursor asks it at time 4, after the range fetch, and reports
false; the in-order page reports nothing. -/
theorem cacheFull_iff_outOfOrder_witness :
    (process Example.env Example.historyBackend (Example.diffRequest 5 25)
      Example.context 0).outcome = Outcome.ok Example.historyDiffOutput ∧
    Example.historyDiffOutput.cacheFull = some (Example.historyBackend.cacheIsFull 4).1 ∧
    (Example.historyBackend.cacheIsFull 4).1 = false ∧
    (process Example.env Example.historyBackend Example.outOfOrderShortPage
      Example.context 0).outcome = Outcome.ok Example.outOfOrderShortPageOutput ∧
    Example.outOfOrderShortPageOutput.cacheFull
      = some (Example.historyBackend.cacheIsFull 3).1 ∧
    (Example.historyBackend.cacheIsFull 3).1 = true ∧
    (process Example.env Example.historyBackend Example.outOfOrderPage
      Example.context 0).outcome = Outcome.ok Example.historyOutOfOrderOutput ∧
    Example.historyOutOfOrderOutput.cacheFull
      = some (Example.historyBackend.cacheIsFull 4).1 ∧
    (process Example.env Example.historyBackend Example.outOfOrderPage Example.context 0).calls
      = [Call.fetchLedgerRange (some ⟨1, 30⟩),
        Call.getLedgerInfoFromHashOrSeq none (some 10) 30 (Sum.inr ⟨10, 10⟩),
        Call.fetchLedgerPage none 10 256 true ⟨Example.ledgerState, none⟩,
        Call.fetchLedgerRange (some ⟨1, 33⟩), Call.cacheIsFull false] ∧
    (tag_invoke_value_from Example.historyOutOfOrderOutput).at? "cache_full"
      = some (Json.bool false) ∧
    Example.offerPageOutput.cacheFull = none ∧
    (tag_invoke_value_from Example.offerPageOutput).at? "cache_full" = none :=
  ⟨rfl,
    (cacheFull_iff_outOfOrder Example.env Example.historyBackend (Example.diffRequest 5 25)
      Example.context 0 1 2 ⟨1, 30⟩ ⟨5, 5⟩ Example.historyDiffOutput rfl rfl rfl).2.2.2.1
      rfl 25 rfl,
    rfl, rfl,
    (cacheFull_iff_outOfOrder Example.env Example.historyBackend Example.outOfOrderShortPage
      Example.context 0 1 2 ⟨1, 30⟩ ⟨10, 10⟩ Example.outOfOrderShortPageOutput
      rfl rfl rfl).2.2.2.2.1 rfl rfl 1 rfl,
    rfl, rfl,
    (cacheFull_iff_outOfOrder Example.env Example.historyBackend Example.outOfOrderPage
      Example.context 0 1 2 ⟨1, 30⟩ ⟨10, 10⟩ Example.historyOutOfOrderOutput
      rfl rfl rfl).2.2.2.2.2.1 rfl rfl rfl,
    by decide, rfl,
    ((cacheFull_iff_outOfOrder Example.env Example.historyBackend Example.offerPage
      Example.context 0 1 2 ⟨1, 30⟩ ⟨10, 10⟩ Example.offerPageOutput
      rfl rfl rfl).2.2.2.2.2.2.2 rfl).2.1,
    ((cacheFull_iff_outOfOrder Example.env Example.historyBackend Example.offerPage
      Example.context 0 1 2 ⟨1, 30⟩ ⟨10, 10⟩ Example.offerPageOutput
      rfl rfl rfl).2.2.2.2.2.2.2 rfl).2.2⟩

end LedgerDataHandler

end Clio
